import Mathlib

/-!
# Inventory ledger and stock allocation engine

A shallow embedding of the transactional core of the stock-in-order backend
(`internal/models/sales_order.go`, `internal/models/purchase_order.go`), of the
handlers, middleware and helpers around it (`internal/handlers`,
`internal/middleware/auth.go`, `internal/router/router.go`,
`internal/models/product.go`, `internal/models/pagination.go`, and
`internal/invoices/pdf_generator.go` of the worker service), and proofs of
their contract.

Conventions of the embedding.

* The relational store is a record of tables; a table is the list of its rows
  in insertion order. `INSERT` appends a row, `UPDATE ... WHERE` maps over the
  rows, `SELECT ... WHERE` filters them.
* Go `int` and `int64` values are `Int`. The engine compares quantities and
  subtracts a smaller positive quantity from a larger one, which stays within
  the 64-bit range for the quantities a store can hold; it negates the
  quantity of an order line once, and that negation is Go's, `negInt`, which
  leaves `-2^63` as it is. Arithmetic on numbers that come straight from a
  request, in the pagination helpers and in the product update handler, is
  reduced to 64 bits with `wrapInt`.
* `time.Time` is an `Int` instant; `sql.NullTime`, `sql.NullString`,
  `sql.NullInt64` and Go pointers to such values are `Option`s.
* `float64` values are only stored and copied, never computed on; they are
  carried as their bit pattern.
* Every call into the database driver may fail. The list of booleans threaded
  through the operations is the fault script: its head says whether the next
  driver call fails, and an exhausted script means no further failure.
* A transaction works on a copy of the committed store. `Commit` publishes the
  copy, `Rollback` discards it; the id sequences are not transactional.
* An HTTP handler maps a request (its context, its decoded body, its path
  variable), the store and a fault script to a reply: the response, the store
  after the request, and the calls it made into the sales-order model.
-/

namespace StockInOrder

/-! ## Data model -/

/-- IEEE-754 bit pattern of a Go `float64`. -/
abbrev float64 := Nat

/-- Row of `products` (struct `Product`). -/
structure Product where
  ID : Int
  Name : String
  SKU : String
  StockMinimo : Int
  Notificado : Bool
  UserID : Int
  deriving DecidableEq, Repr

/-- Row of `product_batches` (struct `ProductBatch`). -/
structure ProductBatch where
  ID : Int
  ProductID : Int
  UserID : Int
  LoteNumber : Option String
  Quantity : Int
  ExpiryDate : Option Int
  CreatedAt : Int
  deriving DecidableEq, Repr

/-- Row of `sales_orders` (struct `SalesOrder`, persisted columns). -/
structure SalesOrder where
  ID : Int
  CustomerID : Option Int
  OrderDate : Int
  Status : String
  TotalAmount : Option float64
  UserID : Int
  deriving DecidableEq, Repr

/-- Row of `order_items` (struct `OrderItem`). -/
structure OrderItem where
  ID : Int
  OrderID : Int
  ProductID : Int
  Quantity : Int
  UnitPrice : float64
  deriving DecidableEq, Repr

/-- Row of `stock_movements`, with the columns the engine writes. -/
structure StockMovement where
  product_id : Int
  quantity_change : Int
  reason : String
  reference_id : String
  user_id : Int
  deriving DecidableEq, Repr

/-- Row of `purchase_orders` (struct `PurchaseOrder`, persisted columns). -/
structure PurchaseOrder where
  ID : Int
  SupplierID : Option Int
  OrderDate : Option Int
  Status : String
  UserID : Int
  deriving DecidableEq, Repr

/-- Row of `purchase_order_items`. The columns `lote_number` and
`expiry_date` are nullable. -/
structure PurchaseOrderItem where
  ID : Int
  PurchaseOrderID : Int
  ProductID : Int
  Quantity : Int
  UnitCost : float64
  LoteNumber : Option String
  ExpiryDate : Option Int
  deriving DecidableEq, Repr

/-- The relational store: one list of rows per table, and the id sequences
behind the `RETURNING id` columns. -/
structure Store where
  products : List Product
  product_batches : List ProductBatch
  sales_orders : List SalesOrder
  order_items : List OrderItem
  stock_movements : List StockMovement
  purchase_orders : List PurchaseOrder
  purchase_order_items : List PurchaseOrderItem
  sales_orders_id_seq : Int
  order_items_id_seq : Int
  product_batches_id_seq : Int
  deriving DecidableEq, Repr

/-- Detailed shortage report (struct `InsufficientStockError`). -/
structure InsufficientStockError where
  ProductID : Int
  ProductName : String
  Requested : Int
  Available : Int
  deriving DecidableEq, Repr

/-- The Go `error` values the engine returns. -/
inductive Error where
  /-- The sentinel `ErrInsufficientStock`. -/
  | ErrInsufficientStock
  /-- A pointer to an `InsufficientStockError`. -/
  | Shortfall (e : InsufficientStockError)
  /-- The sentinel `ErrNotFound`. -/
  | ErrNotFound
  /-- An error of the driver: a failed query, statement, begin or commit. -/
  | Driver
  /-- The driver refusing to scan a NULL column into a Go `string`. -/
  | ScanNull
  /-- The sentinel `ErrDuplicateSKU`. -/
  | ErrDuplicateSKU
  deriving DecidableEq, Repr

/-! ## The driver -/

/-- Whether the next driver call fails, according to the fault script. -/
def failsNow : List Bool → Bool
  | [] => false
  | f :: _ => f

/-- What is left of the transaction when the deferred function of `Create` or
`UpdateStatus` runs `tx.Rollback`: the rows go back to the committed ones, the
sequences keep the values they reached. -/
def Rollback (db tx : Store) : Store :=
  { db with
    sales_orders_id_seq := tx.sales_orders_id_seq
    order_items_id_seq := tx.order_items_id_seq
    product_batches_id_seq := tx.product_batches_id_seq }

/-! ## FEFO allocator -/

/-- Order of `expiry_date ASC NULLS LAST`, strict part. -/
def expiryLT : Option Int → Option Int → Bool
  | some a, some b => decide (a < b)
  | some _, none => true
  | none, _ => false

/-- Order of `ORDER BY expiry_date ASC NULLS LAST, created_at ASC`: the row
`a` may come before the row `b`. -/
def fefoLE (a b : ProductBatch) : Prop :=
  expiryLT a.ExpiryDate b.ExpiryDate = true ∨
    (a.ExpiryDate = b.ExpiryDate ∧ a.CreatedAt ≤ b.CreatedAt)

instance fefoLE_decidable : DecidableRel fefoLE := fun a b => by
  unfold fefoLE; exact inferInstance

/-- The rows matched by `WHERE product_id = $1 AND user_id = $2 AND quantity > 0`,
the condition shared by `qBatches` and `qTotalStock`. -/
def stockRows (db : Store) (productID userID : Int) : List ProductBatch :=
  db.product_batches.filter fun b =>
    decide (b.ProductID = productID ∧ b.UserID = userID ∧ b.Quantity > 0)

/-- The derived quantity of a product for a tenant: the sum of the quantities
of its batches with `quantity > 0`. -/
def availableStock (db : Store) (productID userID : Int) : Int :=
  ((stockRows db productID userID).map fun b => b.Quantity).sum

/-- Rows selected by `qBatches`: the batches of the product and tenant with
`quantity > 0`, in FEFO order. Rows that the `ORDER BY` does not separate keep
their table order. -/
def qBatches (tx : Store) (productID userID : Int) : List ProductBatch :=
  (stockRows tx productID userID).insertionSort fefoLE

/-- Strict FEFO precedence of two batches: `a` expires strictly earlier than
`b`, or `a` has an expiry date and `b` has none, or both have the same expiry
date or both none and `a` was created earlier. -/
def fefoBefore (a b : ProductBatch) : Prop :=
  expiryLT a.ExpiryDate b.ExpiryDate = true ∨
    (a.ExpiryDate = b.ExpiryDate ∧ a.CreatedAt < b.CreatedAt)

instance fefoBefore_decidable : DecidableRel fefoBefore := fun a b => by
  unfold fefoBefore; exact inferInstance

/-- The local struct `batch` of `ConsumeStockFEFO`. -/
structure batch where
  id : Int
  quantity : Int
  expiryDate : Option Int
  loteNumber : String
  deriving DecidableEq, Repr

/-- The call `rows.Scan(&b.id, &b.quantity, &b.expiryDate, &b.loteNumber)`:
`loteNumber` is a Go `string`, which cannot receive NULL. -/
def scanBatch (row : ProductBatch) : Option batch :=
  match row.LoteNumber with
  | none => none
  | some l => some { id := row.ID, quantity := row.Quantity, expiryDate := row.ExpiryDate, loteNumber := l }

/-- The `batch` value that the scan of a row with a lot number yields. -/
def toBatch (row : ProductBatch) : batch :=
  { id := row.ID, quantity := row.Quantity, expiryDate := row.ExpiryDate,
    loteNumber := row.LoteNumber.getD "" }

/-- The loop `for rows.Next()` of `ConsumeStockFEFO`: every row is scanned, and
the first scan that fails ends the function. -/
def scanRows : List ProductBatch → Option (List batch)
  | [] => some []
  | row :: rows =>
    match scanBatch row with
    | none => none
    | some b =>
      match scanRows rows with
      | none => none
      | some bs => some (b :: bs)

/-- The statement `UPDATE product_batches SET quantity = $1 WHERE id = $2`. -/
def updateBatch (tx : Store) (newQuantity id : Int) : Store :=
  { tx with product_batches := tx.product_batches.map fun b =>
      if b.ID = id then { b with Quantity := newQuantity } else b }

/-- Result of the consumption loop: the error of a failed statement or the
final value of `remaining`, the transaction's store and the rest of the fault
script. -/
structure WalkResult where
  out : Except Error Int
  tx : Store
  faults : List Bool

/-- The loop `for _, b := range batches` of `ConsumeStockFEFO`. -/
def consumeLoop : List batch → Int → Store → List Bool → WalkResult
  | [], remaining, tx, w => ⟨.ok remaining, tx, w⟩
  | b :: bs, remaining, tx, w =>
    if remaining ≤ 0 then ⟨.ok remaining, tx, w⟩
    else if b.quantity ≥ remaining then
      if failsNow w then ⟨.error .Driver, tx, w.tail⟩
      else ⟨.ok 0, updateBatch tx (b.quantity - remaining) b.id, w.tail⟩
    else
      if failsNow w then ⟨.error .Driver, tx, w.tail⟩
      else consumeLoop bs (remaining - b.quantity) (updateBatch tx 0 b.id) w.tail

/-- Result of an operation inside a transaction. -/
structure TxResult where
  err : Option Error
  tx : Store
  faults : List Bool

/-- The function `ConsumeStockFEFO(ctx, tx, productID, userID, quantityToConsume)`.
The query, the iteration over its rows and `rows.Err()` are one driver call. -/
def ConsumeStockFEFO (tx : Store) (w : List Bool) (productID userID quantityToConsume : Int) :
    TxResult :=
  if failsNow w then ⟨some .Driver, tx, w.tail⟩
  else
    match scanRows (qBatches tx productID userID) with
    | none => ⟨some .ScanNull, tx, w.tail⟩
    | some batches =>
      let r := consumeLoop batches quantityToConsume tx w.tail
      match r.out with
      | .error e => ⟨some e, r.tx, r.faults⟩
      | .ok remaining =>
        if remaining > 0 then ⟨some .ErrInsufficientStock, r.tx, r.faults⟩
        else ⟨none, r.tx, r.faults⟩

/-- Quantity of the batch with the given id, if there is one. -/
def quantityOf (s : Store) (id : Int) : Option Int :=
  (s.product_batches.find? fun b => decide (b.ID = id)).map fun b => b.Quantity

/-! ## Stock validator -/

/-- Result of a read-only operation on the connection pool. -/
structure ReadResult where
  err : Option Error
  faults : List Bool

/-- The query `qTotalStock`: the batches of the product and tenant with
`quantity > 0`, joined with the product row of that id (`products.id` is the
primary key, so at most one row joins), grouped by the product name. There
is a result row only when a batch and the product row exist; it carries the
sum of the quantities and the name. -/
def qTotalStock (db : Store) (productID userID : Int) : Option (Int × String) :=
  match db.products.find? fun p => decide (p.ID = productID) with
  | none => none
  | some p =>
    if (stockRows db productID userID).isEmpty then none
    else some (availableStock db productID userID, p.Name)

/-- The query `qProductName`: `SELECT name FROM products WHERE id = $1 AND user_id = $2`. -/
def qProductName (db : Store) (productID userID : Int) : Option String :=
  (db.products.find? fun p => decide (p.ID = productID ∧ p.UserID = userID)).map fun p => p.Name

/-- The method `SalesOrderModel.ValidateStockAvailability(items, userID)`. -/
def ValidateStockAvailability (db : Store) : List Bool → List OrderItem → Int → ReadResult
  | w, [], _ => ⟨none, w⟩
  | w, item :: rest, userID =>
    if failsNow w then ⟨some .Driver, w.tail⟩
    else
      match qTotalStock db item.ProductID userID with
      | none =>
        let productName :=
          if failsNow w.tail then "Product #" ++ toString item.ProductID
          else
            match qProductName db item.ProductID userID with
            | some name => name
            | none => "Product #" ++ toString item.ProductID
        ⟨some (.Shortfall { ProductID := item.ProductID, ProductName := productName,
                            Requested := item.Quantity, Available := 0 }), w.tail.tail⟩
      | some (availableStock, productName) =>
        if availableStock < item.Quantity then
          ⟨some (.Shortfall { ProductID := item.ProductID, ProductName := productName,
                              Requested := item.Quantity, Available := availableStock }), w.tail⟩
        else ValidateStockAvailability db w.tail rest userID

/-! ## Sales path -/

/-- Go's unary minus on an `int` (64 bits on the targets of the backend): the
opposite number, except for the least value `-2^63`, whose opposite is not an
`int` and which the two's-complement negation leaves as it is. On the values
of the type this is the opposite reduced to 64 bits. -/
def negInt (x : Int) : Int :=
  if x = -9223372036854775808 then x else -x

/-- The statement `insertOrder`: the header row receives the next id of the
sequence; `order_date` and `status` are never NULL on the Go side, so the
`COALESCE` defaults do not apply. -/
def insertOrder (tx : Store) (order : SalesOrder) : Store × SalesOrder :=
  let row := { order with ID := tx.sales_orders_id_seq + 1 }
  ({ tx with sales_orders := tx.sales_orders ++ [row],
             sales_orders_id_seq := tx.sales_orders_id_seq + 1 }, row)

/-- The statement `insertItem`, returning the item with its new id. -/
def insertItem (tx : Store) (item : OrderItem) : Store × OrderItem :=
  let row := { item with ID := tx.order_items_id_seq + 1 }
  ({ tx with order_items := tx.order_items ++ [row],
             order_items_id_seq := tx.order_items_id_seq + 1 }, row)

/-- The statement `insertMovement`. -/
def insertMovement (tx : Store) (m : StockMovement) : Store :=
  { tx with stock_movements := tx.stock_movements ++ [m] }

/-- Result of the item loop of `Create`: the error if any, the items as the
loop left them in memory, the transaction's store, the rest of the script. -/
structure ItemsResult where
  err : Option Error
  items : List OrderItem
  tx : Store
  faults : List Bool

/-- The loop `for i := range items` of `SalesOrderModel.Create`. -/
def createItems (order : SalesOrder) : List OrderItem → Store → List Bool → ItemsResult
  | [], tx, w => ⟨none, [], tx, w⟩
  | item :: rest, tx, w =>
    let item1 := { item with OrderID := order.ID }
    let c := ConsumeStockFEFO tx w item1.ProductID order.UserID item1.Quantity
    match c.err with
    | some e => ⟨some e, item1 :: rest, c.tx, c.faults⟩
    | none =>
      if failsNow c.faults then ⟨some .Driver, item1 :: rest, c.tx, c.faults.tail⟩
      else
        let ins := insertItem c.tx item1
        if failsNow c.faults.tail then ⟨some .Driver, ins.2 :: rest, ins.1, c.faults.tail.tail⟩
        else
          let tx3 := insertMovement ins.1
            { product_id := ins.2.ProductID, quantity_change := negInt ins.2.Quantity,
              reason := "SALES_ORDER", reference_id := toString order.ID,
              user_id := order.UserID }
          let r := createItems order rest tx3 c.faults.tail.tail
          ⟨r.err, ins.2 :: r.items, r.tx, r.faults⟩

/-- Result of `SalesOrderModel.Create`: the returned error, the committed
store after the call, and the order and items as the call left them. -/
structure CreateResult where
  err : Option Error
  db : Store
  order : SalesOrder
  items : List OrderItem

/-- The method `SalesOrderModel.Create(order, items)`. Every return with an
error runs the deferred `tx.Rollback`; only a successful `tx.Commit` publishes
the transaction's store. -/
def SalesOrderModel.Create (db : Store) (w : List Bool) (order : SalesOrder)
    (items : List OrderItem) : CreateResult :=
  let v := ValidateStockAvailability db w items order.UserID
  match v.err with
  | some e => ⟨some e, db, order, items⟩
  | none =>
    if failsNow v.faults then ⟨some .Driver, db, order, items⟩
    else if failsNow v.faults.tail then ⟨some .Driver, Rollback db db, order, items⟩
    else
      let ins := insertOrder db order
      let r := createItems ins.2 items ins.1 v.faults.tail.tail
      match r.err with
      | some e => ⟨some e, Rollback db r.tx, ins.2, r.items⟩
      | none =>
        if failsNow r.faults then ⟨some .Driver, Rollback db r.tx, ins.2, r.items⟩
        else ⟨none, r.tx, ins.2, r.items⟩

/-! ## Purchase completion path -/

/-- The local struct `item` of `UpdateStatus`. -/
structure item where
  productID : Int
  qty : Int
  loteNumber : Option String
  expiryDate : Option Int
  deriving DecidableEq, Repr

/-- The query `qItems` of `UpdateStatus` and the scan of its rows. -/
def qItems (tx : Store) (orderID : Int) : List item :=
  (tx.purchase_order_items.filter fun r => decide (r.PurchaseOrderID = orderID)).map fun r =>
    { productID := r.ProductID, qty := r.Quantity, loteNumber := r.LoteNumber,
      expiryDate := r.ExpiryDate }

/-- The statement `insertBatch`; `id` and `created_at` are the column defaults. -/
def insertBatch (tx : Store) (now productID userID qty : Int) (loteNum : String)
    (expiryDate : Option Int) : Store :=
  { tx with
    product_batches := tx.product_batches ++
      [{ ID := tx.product_batches_id_seq + 1, ProductID := productID, UserID := userID,
         LoteNumber := some loteNum, Quantity := qty, ExpiryDate := expiryDate,
         CreatedAt := now }]
    product_batches_id_seq := tx.product_batches_id_seq + 1 }

/-- The statement `resetNotified`: `UPDATE products SET notificado = false WHERE id = $1`. -/
def resetNotified (tx : Store) (productID : Int) : Store :=
  { tx with products := tx.products.map fun p =>
      if p.ID = productID then { p with Notificado := false } else p }

/-- The loop `for _, it := range items` of `UpdateStatus`. -/
def completeItems (now orderID userID : Int) : List item → Store → List Bool → TxResult
  | [], tx, w => ⟨none, tx, w⟩
  | it :: rest, tx, w =>
    let loteNum := match it.loteNumber with
      | some l => l
      | none => ""
    if failsNow w then ⟨some .Driver, tx, w.tail⟩
    else
      let tx1 := insertBatch tx now it.productID userID it.qty loteNum it.expiryDate
      if failsNow w.tail then ⟨some .Driver, tx1, w.tail.tail⟩
      else
        let tx2 := resetNotified tx1 it.productID
        if failsNow w.tail.tail then ⟨some .Driver, tx2, w.tail.tail.tail⟩
        else
          let tx3 := insertMovement tx2
            { product_id := it.productID, quantity_change := it.qty,
              reason := "PURCHASE_ORDER", reference_id := toString orderID,
              user_id := userID }
          completeItems now orderID userID rest tx3 w.tail.tail.tail

/-- The statement `upd`: `UPDATE purchase_orders SET status = $1 WHERE id = $2`. -/
def updStatus (tx : Store) (newStatus : String) (orderID : Int) : Store :=
  { tx with purchase_orders := tx.purchase_orders.map fun o =>
      if o.ID = orderID then { o with Status := newStatus } else o }

/-- Result of `PurchaseOrderModel.UpdateStatus`: the returned error and the
committed store after the call. -/
structure UpdateResult where
  err : Option Error
  db : Store

/-- The method `PurchaseOrderModel.UpdateStatus(orderID, userID, newStatus)`;
`now` is the value of `NOW()` in its transaction. -/
def PurchaseOrderModel.UpdateStatus (db : Store) (w : List Bool) (now orderID userID : Int)
    (newStatus : String) : UpdateResult :=
  if failsNow w then ⟨some .Driver, db⟩
  else if failsNow w.tail then ⟨some .Driver, Rollback db db⟩
  else
    match db.purchase_orders.find? fun o => decide (o.ID = orderID ∧ o.UserID = userID) with
    | none => ⟨some .ErrNotFound, Rollback db db⟩
    | some o =>
      let r : TxResult :=
        if newStatus = "completed" ∧ o.Status ≠ "completed" then
          if failsNow w.tail.tail then ⟨some .Driver, db, w.tail.tail.tail⟩
          else completeItems now orderID userID (qItems db orderID) db w.tail.tail.tail
        else ⟨none, db, w.tail.tail⟩
      match r.err with
      | some e => ⟨some e, Rollback db r.tx⟩
      | none =>
        if failsNow r.faults then ⟨some .Driver, Rollback db r.tx⟩
        else if failsNow r.faults.tail then
          ⟨some .Driver, Rollback db (updStatus r.tx newStatus orderID)⟩
        else ⟨none, updStatus r.tx newStatus orderID⟩

/-! ## Scenarios -/

/-- Product 1 of tenant 7 with three batches of 5 units: batch 1 has no expiry
date, batch 2 expires on 2024-02-01, batch 3 on 2024-01-01 (instants in Unix
seconds). -/
def fefoStore : Store :=
  { products := [⟨1, "Leche", "LEC-1", 0, false, 7⟩]
    product_batches :=
      [⟨1, 1, 7, some "L-C", 5, none, 100⟩,
       ⟨2, 1, 7, some "L-B", 5, some 1706745600, 101⟩,
       ⟨3, 1, 7, some "L-A", 5, some 1704067200, 102⟩]
    sales_orders := []
    order_items := []
    stock_movements := []
    purchase_orders := []
    purchase_order_items := []
    sales_orders_id_seq := 0
    order_items_id_seq := 0
    product_batches_id_seq := 3 }

/-- The scenario of the sales path: product 1 of tenant 7 with batch 1 (3
units, expiring on 2024-01-10) and batch 2 (10 units, no expiry date). -/
def salesStore : Store :=
  { products := [⟨1, "Yogur", "YOG-1", 0, false, 7⟩]
    product_batches :=
      [⟨1, 1, 7, some "B1", 3, some 1704844800, 100⟩,
       ⟨2, 1, 7, some "B2", 10, none, 101⟩]
    sales_orders := []
    order_items := []
    stock_movements := []
    purchase_orders := []
    purchase_order_items := []
    sales_orders_id_seq := 0
    order_items_id_seq := 0
    product_batches_id_seq := 2 }

/-- The zero value of `time.Time`, 0001-01-01 00:00:00 UTC, in Unix seconds: the
order date of a `SalesOrder` whose field `OrderDate` was never set. -/
def zeroTime : Int := -62135596800

/-- A pending order header of tenant 7, as the handler builds it. -/
def pendingOrder : SalesOrder :=
  { ID := 0, CustomerID := none, OrderDate := zeroTime, Status := "pending",
    TotalAmount := none, UserID := 7 }

/-- An order line as the handler builds it. -/
def line (productID quantity : Int) : OrderItem :=
  { ID := 0, OrderID := 0, ProductID := productID, Quantity := quantity, UnitPrice := 0 }

/-- The stock movement `Create` writes for an order line. -/
def salesMovement (orderID userID : Int) (it : OrderItem) : StockMovement :=
  { product_id := it.ProductID, quantity_change := negInt it.Quantity, reason := "SALES_ORDER",
    reference_id := toString orderID, user_id := userID }

/-- The scenario of the purchase path: tenant 7 has the pending purchase
orders 1, with one item of 20 units of product 1 in lot `L1`, and 2, with one
item of 5 units of product 1 without lot number or expiry date, and the
completed purchase order 3 with one item of 4 units. -/
def purchaseStore : Store :=
  { products := [⟨1, "Harina", "HAR-1", 10, true, 7⟩]
    product_batches := [⟨1, 1, 7, some "INICIAL-HAR-1", 2, none, 50⟩]
    sales_orders := []
    order_items := []
    stock_movements := []
    purchase_orders :=
      [⟨1, none, some 90, "pending", 7⟩, ⟨2, none, some 91, "pending", 7⟩,
       ⟨3, none, some 92, "completed", 7⟩]
    purchase_order_items :=
      [⟨1, 1, 1, 20, 0, some "L1", none⟩, ⟨2, 2, 1, 5, 0, none, none⟩,
       ⟨3, 3, 1, 4, 0, some "L3", none⟩]
    sales_orders_id_seq := 0
    order_items_id_seq := 0
    product_batches_id_seq := 1 }

/-- Tenant 7 has the pending purchase order 1 with one item of 20 units of
product 1, and product 1 is a product of tenant 8, flagged as notified and
without any batch. Every row satisfies the foreign keys of the schema. -/
def crossTenantStore : Store :=
  { products := [⟨1, "Harina", "HAR-1", 10, true, 8⟩]
    product_batches := []
    sales_orders := []
    order_items := []
    stock_movements := []
    purchase_orders := [⟨1, none, some 90, "pending", 7⟩]
    purchase_order_items := [⟨1, 1, 1, 20, 0, some "L1", none⟩]
    sales_orders_id_seq := 0
    order_items_id_seq := 0
    product_batches_id_seq := 0 }

/-! ## Product queries -/

/-- Value returned by `ProductModel.GetByID`: the columns of the product row
and the `calculated_quantity` column of the query (field `CalculatedQuantity`
of the Go struct `Product`). -/
structure ProductView where
  row : Product
  CalculatedQuantity : Int
  deriving DecidableEq, Repr

/-- The method `ProductModel.GetByID(id, organizationID)`. The query selects
the product row with `p.id = $1 AND p.user_id = $2`, LEFT JOINs the batches
with `pb.product_id = p.id` and returns `COALESCE(SUM(pb.quantity), 0)`. -/
def ProductModel.GetByID (db : Store) (w : List Bool) (id organizationID : Int) :
    Except Error ProductView :=
  if failsNow w then .error .Driver
  else
    match db.products.find? fun p => decide (p.ID = id ∧ p.UserID = organizationID) with
    | none => .error .ErrNotFound
    | some p =>
      .ok { row := p
            CalculatedQuantity :=
              ((db.product_batches.filter fun pb => decide (pb.ProductID = p.ID)).map
                fun pb => pb.Quantity).sum }

/-! ## Runs of the engine and ledger sums -/

/-- The batches of a product and tenant, whatever their quantity. -/
def batchesOf (s : Store) (productID userID : Int) : List ProductBatch :=
  s.product_batches.filter fun b => decide (b.ProductID = productID ∧ b.UserID = userID)

/-- Sum of the current quantities of the batches whose product and tenant
satisfy `key`. -/
def batchSum (key : Int → Int → Bool) (s : Store) : Int :=
  ((s.product_batches.filter fun b => key b.ProductID b.UserID).map fun b => b.Quantity).sum

/-- Signed sum of the stock movements whose product and tenant satisfy `key`. -/
def movementSum (key : Int → Int → Bool) (s : Store) : Int :=
  ((s.stock_movements.filter fun m => key m.product_id m.user_id).map
    fun m => m.quantity_change).sum

/-- Sum of the positive quantity changes of the movements selected by `key`. -/
def positiveMovementSum (key : Int → Int → Bool) (s : Store) : Int :=
  ((s.stock_movements.filter fun m =>
    key m.product_id m.user_id && decide (0 < m.quantity_change)).map
      fun m => m.quantity_change).sum

/-- Sum of the negative quantity changes of the movements selected by `key`. -/
def negativeMovementSum (key : Int → Int → Bool) (s : Store) : Int :=
  ((s.stock_movements.filter fun m =>
    key m.product_id m.user_id && decide (m.quantity_change < 0)).map
      fun m => m.quantity_change).sum

/-- The key of one product of one tenant. -/
def keyOf (productID userID : Int) : Int → Int → Bool :=
  fun p t => decide (p = productID ∧ t = userID)

/-- The key of one product, over all tenants. -/
def keyOfProduct (productID : Int) : Int → Int → Bool :=
  fun p _ => decide (p = productID)

/-- The constraints of the schema on `product_batches`: `id` is the primary
key, and the ids come from the sequence, which is never behind them. -/
def batchKeysValid (s : Store) : Prop :=
  (s.product_batches.map fun b => b.ID).Nodup ∧
    ∀ b ∈ s.product_batches, b.ID ≤ s.product_batches_id_seq

instance batchKeysValid_decidable (s : Store) : Decidable (batchKeysValid s) := by
  unfold batchKeysValid; exact inferInstance

/-- One call of the engine: a sales-order creation or a change of status of
a purchase order, each with the fault script of its driver calls. -/
inductive Call where
  | create (w : List Bool) (order : SalesOrder) (items : List OrderItem)
  | updateStatus (w : List Bool) (now orderID userID : Int) (newStatus : String)

/-- The committed store after a call, whether it commits or fails. -/
def Call.run (db : Store) : Call → Store
  | .create w order items => (SalesOrderModel.Create db w order items).db
  | .updateStatus w now orderID userID newStatus =>
    (PurchaseOrderModel.UpdateStatus db w now orderID userID newStatus).db

/-- The committed store after a finite sequence of calls. -/
def runCalls (db : Store) : List Call → Store
  | [] => db
  | c :: cs => runCalls (Call.run db c) cs

/-- Every line of a sales-order creation asks for a positive quantity. -/
def Call.positiveLines : Call → Prop
  | .create _ _ items => ∀ it ∈ items, 0 < it.Quantity
  | .updateStatus _ _ _ _ _ => True

/-- The purchase order a status call is about has only items with a positive
quantity in the store `s`. -/
def Call.positiveItems (s : Store) : Call → Prop
  | .create _ _ _ => True
  | .updateStatus _ _ orderID _ _ =>
    ∀ r ∈ s.purchase_order_items, r.PurchaseOrderID = orderID → 0 < r.Quantity

/-- One call of `UpdateStatus` in a sequence of calls on one purchase order:
its fault script, the instant of its transaction and its target status. -/
structure StatusCall where
  faults : List Bool
  now : Int
  newStatus : String

/-- The committed store after a sequence of `UpdateStatus` calls on the
purchase order `orderID` by the tenant `userID`. -/
def runStatusCalls (orderID userID : Int) (db : Store) : List StatusCall → Store
  | [] => db
  | c :: cs =>
    runStatusCalls orderID userID
      (PurchaseOrderModel.UpdateStatus db c.faults c.now orderID userID c.newStatus).db cs

/-- The call finds the order of the tenant with a status other than
`completed`, targets `completed` and commits. -/
def commitsCompletion (orderID userID : Int) (db : Store) (c : StatusCall) : Bool :=
  decide (c.newStatus = "completed") &&
  (match db.purchase_orders.find? fun o => decide (o.ID = orderID ∧ o.UserID = userID) with
    | none => false
    | some o => decide (o.Status ≠ "completed")) &&
  decide ((PurchaseOrderModel.UpdateStatus db c.faults c.now orderID userID c.newStatus).err = none)

/-- The number of calls of the sequence that commit a completion. -/
def completions (orderID userID : Int) (db : Store) : List StatusCall → Nat
  | [] => 0
  | c :: cs =>
    (if commitsCompletion orderID userID db c then 1 else 0) +
      completions orderID userID
        (PurchaseOrderModel.UpdateStatus db c.faults c.now orderID userID c.newStatus).db cs

/-- The stock movements with reason `PURCHASE_ORDER` that refer to the order. -/
def purchaseMovementsOf (orderID : Int) (s : Store) : List StockMovement :=
  s.stock_movements.filter fun m =>
    decide (m.reason = "PURCHASE_ORDER" ∧ m.reference_id = toString orderID)

/-- Two tenants hold stock of product 1: tenant 7 the batches 1 and 3,
tenant 8 the batch 2; tenant 7 also holds batch 4 of product 2. -/
def twoTenantStore : Store :=
  { products := [⟨1, "Leche", "LEC-1", 0, false, 7⟩, ⟨2, "Pan", "PAN-1", 0, false, 7⟩]
    product_batches :=
      [⟨1, 1, 7, some "A", 5, some 1704067200, 100⟩,
       ⟨2, 1, 8, some "B", 9, some 1704067200, 90⟩,
       ⟨3, 1, 7, some "C", 5, none, 101⟩,
       ⟨4, 2, 7, some "D", 4, none, 102⟩]
    sales_orders := []
    order_items := []
    stock_movements := []
    purchase_orders := []
    purchase_order_items := []
    sales_orders_id_seq := 0
    order_items_id_seq := 0
    product_batches_id_seq := 4 }

/-- The store `twoTenantStore` with other stock for tenant 8 and for product 2. -/
def twoTenantStoreVariant : Store :=
  { twoTenantStore with
    product_batches :=
      [⟨2, 1, 8, some "B", 1, none, 90⟩,
       ⟨1, 1, 7, some "A", 5, some 1704067200, 100⟩,
       ⟨3, 1, 7, some "C", 5, none, 101⟩] }

/-- Sum of the quantities, as they are right after the call, of the batches
with `key` that a call appended to `product_batches`: the quantities inserted
by the call. -/
def insertedBy (key : Int → Int → Bool) (db db1 : Store) : Int :=
  (((db1.product_batches.drop db.product_batches.length).filter
    fun b => key b.ProductID b.UserID).map fun b => b.Quantity).sum

/-- Sum of the quantities inserted by the calls of a sequence. -/
def insertedDuring (key : Int → Int → Bool) : Store → List Call → Int
  | _, [] => 0
  | db, c :: cs => insertedBy key db (Call.run db c) + insertedDuring key (Call.run db c) cs

/-- Sum of the quantities of all batches ever inserted: the batches the store
starts with and the batches inserted by the calls of the sequence. -/
def insertedEver (key : Int → Int → Bool) (db : Store) (calls : List Call) : Int :=
  batchSum key db + insertedDuring key db calls

/-- A run on `purchaseStore`: tenant 7 completes purchase order 1 (20 units of
product 1), sells 21 units of product 1, and then fails to sell 5 more. -/
def purchaseAndSell : List Call :=
  [.updateStatus [] 1000 1 7 "completed",
   .create [] pendingOrder [line 1 21],
   .create [] pendingOrder [line 1 5]]

/-! ## Stores that differ in lot numbers -/

/-- The store `s` with the lot number of every batch replaced by `lot b`: a
store that differs from `s` in the lot numbers of its batches only. -/
def withLots (lot : ProductBatch → Option String) (s : Store) : Store :=
  { s with product_batches := s.product_batches.map fun b => { b with LoteNumber := lot b } }

/-- The store `salesStore` with `lote_number` NULL in both batches. -/
def lotlessStore : Store :=
  withLots (fun _ => none) salesStore

/-! ## Pagination -/

/-- Value of a Go `int` expression whose mathematical result is `x`: the
backend runs on 64-bit targets, where `int` arithmetic is two's complement and
wraps around silently. -/
def wrapInt (x : Int) : Int :=
  (x + 9223372036854775808) % 18446744073709551616 - 9223372036854775808

/-- The struct `Filters` of `pagination.go`. -/
structure Filters where
  Page : Int
  PageSize : Int
  deriving DecidableEq, Repr

/-- The function `NewFilters(page, pageSize)`. -/
def NewFilters (page pageSize : Int) : Filters :=
  let page := if page < 1 then 1 else page
  let pageSize := if pageSize < 1 then 20 else pageSize
  let pageSize := if pageSize > 100 then 100 else pageSize
  { Page := page, PageSize := pageSize }

/-- The method `Filters.Offset()`: `(f.Page - 1) * f.PageSize` in `int`
arithmetic. -/
def Filters.Offset (f : Filters) : Int :=
  wrapInt (wrapInt (f.Page - 1) * f.PageSize)

/-- The struct `Metadata` of `pagination.go`. -/
structure Metadata where
  CurrentPage : Int
  PageSize : Int
  FirstPage : Int
  LastPage : Int
  TotalRecords : Int
  deriving DecidableEq, Repr

/-- The function `CalculateMetadata(totalRecords, page, pageSize)`. The
division is Go's integer division, which truncates toward zero and stops the
program with a run-time panic when the divisor is zero: that outcome is
`none`. -/
def CalculateMetadata (totalRecords page pageSize : Int) : Option Metadata :=
  if totalRecords = 0 then
    some { CurrentPage := 1, PageSize := pageSize, FirstPage := 1, LastPage := 1,
           TotalRecords := 0 }
  else if pageSize = 0 then none
  else
    let lastPage := wrapInt ((wrapInt (wrapInt (totalRecords + pageSize) - 1)).tdiv pageSize)
    let lastPage := if lastPage < 1 then 1 else lastPage
    some { CurrentPage := page, PageSize := pageSize, FirstPage := 1, LastPage := lastPage,
           TotalRecords := totalRecords }

/-! ## Invoice helpers of the worker service -/

/-- The function `getQRData(qrData, ventaID)` of `pdf_generator.go`; the
format verb `%s` inserts the string as it is. -/
def getQRData (qrData ventaID : String) : String :=
  if qrData ≠ "" then qrData
  else "https://blend.com.ar/verify/" ++ ventaID

/-! ## HTTP layer -/

/-- The values `JWTMiddleware` puts into the request context under its four
keys; `none` stands for a key without a value of the type its accessor
asserts. -/
structure Context where
  user_id : Option Int
  user_email : Option String
  user_role : Option String
  organization_id : Option Int
  deriving DecidableEq, Repr

/-- The function `UserRoleFromContext`; `none` when it returns `ok = false`. -/
def UserRoleFromContext (ctx : Context) : Option String := ctx.user_role

/-- The function `UserEmailFromContext`; `none` when it returns `ok = false`. -/
def UserEmailFromContext (ctx : Context) : Option String := ctx.user_email

/-- The function `OrganizationIDFromContext`; `none` when it returns
`ok = false`. -/
def OrganizationIDFromContext (ctx : Context) : Option Int := ctx.organization_id

/-- A member value of a JSON object that a handler encodes. -/
inductive JSONValue where
  | str (s : String)
  | num (n : Int)
  deriving DecidableEq, Repr

/-- What a handler writes after the status line. -/
inductive Body where
  /-- The message given to `http.Error` or written by `http.NotFound`. -/
  | text (message : String)
  /-- A Go map given to the JSON encoder, member by member. -/
  | object (members : List (String × JSONValue))
  /-- The map with the members `order` and `items` of a created sales order. -/
  | created (order : SalesOrder) (items : List OrderItem)
  /-- No body. -/
  | empty
  deriving DecidableEq, Repr

/-- The response of a handler: the status code and the body. -/
structure Response where
  status : Nat
  body : Body
  deriving DecidableEq, Repr

/-- The value of the member `key` of the JSON object in the body, if the body
is a JSON object with that member. -/
def Response.member (resp : Response) (key : String) : Option JSONValue :=
  match resp.body with
  | .object members => members.lookup key
  | _ => none

/-- A request as the handler sees it: the request context, the outcome of
decoding the JSON body into the input struct of the handler (`none` when the
decoder returns an error), and the number parsed from the path variable `id`. -/
structure Request (α : Type) where
  ctx : Context
  body : Option α
  id : Int

/-- The struct `AuditLog`, with the fields the handlers fill. -/
structure AuditLog where
  UserID : Option Int
  UserEmail : String
  UserRole : String
  Action : String
  EntityType : String
  EntityID : Option Int
  Details : String
  Timestamp : Int
  deriving DecidableEq, Repr

/-- What serving a request amounts to: the response, the committed store
after the request, the calls of `SalesOrderModel.Create` the handler made
(with their arguments) and the entries it handed to `AuditRepo.Log`. -/
structure Reply where
  response : Response
  db : Store
  createCalls : List (SalesOrder × List OrderItem)
  auditLogs : List AuditLog

/-- A reply that touches neither the store nor the model. -/
def Reply.only (response : Response) (db : Store) : Reply :=
  ⟨response, db, [], []⟩

/-- An `http.Handler` whose input struct is `α`, serving a request on a store
under a fault script. -/
abbrev Handler (α : Type) := Request α → Store → List Bool → Reply

/-- The call `http.Error(w, message, code)`. -/
def httpError (message : String) (code : Nat) : Response :=
  ⟨code, .text message⟩

/-- The loop of `joinRoles` over the roles from index `i` on. -/
def joinRolesFrom (len : Nat) : Nat → List String → String → String
  | _, [], result => result
  | i, role :: rest, result =>
    joinRolesFrom len (i + 1) rest
      (if i = len - 1 then result ++ " o " ++ role
       else if i > 0 then result ++ ", " ++ role
       else role)

/-- The function `joinRoles`. -/
def joinRoles (roles : List String) : String :=
  match roles with
  | [] => ""
  | [a] => a
  | [a, b] => a ++ " o " ++ b
  | _ => joinRolesFrom roles.length 0 roles ""

/-- The middleware `RequireRole(requiredRoles...)` around the handler `next`. -/
def RequireRole (requiredRoles : List String) {α : Type} (next : Handler α) : Handler α :=
  fun r db w =>
    match UserRoleFromContext r.ctx with
    | none =>
      Reply.only ⟨403, .object [("error", .str "No se pudo determinar el rol del usuario")]⟩ db
    | some role =>
      if requiredRoles.any (fun requiredRole => role == requiredRole) then next r db w
      else
        Reply.only ⟨403, .object [("error",
          .str ("Acceso denegado: requiere rol " ++ joinRoles requiredRoles))]⟩ db

/-- A route of `SetupRouter`: method, path under `/api/v1`, the roles given to
`RequireRole`, and the name of the handler. -/
structure Route where
  method : String
  path : String
  requiredRoles : List String
  handler : String
  deriving DecidableEq, Repr

/-- The routes `SetupRouter` registers in its section on sales orders. -/
def SetupRouter.salesOrders : List Route :=
  [⟨"POST", "/sales-orders", ["vendedor"], "CreateSalesOrderV2"⟩,
   ⟨"GET", "/sales-orders", ["vendedor"], "GetSalesOrders"⟩,
   ⟨"GET", "/sales-orders/\x7bid:[0-9]+\x7d", ["vendedor"], "GetSalesOrderByID"⟩]

/-! ## Sales-order handlers -/

/-- The struct `OrderItemInput`. -/
structure OrderItemInput where
  ProductID : Int
  Quantity : Int
  deriving DecidableEq, Repr

/-- The struct `CreateOrderInput`. -/
structure CreateOrderInput where
  CustomerID : Int
  Items : List OrderItemInput
  deriving DecidableEq, Repr

/-- The method `InsufficientStockError.Error()`; the verb `%d` writes the
decimal rendering of the number. -/
def InsufficientStockError.Error (e : InsufficientStockError) : String :=
  "insufficient stock for product " ++ e.ProductName ++ " (ID: " ++ toString e.ProductID ++
    "): requested " ++ toString e.Requested ++ ", available " ++ toString e.Available

/-- The order header both sales-order handlers build: tenant and status
`pending`, and the customer when the request names one. -/
def CreateSalesOrder.order (organizationID : Int) (input : CreateOrderInput) : SalesOrder :=
  { ID := 0, CustomerID := if input.CustomerID > 0 then some input.CustomerID else none,
    OrderDate := zeroTime, Status := "pending", TotalAmount := none, UserID := organizationID }

/-- The loop `for _, it := range in.Items` of both sales-order handlers: the
items built so far, or `none` at the first line whose quantity is not
positive, where the handler answers and returns. -/
def CreateSalesOrder.items : List OrderItemInput → Option (List OrderItem)
  | [] => some []
  | it :: rest =>
    if it.Quantity ≤ 0 then none
    else
      match CreateSalesOrder.items rest with
      | none => none
      | some items =>
        some ({ ID := 0, OrderID := 0, ProductID := it.ProductID, Quantity := it.Quantity,
                UnitPrice := 0 } :: items)

/-- The handler `CreateSalesOrder(db)` of `sales_order_handlers.go`. -/
def CreateSalesOrder : Handler CreateOrderInput := fun r db w =>
  match OrganizationIDFromContext r.ctx with
  | none => Reply.only (httpError "unauthorized" 401) db
  | some organizationID =>
    match r.body with
    | none => Reply.only (httpError "invalid JSON" 400) db
    | some input =>
      if input.Items.length = 0 then Reply.only (httpError "items required" 400) db
      else
        let order := CreateSalesOrder.order organizationID input
        match CreateSalesOrder.items input.Items with
        | none => Reply.only (httpError "quantity must be > 0" 400) db
        | some items =>
          let c := SalesOrderModel.Create db w order items
          match c.err with
          | some (.Shortfall stockErr) =>
            ⟨⟨409, .object [("error", .str "insufficient_stock"),
                            ("message", .str stockErr.Error),
                            ("product_id", .num stockErr.ProductID),
                            ("product_name", .str stockErr.ProductName),
                            ("requested", .num stockErr.Requested),
                            ("available", .num stockErr.Available)]⟩,
              c.db, [(order, items)], []⟩
          | some .ErrInsufficientStock =>
            ⟨⟨409, .object [("error", .str "insufficient stock")]⟩, c.db, [(order, items)], []⟩
          | some _ => ⟨httpError "could not create order" 500, c.db, [(order, items)], []⟩
          | none => ⟨⟨201, .created c.order c.items⟩, c.db, [(order, items)], []⟩

/-- The handler `App.CreateSalesOrderV2()` of `product_handlers_v2.go`; `now`
is the value of `time.Now()` when the audit entry is built. -/
def CreateSalesOrderV2 (now : Int) : Handler CreateOrderInput := fun r db w =>
  match OrganizationIDFromContext r.ctx with
  | none => Reply.only (httpError "unauthorized" 401) db
  | some organizationID =>
    let userEmail := (UserEmailFromContext r.ctx).getD ""
    let userRole := (UserRoleFromContext r.ctx).getD ""
    match r.body with
    | none => Reply.only (httpError "invalid JSON" 400) db
    | some input =>
      if input.Items.length = 0 then Reply.only (httpError "items required" 400) db
      else
        let order := CreateSalesOrder.order organizationID input
        match CreateSalesOrder.items input.Items with
        | none => Reply.only (httpError "quantity must be > 0" 400) db
        | some items =>
          let c := SalesOrderModel.Create db w order items
          match c.err with
          | some .ErrInsufficientStock =>
            ⟨⟨409, .object [("error", .str "insufficient stock")]⟩, c.db, [(order, items)], []⟩
          | some _ => ⟨httpError "could not create order" 500, c.db, [(order, items)], []⟩
          | none =>
            ⟨⟨201, .created c.order c.items⟩, c.db, [(order, items)],
              [{ UserID := some organizationID, UserEmail := userEmail, UserRole := userRole,
                 Action := "CREATE", EntityType := "ORDER", EntityID := some c.order.ID,
                 Details := "Usuario " ++ userEmail ++ " (" ++ userRole ++
                   ") creó una orden de venta (ID: " ++ toString c.order.ID ++ ") con " ++
                   toString items.length ++ " items",
                 Timestamp := now }]⟩

/-- The context of a request of tenant 7 authenticated with the given role. -/
def contextOf (role : String) : Context :=
  { user_id := some 7, user_email := some "ana@example.com", user_role := some role,
    organization_id := some 7 }

/-- A request of tenant 7, sent with the given role, to create a sales order
with the given lines. -/
def orderRequest (role : String) (items : List OrderItemInput) : Request CreateOrderInput :=
  { ctx := contextOf role, body := some { CustomerID := 0, Items := items }, id := 0 }

/-! ## Product update handler -/

theorem find_setQuantity (n id j : Int) (l : List ProductBatch) :
    ((l.map fun b => if b.ID = id then { b with Quantity := n } else b).find?
        fun b => decide (b.ID = j)).map (fun b => b.Quantity) =
      if j = id then ((l.find? fun b => decide (b.ID = j)).map fun b => b.Quantity).map (fun _ => n)
      else (l.find? fun b => decide (b.ID = j)).map fun b => b.Quantity := by
  induction l with
  | nil => simp
  | cons b bs ih =>
    rw [List.map_cons, List.find?_cons, List.find?_cons]
    by_cases hb : b.ID = id
    · by_cases hj : j = id
      · subst hj; simp [hb]
      · have hbj : ¬ b.ID = j := fun h => hj (h.symm.trans hb)
        rw [if_pos hb]
        simp only [hbj, decide_False]
        exact ih
    · rw [if_neg hb]
      by_cases hj : b.ID = j
      · have : ¬ j = id := fun h => hb (hj.trans h)
        simp [hj, this]
      · simp only [hj, decide_False]
        exact ih

theorem quantityOf_updateBatch (tx : Store) (n id j : Int) :
    quantityOf (updateBatch tx n id) j =
      if j = id then (quantityOf tx j).map (fun _ => n) else quantityOf tx j :=
  find_setQuantity n id j tx.product_batches

theorem find_of_mem_nodup : ∀ (l : List ProductBatch), (l.map fun b => b.ID).Nodup →
    ∀ b ∈ l, l.find? (fun x => decide (x.ID = b.ID)) = some b
  | [], _, b, hb => by cases hb
  | a :: l, hid, b, hb => by
    rw [List.map_cons, List.nodup_cons] at hid
    rcases List.mem_cons.1 hb with h | h
    · subst h; simp
    · have hne : ¬ a.ID = b.ID := by
        intro he
        exact hid.1 (he ▸ List.mem_map_of_mem (fun b => b.ID) h)
      simp only [List.find?_cons, hne, decide_False]
      exact find_of_mem_nodup l hid.2 b h

theorem quantityOf_of_mem {tx : Store} (hid : (tx.product_batches.map fun b => b.ID).Nodup)
    {b : ProductBatch} (hb : b ∈ tx.product_batches) : quantityOf tx b.ID = some b.Quantity := by
  unfold quantityOf
  rw [find_of_mem_nodup _ hid b hb]; rfl



/-! ### The consumption loop -/



theorem consumeLoop_enough : ∀ (bs : List batch) (rem : Int) (tx : Store),
    0 < rem → rem ≤ (bs.map fun b => b.quantity).sum → (bs.map fun b => b.id).Nodup →
    (∀ x ∈ bs, quantityOf tx x.id = some x.quantity) →
    (consumeLoop bs rem tx []).out = .ok 0 ∧ (consumeLoop bs rem tx []).faults = [] ∧
    (∀ j, j ∉ bs.map (fun b => b.id) →
      quantityOf (consumeLoop bs rem tx []).tx j = quantityOf tx j) ∧
    ∃ pre b post, bs = pre ++ b :: post ∧ (pre.map fun b => b.quantity).sum < rem ∧
      rem - (pre.map fun b => b.quantity).sum ≤ b.quantity ∧
      (∀ x ∈ pre, quantityOf (consumeLoop bs rem tx []).tx x.id = some 0) ∧
      quantityOf (consumeLoop bs rem tx []).tx b.id =
        some (b.quantity - (rem - (pre.map fun b => b.quantity).sum)) ∧
      (∀ x ∈ post, quantityOf (consumeLoop bs rem tx []).tx x.id = some x.quantity)
  | [], rem, tx, hrem, hsum, _, _ => by
    simp at hsum; omega
  | b :: bs, rem, tx, hrem, hsum, hnd, hq => by
    rw [List.map_cons, List.nodup_cons] at hnd
    have hnotmem : ∀ x ∈ bs, x.id ≠ b.id := fun x hx he =>
      hnd.1 (he ▸ List.mem_map_of_mem (fun b => b.id) hx)
    by_cases hge : b.quantity ≥ rem
    · have e : consumeLoop (b :: bs) rem tx [] =
          ⟨.ok 0, updateBatch tx (b.quantity - rem) b.id, []⟩ := by
        simp [consumeLoop, failsNow, not_le.2 hrem, hge]
      rw [e]
      refine ⟨rfl, rfl, ?_, [], b, bs, rfl, by simpa using hrem, by simpa using hge, ?_, ?_, ?_⟩
      · intro j hj
        have : j ≠ b.id := fun h => hj (by simp [h])
        rw [quantityOf_updateBatch, if_neg this]
      · intro x hx; cases hx
      · rw [quantityOf_updateBatch, if_pos rfl, hq b (List.mem_cons_self _ _)]
        simp
      · intro x hx
        rw [quantityOf_updateBatch, if_neg (hnotmem x hx), hq x (List.mem_cons_of_mem _ hx)]
    · have hlt : b.quantity < rem := not_le.1 hge
      have e : consumeLoop (b :: bs) rem tx [] =
          consumeLoop bs (rem - b.quantity) (updateBatch tx 0 b.id) [] := by
        simp [consumeLoop, failsNow, not_le.2 hrem, hge]
      rw [e]
      have hsum1 : rem - b.quantity ≤ (bs.map fun b => b.quantity).sum := by
        simp only [List.map_cons, List.sum_cons] at hsum; omega
      have hq1 : ∀ x ∈ bs, quantityOf (updateBatch tx 0 b.id) x.id = some x.quantity := by
        intro x hx
        rw [quantityOf_updateBatch, if_neg (hnotmem x hx), hq x (List.mem_cons_of_mem _ hx)]
      obtain ⟨h1, h2, h3, pre, c, post, hdec, hpre, hc, hz, hcq, hpost⟩ :=
        consumeLoop_enough bs (rem - b.quantity) (updateBatch tx 0 b.id) (by omega) hsum1 hnd.2 hq1
      refine ⟨h1, h2, ?_, b :: pre, c, post, by rw [hdec]; rfl, ?_, ?_, ?_, ?_, hpost⟩
      · intro j hj
        have hjb : j ≠ b.id := fun h => hj (by simp [h])
        have hjbs : j ∉ bs.map (fun b => b.id) := fun h => hj (by simp [List.mem_map] at h ⊢; exact Or.inr h)
        rw [h3 j hjbs, quantityOf_updateBatch, if_neg hjb]
      · simp only [List.map_cons, List.sum_cons]; omega
      · simp only [List.map_cons, List.sum_cons]; omega
      · intro x hx
        rcases List.mem_cons.1 hx with h | h
        · subst h
          rw [h3 x.id hnd.1, quantityOf_updateBatch, if_pos rfl, hq x (List.mem_cons_self _ _)]
          rfl
        · exact hz x h
      · rw [hcq]; simp only [List.map_cons, List.sum_cons]; congr 1; omega

theorem consumeLoop_short : ∀ (bs : List batch) (rem : Int) (tx : Store) (w : List Bool),
    0 < rem → (bs.map fun b => b.quantity).sum < rem → (∀ x ∈ bs, 0 < x.quantity) →
    ∀ r, (consumeLoop bs rem tx w).out = .ok r → 0 < r
  | [], rem, tx, w, hrem, _, _, r, h => by
    simp [consumeLoop] at h; omega
  | b :: bs, rem, tx, w, hrem, hsum, hpos, r, h => by
    simp only [List.map_cons, List.sum_cons] at hsum
    have hbs : 0 ≤ (bs.map fun b => b.quantity).sum :=
      List.sum_nonneg (by
        intro x hx
        obtain ⟨y, hy, rfl⟩ := List.mem_map.1 hx
        exact le_of_lt (hpos y (List.mem_cons_of_mem _ hy)))
    have hlt : ¬ b.quantity ≥ rem := by omega
    by_cases hf : failsNow w = true
    · simp [consumeLoop, not_le.2 hrem, hlt, hf] at h
    · simp only [consumeLoop, not_le.2 hrem, hlt, hf, if_false] at h
      exact consumeLoop_short bs (rem - b.quantity) _ _ (by omega) (by omega)
        (fun x hx => hpos x (List.mem_cons_of_mem _ hx)) r h





theorem scanRows_of_lots : ∀ (rows : List ProductBatch),
    (∀ r ∈ rows, r.LoteNumber ≠ none) → scanRows rows = some (rows.map toBatch)
  | [], _ => rfl
  | r :: rows, h => by
    have hr := h r (List.mem_cons_self _ _)
    have ih := scanRows_of_lots rows fun x hx => h x (List.mem_cons_of_mem _ hx)
    cases hl : r.LoteNumber with
    | none => exact absurd hl hr
    | some l => simp [scanRows, ih, scanBatch, toBatch, hl]

theorem mem_qBatches {tx : Store} {p t : Int} {b : ProductBatch} :
    b ∈ qBatches tx p t ↔
      b ∈ tx.product_batches ∧ b.ProductID = p ∧ b.UserID = t ∧ b.Quantity > 0 := by
  simp [qBatches, stockRows, List.mem_insertionSort, List.mem_filter]

theorem qBatches_perm (tx : Store) (p t : Int) :
    (qBatches tx p t).Perm (stockRows tx p t) :=
  List.perm_insertionSort _ _

theorem qBatches_nodup {tx : Store} (hid : (tx.product_batches.map fun b => b.ID).Nodup)
    (p t : Int) : ((qBatches tx p t).map fun b => b.ID).Nodup :=
  (((qBatches_perm tx p t).map fun b => b.ID).nodup_iff).2
    (List.Nodup.sublist ((List.filter_sublist _).map _) hid)

theorem ConsumeStockFEFO_enough (tx : Store) (p t q : Int)
    (hid : (tx.product_batches.map fun b => b.ID).Nodup)
    (hlot : ∀ b ∈ qBatches tx p t, b.LoteNumber ≠ none)
    (hq : 0 < q) (hsum : q ≤ ((qBatches tx p t).map fun b => b.Quantity).sum) :
    (ConsumeStockFEFO tx [] p t q).err = none ∧
    (∀ j, j ∉ (qBatches tx p t).map (fun b => b.ID) →
      quantityOf (ConsumeStockFEFO tx [] p t q).tx j = quantityOf tx j) ∧
    ∃ pre b post, qBatches tx p t = pre ++ b :: post ∧
      (pre.map fun b => b.Quantity).sum < q ∧
      q - (pre.map fun b => b.Quantity).sum ≤ b.Quantity ∧
      (∀ x ∈ pre, quantityOf (ConsumeStockFEFO tx [] p t q).tx x.ID = some 0) ∧
      quantityOf (ConsumeStockFEFO tx [] p t q).tx b.ID =
        some (b.Quantity - (q - (pre.map fun b => b.Quantity).sum)) ∧
      (∀ x ∈ post, quantityOf (ConsumeStockFEFO tx [] p t q).tx x.ID = some x.Quantity) := by
  have hmapq : ((qBatches tx p t).map toBatch).map (fun b => b.quantity) =
      (qBatches tx p t).map fun b => b.Quantity := by
    rw [List.map_map]; rfl
  have hmapi : ((qBatches tx p t).map toBatch).map (fun b => b.id) =
      (qBatches tx p t).map fun b => b.ID := by
    rw [List.map_map]; rfl
  have hinv : ∀ x ∈ (qBatches tx p t).map toBatch, quantityOf tx x.id = some x.quantity := by
    intro x hx
    obtain ⟨r, hr, rfl⟩ := List.mem_map.1 hx
    exact quantityOf_of_mem hid (mem_qBatches.1 hr).1
  obtain ⟨h1, _, h3, pre, b, post, hdec, hpre, hb, hz, hbq, hpost⟩ :=
    consumeLoop_enough ((qBatches tx p t).map toBatch) q tx hq (by rw [hmapq]; exact hsum)
      (by rw [hmapi]; exact qBatches_nodup hid p t) hinv
  have e : ConsumeStockFEFO tx [] p t q =
      ⟨none, (consumeLoop ((qBatches tx p t).map toBatch) q tx []).tx,
        (consumeLoop ((qBatches tx p t).map toBatch) q tx []).faults⟩ := by
    simp [ConsumeStockFEFO, failsNow, scanRows_of_lots _ hlot, h1]
  rw [e]
  obtain ⟨pre1, rest1, hrows, hpre1, hrest1⟩ := List.map_eq_append_iff.1 hdec
  obtain ⟨b1, post1, hrest, hb1, hpost1⟩ := List.map_eq_cons_iff.1 hrest1
  subst hpre1 hb1 hpost1
  refine ⟨rfl, ?_, pre1, b1, post1, by rw [hrows, hrest], ?_, ?_, ?_, ?_, ?_⟩
  · intro j hj; exact h3 j (by rw [hmapi]; exact hj)
  · simpa [List.map_map, Function.comp, toBatch] using hpre
  · simpa [List.map_map, Function.comp, toBatch] using hb
  · intro x hx; exact hz (toBatch x) (List.mem_map_of_mem _ hx)
  · simpa [List.map_map, Function.comp, toBatch] using hbq
  · intro x hx; exact hpost (toBatch x) (List.mem_map_of_mem _ hx)

/-! ### Allocation when the stock suffices -/

/-- C1. When the candidate batches of a product (in FEFO order, all with
positive quantity, all readable) hold at least the requested quantity `q > 0`,
`ConsumeStockFEFO` succeeds and there is an index `k` in the candidate list
such that every candidate before `k` ends with quantity 0, candidate `k` ends
with its old quantity minus (`q` minus the old quantities before `k`), which is
not negative, and every candidate after `k` keeps its old quantity. -/
theorem ConsumeStockFEFO_allocates (tx : Store) (p t q : Int)
    (hid : (tx.product_batches.map fun b => b.ID).Nodup)
    (hlot : ∀ b ∈ qBatches tx p t, b.LoteNumber ≠ none)
    (hq : 0 < q) (hsum : q ≤ ((qBatches tx p t).map fun b => b.Quantity).sum) :
    (ConsumeStockFEFO tx [] p t q).err = none ∧
    ∃ k, k < (qBatches tx p t).length ∧
      ∀ (i : Nat) (b : ProductBatch), (qBatches tx p t)[i]? = some b →
        (i < k → quantityOf (ConsumeStockFEFO tx [] p t q).tx b.ID = some 0) ∧
        (i = k →
          0 ≤ b.Quantity - (q - (((qBatches tx p t).take k).map fun b => b.Quantity).sum) ∧
          quantityOf (ConsumeStockFEFO tx [] p t q).tx b.ID =
            some (b.Quantity - (q - (((qBatches tx p t).take k).map fun b => b.Quantity).sum))) ∧
        (k < i → quantityOf (ConsumeStockFEFO tx [] p t q).tx b.ID = some b.Quantity) := by
  obtain ⟨herr, _, pre, c, post, hdec, _, hc, hz, hcq, hpost⟩ :=
    ConsumeStockFEFO_enough tx p t q hid hlot hq hsum
  refine ⟨herr, pre.length, by rw [hdec]; simp, ?_⟩
  intro i b hb
  rw [hdec] at hb
  have htake : (qBatches tx p t).take pre.length = pre := by rw [hdec, List.take_left]
  rw [htake]
  refine ⟨fun hi => ?_, fun hi => ?_, fun hi => ?_⟩
  · rw [List.getElem?_append_left hi] at hb
    exact hz b (List.getElem?_mem hb)
  · subst hi
    rw [List.getElem?_append_right (le_refl _)] at hb
    simp at hb
    subst hb
    exact ⟨by omega, hcq⟩
  · rw [List.getElem?_append_right (le_of_lt hi)] at hb
    obtain ⟨n, hn⟩ : ∃ n, i - pre.length = n + 1 := ⟨i - pre.length - 1, by omega⟩
    rw [hn, List.getElem?_cons_succ] at hb
    exact hpost b (List.getElem?_mem hb)

/-- Instance of C1: consuming 7 units of product 1 in `fefoStore`. -/
theorem ConsumeStockFEFO_allocates_witness :
    (ConsumeStockFEFO fefoStore [] 1 7 7).err = none ∧
    ∃ k, k < (qBatches fefoStore 1 7).length ∧
      ∀ (i : Nat) (b : ProductBatch), (qBatches fefoStore 1 7)[i]? = some b →
        (i < k → quantityOf (ConsumeStockFEFO fefoStore [] 1 7 7).tx b.ID = some 0) ∧
        (i = k →
          0 ≤ b.Quantity - (7 - (((qBatches fefoStore 1 7).take k).map fun b => b.Quantity).sum) ∧
          quantityOf (ConsumeStockFEFO fefoStore [] 1 7 7).tx b.ID =
            some (b.Quantity - (7 - (((qBatches fefoStore 1 7).take k).map fun b => b.Quantity).sum))) ∧
        (k < i → quantityOf (ConsumeStockFEFO fefoStore [] 1 7 7).tx b.ID = some b.Quantity) :=
  ConsumeStockFEFO_allocates fefoStore 1 7 7 (by decide) (by decide) (by decide) (by decide)

/-! ### Outcomes of the allocator -/

theorem consumeLoop_nonpos (bs : List batch) (rem : Int) (tx : Store) (w : List Bool)
    (h : rem ≤ 0) : consumeLoop bs rem tx w = ⟨.ok rem, tx, w⟩ := by
  cases bs with
  | nil => rfl
  | cons b bs => simp [consumeLoop, h]

theorem consumeLoop_enough_out : ∀ (bs : List batch) (rem : Int) (tx : Store),
    0 < rem → rem ≤ (bs.map fun b => b.quantity).sum → (consumeLoop bs rem tx []).out = .ok 0
  | [], rem, tx, hrem, hsum => by
    simp at hsum; omega
  | b :: bs, rem, tx, hrem, hsum => by
    simp only [List.map_cons, List.sum_cons] at hsum
    by_cases hge : b.quantity ≥ rem
    · simp [consumeLoop, failsNow, not_le.2 hrem, hge]
    · have e : consumeLoop (b :: bs) rem tx [] =
          consumeLoop bs (rem - b.quantity) (updateBatch tx 0 b.id) [] := by
        simp [consumeLoop, failsNow, not_le.2 hrem, hge]
      rw [e]
      exact consumeLoop_enough_out bs _ _ (by omega) (by omega)

theorem consumeLoop_nofault_ok : ∀ (bs : List batch) (rem : Int) (tx : Store),
    ∃ r, (consumeLoop bs rem tx []).out = .ok r
  | [], rem, tx => ⟨rem, rfl⟩
  | b :: bs, rem, tx => by
    by_cases hrem : rem ≤ 0
    · exact ⟨rem, by simp [consumeLoop, hrem]⟩
    · by_cases hge : b.quantity ≥ rem
      · exact ⟨0, by simp [consumeLoop, failsNow, hrem, hge]⟩
      · obtain ⟨r, hr⟩ := consumeLoop_nofault_ok bs (rem - b.quantity) (updateBatch tx 0 b.id)
        exact ⟨r, by simpa [consumeLoop, failsNow, hrem, hge] using hr⟩

theorem consumeLoop_ok_irrel : ∀ (bs : List batch) (rem : Int) (tx : Store) (w : List Bool)
    (r : Int), (consumeLoop bs rem tx w).out = .ok r →
    (consumeLoop bs rem tx []).out = .ok r ∧
      (consumeLoop bs rem tx []).tx = (consumeLoop bs rem tx w).tx
  | [], rem, tx, w, r, h => ⟨h, rfl⟩
  | b :: bs, rem, tx, w, r, h => by
    by_cases hrem : rem ≤ 0
    · rw [consumeLoop_nonpos _ _ _ _ hrem] at h ⊢
      rw [consumeLoop_nonpos _ _ _ _ hrem]
      exact ⟨h, rfl⟩
    · by_cases hf : failsNow w = true
      · by_cases hge : b.quantity ≥ rem <;> simp [consumeLoop, hrem, hge, hf] at h
      · by_cases hge : b.quantity ≥ rem
        · have e1 : consumeLoop (b :: bs) rem tx w =
              ⟨.ok 0, updateBatch tx (b.quantity - rem) b.id, w.tail⟩ := by
            simp only [consumeLoop, hrem, hge, hf, if_true, if_false]
            simp
          have e2 : consumeLoop (b :: bs) rem tx [] =
              ⟨.ok 0, updateBatch tx (b.quantity - rem) b.id, []⟩ := by
            simp [consumeLoop, failsNow, hrem, hge]
          rw [e1] at h ⊢
          rw [e2]
          exact ⟨h, rfl⟩
        · have e1 : consumeLoop (b :: bs) rem tx w =
              consumeLoop bs (rem - b.quantity) (updateBatch tx 0 b.id) w.tail := by
            simp only [consumeLoop, hrem, hge, hf, if_false]
            simp
          have e2 : consumeLoop (b :: bs) rem tx [] =
              consumeLoop bs (rem - b.quantity) (updateBatch tx 0 b.id) [] := by
            simp [consumeLoop, failsNow, hrem, hge]
          rw [e1] at h ⊢
          rw [e2]
          exact consumeLoop_ok_irrel bs _ _ _ r h

theorem scanRows_some : ∀ (rows : List ProductBatch) (bs : List batch),
    scanRows rows = some bs → bs = rows.map toBatch ∧ ∀ r ∈ rows, r.LoteNumber ≠ none
  | [], bs, h => by
    simp [scanRows] at h; subst h; simp
  | r :: rows, bs, h => by
    cases hl : r.LoteNumber with
    | none => simp [scanRows, scanBatch, hl] at h
    | some l =>
      cases hs : scanRows rows with
      | none => simp [scanRows, scanBatch, hl, hs] at h
      | some bs1 =>
        obtain ⟨h1, h2⟩ := scanRows_some rows bs1 hs
        simp [scanRows, scanBatch, hl, hs] at h
        subst h
        refine ⟨by simp [h1, toBatch, hl], ?_⟩
        intro x hx
        rcases List.mem_cons.1 hx with hx | hx
        · subst hx; simp [hl]
        · exact h2 x hx

theorem ConsumeStockFEFO_nofault (tx : Store) (p t q : Int)
    (hlot : ∀ b ∈ qBatches tx p t, b.LoteNumber ≠ none) :
    ConsumeStockFEFO tx [] p t q =
      match (consumeLoop ((qBatches tx p t).map toBatch) q tx []).out with
      | .error e => ⟨some e, (consumeLoop ((qBatches tx p t).map toBatch) q tx []).tx,
          (consumeLoop ((qBatches tx p t).map toBatch) q tx []).faults⟩
      | .ok remaining =>
        if remaining > 0 then
          ⟨some .ErrInsufficientStock, (consumeLoop ((qBatches tx p t).map toBatch) q tx []).tx,
            (consumeLoop ((qBatches tx p t).map toBatch) q tx []).faults⟩
        else ⟨none, (consumeLoop ((qBatches tx p t).map toBatch) q tx []).tx,
          (consumeLoop ((qBatches tx p t).map toBatch) q tx []).faults⟩ := by
  simp [ConsumeStockFEFO, failsNow, scanRows_of_lots _ hlot]

theorem ConsumeStockFEFO_ok (tx : Store) (w : List Bool) (p t q : Int)
    (h : (ConsumeStockFEFO tx w p t q).err = none) :
    (∀ b ∈ qBatches tx p t, b.LoteNumber ≠ none) ∧
    ∃ r, r ≤ 0 ∧ (consumeLoop ((qBatches tx p t).map toBatch) q tx w.tail).out = .ok r ∧
      (ConsumeStockFEFO tx w p t q).tx =
        (consumeLoop ((qBatches tx p t).map toBatch) q tx w.tail).tx := by
  unfold ConsumeStockFEFO at h ⊢
  by_cases hf : failsNow w = true
  · simp [hf] at h
  · simp only [hf, if_false] at h ⊢
    cases hs : scanRows (qBatches tx p t) with
    | none => simp [hs] at h
    | some bs =>
      obtain ⟨hbs, hl⟩ := scanRows_some _ _ hs
      subst hbs
      simp only [hs] at h ⊢
      refine ⟨hl, ?_⟩
      cases ho : (consumeLoop ((qBatches tx p t).map toBatch) q tx w.tail).out with
      | error e => simp [ho] at h
      | ok r =>
        simp only [ho] at h ⊢
        by_cases hr : r > 0
        · simp [hr] at h
        · exact ⟨r, not_lt.1 hr, rfl, by simp [hr]⟩

theorem qBatches_sum (tx : Store) (p t : Int) :
    ((qBatches tx p t).map fun b => b.Quantity).sum = availableStock tx p t :=
  ((qBatches_perm tx p t).map fun b => b.Quantity).sum_eq

theorem qBatches_toBatch_sum (tx : Store) (p t : Int) :
    (((qBatches tx p t).map toBatch).map fun b => b.quantity).sum = availableStock tx p t := by
  rw [← qBatches_sum, List.map_map]; rfl

theorem qBatches_toBatch_pos (tx : Store) (p t : Int) :
    ∀ x ∈ (qBatches tx p t).map toBatch, 0 < x.quantity := by
  intro x hx
  obtain ⟨r, hr, rfl⟩ := List.mem_map.1 hx
  exact (mem_qBatches.1 hr).2.2.2

theorem ConsumeStockFEFO_nofault_err (tx : Store) (p t q : Int) (hq : 0 < q)
    (hlot : ∀ b ∈ qBatches tx p t, b.LoteNumber ≠ none) :
    ((ConsumeStockFEFO tx [] p t q).err = some .ErrInsufficientStock ↔
      availableStock tx p t < q) ∧
    (¬ availableStock tx p t < q → (ConsumeStockFEFO tx [] p t q).err = none) := by
  have henough : ¬ availableStock tx p t < q → (ConsumeStockFEFO tx [] p t q).err = none := by
    intro h
    have ho := consumeLoop_enough_out ((qBatches tx p t).map toBatch) q tx hq
      (by rw [qBatches_toBatch_sum]; exact not_lt.1 h)
    rw [ConsumeStockFEFO_nofault tx p t q hlot, ho]
    simp
  refine ⟨⟨fun h => ?_, fun h => ?_⟩, henough⟩
  · by_contra hn
    rw [henough hn] at h
    cases h
  · obtain ⟨r, hr⟩ := consumeLoop_nofault_ok ((qBatches tx p t).map toBatch) q tx
    have hpos := consumeLoop_short ((qBatches tx p t).map toBatch) q tx [] hq
      (by rw [qBatches_toBatch_sum]; exact h) (qBatches_toBatch_pos tx p t) r hr
    rw [ConsumeStockFEFO_nofault tx p t q hlot, hr]
    simp [hpos]

/-! ### The FEFO order -/

theorem expiryLT_irrefl (a : Option Int) : expiryLT a a = false := by
  cases a <;> simp [expiryLT]

theorem expiryLT_asymm {a b : Option Int} (h : expiryLT a b = true) : expiryLT b a = false := by
  cases a <;> cases b <;> simp [expiryLT] at h ⊢
  omega

theorem expiryLT_trans {a b c : Option Int} (h1 : expiryLT a b = true)
    (h2 : expiryLT b c = true) : expiryLT a c = true := by
  cases a <;> cases b <;> cases c <;> simp [expiryLT] at h1 h2 ⊢
  omega

theorem expiryLT_total (a b : Option Int) :
    expiryLT a b = true ∨ a = b ∨ expiryLT b a = true := by
  cases a <;> cases b <;> simp [expiryLT]
  omega

theorem fefoLE_total (a b : ProductBatch) : fefoLE a b ∨ fefoLE b a := by
  unfold fefoLE
  rcases expiryLT_total a.ExpiryDate b.ExpiryDate with h | h | h
  · exact Or.inl (Or.inl h)
  · rcases le_total a.CreatedAt b.CreatedAt with hc | hc
    · exact Or.inl (Or.inr ⟨h, hc⟩)
    · exact Or.inr (Or.inr ⟨h.symm, hc⟩)
  · exact Or.inr (Or.inl h)

theorem fefoLE_trans {a b c : ProductBatch} (h1 : fefoLE a b) (h2 : fefoLE b c) :
    fefoLE a c := by
  unfold fefoLE at *
  rcases h1 with h1 | ⟨e1, c1⟩
  · rcases h2 with h2 | ⟨e2, _⟩
    · exact Or.inl (expiryLT_trans h1 h2)
    · exact Or.inl (e2 ▸ h1)
  · rcases h2 with h2 | ⟨e2, c2⟩
    · exact Or.inl (e1 ▸ h2)
    · exact Or.inr ⟨e1.trans e2, le_trans c1 c2⟩

theorem not_fefoLE_of_fefoBefore {a b : ProductBatch} (h : fefoBefore a b) : ¬ fefoLE b a := by
  unfold fefoBefore at h
  unfold fefoLE
  rintro (h2 | ⟨e2, c2⟩)
  · rcases h with h | ⟨e, _⟩
    · rw [expiryLT_asymm h] at h2; cases h2
    · rw [e, expiryLT_irrefl] at h2; cases h2
  · rcases h with h | ⟨_, c⟩
    · rw [e2, expiryLT_irrefl] at h; cases h
    · omega

theorem qBatches_sorted (tx : Store) (p t : Int) : (qBatches tx p t).Sorted fefoLE := by
  haveI : IsTotal ProductBatch fefoLE := ⟨fefoLE_total⟩
  haveI : IsTrans ProductBatch fefoLE := ⟨fun _ _ _ => fefoLE_trans⟩
  exact List.sorted_insertionSort fefoLE _

theorem ConsumeStockFEFO_ok_irrel (tx : Store) (w : List Bool) (p t q : Int)
    (h : (ConsumeStockFEFO tx w p t q).err = none) :
    (∀ b ∈ qBatches tx p t, b.LoteNumber ≠ none) ∧
    (ConsumeStockFEFO tx [] p t q).err = none ∧
    (ConsumeStockFEFO tx [] p t q).tx = (ConsumeStockFEFO tx w p t q).tx := by
  obtain ⟨hlot, r, hr, ho, htx⟩ := ConsumeStockFEFO_ok tx w p t q h
  obtain ⟨ho1, htx1⟩ := consumeLoop_ok_irrel _ _ _ _ r ho
  refine ⟨hlot, ?_, ?_⟩
  · rw [ConsumeStockFEFO_nofault tx p t q hlot, ho1]
    simp [not_lt.2 hr]
  · rw [htx, ← htx1, ConsumeStockFEFO_nofault tx p t q hlot, ho1]
    simp [not_lt.2 hr]

theorem ConsumeStockFEFO_fefo_order_aux (tx : Store) (w : List Bool) (p t q : Int)
    (hid : (tx.product_batches.map fun b => b.ID).Nodup)
    (hok : (ConsumeStockFEFO tx w p t q).err = none)
    (b1 b2 : ProductBatch) (h1 : b1 ∈ tx.product_batches) (h2 : b2 ∈ tx.product_batches)
    (hp1 : b1.ProductID = p ∧ b1.UserID = t ∧ 0 < b1.Quantity)
    (hp2 : b2.ProductID = p ∧ b2.UserID = t ∧ 0 < b2.Quantity)
    (hbefore : fefoBefore b1 b2)
    (hred : ∃ n, quantityOf (ConsumeStockFEFO tx w p t q).tx b2.ID = some n ∧ n < b2.Quantity) :
    quantityOf (ConsumeStockFEFO tx w p t q).tx b1.ID = some 0 := by
  obtain ⟨hlot, herr0, htx0⟩ := ConsumeStockFEFO_ok_irrel tx w p t q hok
  rw [← htx0] at hred ⊢
  obtain ⟨n, hn, hlt⟩ := hred
  have hm1 : b1 ∈ qBatches tx p t := mem_qBatches.2 ⟨h1, hp1⟩
  have hm2 : b2 ∈ qBatches tx p t := mem_qBatches.2 ⟨h2, hp2⟩
  by_cases hq : 0 < q
  · have hsum : q ≤ ((qBatches tx p t).map fun b => b.Quantity).sum := by
      by_contra hs
      rw [qBatches_sum] at hs
      have := ((ConsumeStockFEFO_nofault_err tx p t q hq hlot).1).2 (not_le.1 hs)
      rw [herr0] at this
      cases this
    obtain ⟨_, _, pre, c, post, hdec, _, _, hz, _, hpost⟩ :=
      ConsumeStockFEFO_enough tx p t q hid hlot hq hsum
    have hsorted := qBatches_sorted tx p t
    rw [hdec] at hm1 hm2 hsorted
    have hpw := List.pairwise_append.1 hsorted
    have hb2 : b2 ∈ pre ∨ b2 = c := by
      rcases List.mem_append.1 hm2 with h | h
      · exact Or.inl h
      · rcases List.mem_cons.1 h with h | h
        · exact Or.inr h
        · have := hpost b2 h
          rw [hn] at this
          injection this with this
          omega
    rcases List.mem_append.1 hm1 with h | h
    · exact hz b1 h
    · exfalso
      rcases hb2 with hb2 | hb2
      · exact not_fefoLE_of_fefoBefore hbefore (hpw.2.2 b2 hb2 b1 h)
      · subst hb2
        rcases List.mem_cons.1 h with h | h
        · subst h
          exact not_fefoLE_of_fefoBefore hbefore (Or.inr ⟨rfl, le_refl _⟩)
        · exact not_fefoLE_of_fefoBefore hbefore ((List.pairwise_cons.1 hpw.2.1).1 b1 h)
  · exfalso
    have e : (ConsumeStockFEFO tx [] p t q).tx = tx := by
      rw [ConsumeStockFEFO_nofault tx p t q hlot, consumeLoop_nonpos _ _ _ _ (not_lt.1 hq)]
      simp [hq]
    rw [e, quantityOf_of_mem hid h2] at hn
    injection hn with hn
    omega

/-- C3. For a requested quantity `q > 0`, when no driver call fails and the
candidate rows are readable, `ConsumeStockFEFO` returns `ErrInsufficientStock`
exactly when the quantities of the batches of the product and tenant with
`quantity > 0` sum to less than `q`, and returns nil otherwise. -/
theorem ConsumeStockFEFO_insufficient_iff (tx : Store) (p t q : Int) (hq : 0 < q)
    (hlot : ∀ b ∈ qBatches tx p t, b.LoteNumber ≠ none) :
    ((ConsumeStockFEFO tx [] p t q).err = some .ErrInsufficientStock ↔
      availableStock tx p t < q) ∧
    (¬ availableStock tx p t < q → (ConsumeStockFEFO tx [] p t q).err = none) :=
  ConsumeStockFEFO_nofault_err tx p t q hq hlot

/-- Instance of C3: product 1 of `fefoStore` holds 15 units, so a request
for 16 is short and a request for 15 is not. -/
theorem ConsumeStockFEFO_insufficient_iff_witness :
    (((ConsumeStockFEFO fefoStore [] 1 7 16).err = some .ErrInsufficientStock ↔
      availableStock fefoStore 1 7 < 16) ∧
    (¬ availableStock fefoStore 1 7 < 16 → (ConsumeStockFEFO fefoStore [] 1 7 16).err = none)) ∧
    (ConsumeStockFEFO fefoStore [] 1 7 16).err = some .ErrInsufficientStock ∧
    (ConsumeStockFEFO fefoStore [] 1 7 15).err = none :=
  ⟨ConsumeStockFEFO_insufficient_iff fefoStore 1 7 16 (by decide) (by decide),
    by decide, by decide⟩

/-- C2. After a successful `ConsumeStockFEFO` for product `p` and tenant `t`,
for any two batches `b1`, `b2` of `(p, t)` that had a positive quantity and
with `b1` strictly before `b2` in FEFO order: if the quantity of `b2` was
reduced, the quantity of `b1` is 0. In particular the batches of `fefoStore`,
which in FEFO order expire on 2024-01-01, on 2024-02-01 and never and hold 5
units each, end with 0, 3 and 5 units after 7 units are consumed. -/
theorem ConsumeStockFEFO_fefo_order :
    (∀ (tx : Store) (w : List Bool) (p t q : Int),
      (tx.product_batches.map fun b => b.ID).Nodup →
      (ConsumeStockFEFO tx w p t q).err = none →
      ∀ b1 ∈ tx.product_batches, ∀ b2 ∈ tx.product_batches,
        (b1.ProductID = p ∧ b1.UserID = t ∧ 0 < b1.Quantity) →
        (b2.ProductID = p ∧ b2.UserID = t ∧ 0 < b2.Quantity) →
        fefoBefore b1 b2 →
        (∃ n, quantityOf (ConsumeStockFEFO tx w p t q).tx b2.ID = some n ∧ n < b2.Quantity) →
        quantityOf (ConsumeStockFEFO tx w p t q).tx b1.ID = some 0) ∧
    ((qBatches fefoStore 1 7).map (fun b => (b.ExpiryDate, b.Quantity)) =
        [(some 1704067200, 5), (some 1706745600, 5), (none, 5)] ∧
      (ConsumeStockFEFO fefoStore [] 1 7 7).err = none ∧
      (qBatches fefoStore 1 7).map
          (fun b => quantityOf (ConsumeStockFEFO fefoStore [] 1 7 7).tx b.ID) =
        [some 0, some 3, some 5]) :=
  ⟨fun tx w p t q hid hok b1 h1 b2 h2 hp1 hp2 hbefore hred =>
      ConsumeStockFEFO_fefo_order_aux tx w p t q hid hok b1 b2 h1 h2 hp1 hp2 hbefore hred,
    by decide, by decide, by decide⟩

/-- Instance of C2 in `fefoStore`: batch 3 expires before batch 2, batch 2 is
reduced by the consumption of 7 units, and batch 3 ends empty. -/
theorem ConsumeStockFEFO_fefo_order_witness :
    quantityOf (ConsumeStockFEFO fefoStore [] 1 7 7).tx 3 = some 0 :=
  ConsumeStockFEFO_fefo_order.1 fefoStore [] 1 7 7 (by decide) (by decide)
    ⟨3, 1, 7, some "L-A", 5, some 1704067200, 102⟩ (by decide)
    ⟨2, 1, 7, some "L-B", 5, some 1706745600, 101⟩ (by decide)
    (by decide) (by decide) (by decide) ⟨3, by decide, by decide⟩

/-! ### Sales-order creation -/

theorem negInt_of_ne {x : Int} (h : x ≠ -9223372036854775808) : negInt x = -x := by
  simp [negInt, h]

theorem negInt_of_pos {x : Int} (h : 0 < x) : negInt x = -x :=
  negInt_of_ne (by omega)

theorem negInt_eq_wrapInt {x : Int} (h1 : -9223372036854775808 ≤ x)
    (h2 : x < 9223372036854775808) : negInt x = wrapInt (-x) := by
  unfold negInt wrapInt
  split <;> omega

theorem consumeLoop_frame : ∀ (bs : List batch) (rem : Int) (tx : Store) (w : List Bool),
    ∃ l, (consumeLoop bs rem tx w).tx = { tx with product_batches := l }
  | [], _, tx, _ => ⟨tx.product_batches, rfl⟩
  | b :: bs, rem, tx, w => by
    by_cases hrem : rem ≤ 0
    · exact ⟨tx.product_batches, by rw [consumeLoop_nonpos _ _ _ _ hrem]⟩
    · by_cases hf : failsNow w = true
      · refine ⟨tx.product_batches, ?_⟩
        by_cases hge : b.quantity ≥ rem <;> simp [consumeLoop, hrem, hge, hf]
      · by_cases hge : b.quantity ≥ rem
        · have e : consumeLoop (b :: bs) rem tx w =
              ⟨.ok 0, updateBatch tx (b.quantity - rem) b.id, w.tail⟩ := by
            simp [consumeLoop, hrem, hge, hf]
          exact ⟨_, by rw [e]; rfl⟩
        · obtain ⟨l, hl⟩ := consumeLoop_frame bs (rem - b.quantity) (updateBatch tx 0 b.id) w.tail
          have e : consumeLoop (b :: bs) rem tx w =
              consumeLoop bs (rem - b.quantity) (updateBatch tx 0 b.id) w.tail := by
            simp [consumeLoop, hrem, hge, hf]
          exact ⟨l, by rw [e, hl]; rfl⟩

theorem ConsumeStockFEFO_frame (tx : Store) (w : List Bool) (p t q : Int) :
    ∃ l, (ConsumeStockFEFO tx w p t q).tx = { tx with product_batches := l } := by
  unfold ConsumeStockFEFO
  by_cases hf : failsNow w = true
  · exact ⟨tx.product_batches, by simp [hf]⟩
  · simp only [hf, if_false]
    cases hs : scanRows (qBatches tx p t) with
    | none => exact ⟨tx.product_batches, rfl⟩
    | some bs =>
      obtain ⟨l, hl⟩ := consumeLoop_frame bs q tx w.tail
      refine ⟨l, ?_⟩
      simp only []
      cases ho : (consumeLoop bs q tx w.tail).out with
      | error e => simpa using hl
      | ok r => by_cases hr : r > 0 <;> simpa [hr] using hl

theorem createItems_ok : ∀ (order : SalesOrder) (items : List OrderItem) (tx : Store)
    (w : List Bool), (createItems order items tx w).err = none →
    (createItems order items tx w).tx.stock_movements =
        tx.stock_movements ++ items.map (salesMovement order.ID order.UserID) ∧
      (createItems order items tx w).tx.sales_orders = tx.sales_orders
  | order, [], tx, w, _ => by simp [createItems]
  | order, item :: rest, tx, w, h => by
    obtain ⟨l, hl⟩ := ConsumeStockFEFO_frame tx w item.ProductID order.UserID item.Quantity
    simp only [createItems] at h ⊢
    cases hc : (ConsumeStockFEFO tx w item.ProductID order.UserID item.Quantity).err with
    | some e => simp [hc] at h
    | none =>
      simp only [hc] at h ⊢
      cases hf1 : failsNow (ConsumeStockFEFO tx w item.ProductID order.UserID item.Quantity).faults with
      | true => simp [hf1] at h
      | false =>
        simp only [hf1, Bool.false_eq_true, if_false] at h ⊢
        cases hf2 : failsNow
            (ConsumeStockFEFO tx w item.ProductID order.UserID item.Quantity).faults.tail with
        | true => simp [hf2] at h
        | false =>
          simp only [hf2, Bool.false_eq_true, if_false] at h ⊢
          obtain ⟨ih1, ih2⟩ := createItems_ok order rest _ _ h
          rw [ih1, ih2]
          simp [insertMovement, insertItem, hl, salesMovement]

theorem Create_ok (db : Store) (w : List Bool) (order : SalesOrder) (items : List OrderItem)
    (h : (SalesOrderModel.Create db w order items).err = none) :
    (SalesOrderModel.Create db w order items).db.stock_movements =
        db.stock_movements ++ items.map
          (salesMovement (SalesOrderModel.Create db w order items).order.ID order.UserID) ∧
      (SalesOrderModel.Create db w order items).db.sales_orders =
        db.sales_orders ++ [(SalesOrderModel.Create db w order items).order] ∧
      (SalesOrderModel.Create db w order items).order.UserID = order.UserID := by
  simp only [SalesOrderModel.Create] at h ⊢
  cases hv : (ValidateStockAvailability db w items order.UserID).err with
  | some e => simp [hv] at h
  | none =>
    simp only [hv] at h ⊢
    cases hf1 : failsNow (ValidateStockAvailability db w items order.UserID).faults with
    | true => simp [hf1] at h
    | false =>
      simp only [hf1, Bool.false_eq_true, if_false] at h ⊢
      cases hf2 : failsNow (ValidateStockAvailability db w items order.UserID).faults.tail with
      | true => simp [hf2] at h
      | false =>
        simp only [hf2, Bool.false_eq_true, if_false] at h ⊢
        cases hr : (createItems (insertOrder db order).2 items (insertOrder db order).1
            (ValidateStockAvailability db w items order.UserID).faults.tail.tail).err with
        | some e => simp [hr] at h
        | none =>
          simp only [hr] at h ⊢
          cases hf3 : failsNow (createItems (insertOrder db order).2 items (insertOrder db order).1
              (ValidateStockAvailability db w items order.UserID).faults.tail.tail).faults with
          | true => simp [hf3] at h
          | false =>
            simp only [Bool.false_eq_true, if_false]
            obtain ⟨h1, h2⟩ := createItems_ok _ _ _ _ hr
            rw [h1, h2]
            simp [insertOrder]

theorem Create_failed (db : Store) (w : List Bool) (order : SalesOrder) (items : List OrderItem)
    (h : (SalesOrderModel.Create db w order items).err ≠ none) :
    ∃ tx, (SalesOrderModel.Create db w order items).db = Rollback db tx := by
  simp only [SalesOrderModel.Create] at h ⊢
  cases hv : (ValidateStockAvailability db w items order.UserID).err with
  | some e => exact ⟨db, rfl⟩
  | none =>
    simp only [hv] at h ⊢
    cases hf1 : failsNow (ValidateStockAvailability db w items order.UserID).faults with
    | true => exact ⟨db, rfl⟩
    | false =>
      simp only [hf1, Bool.false_eq_true, if_false] at h ⊢
      cases hf2 : failsNow (ValidateStockAvailability db w items order.UserID).faults.tail with
      | true => exact ⟨db, rfl⟩
      | false =>
        simp only [hf2, Bool.false_eq_true, if_false] at h ⊢
        cases hr : (createItems (insertOrder db order).2 items (insertOrder db order).1
            (ValidateStockAvailability db w items order.UserID).faults.tail.tail).err with
        | some e => exact ⟨_, rfl⟩
        | none =>
          simp only [hr] at h ⊢
          cases hf3 : failsNow (createItems (insertOrder db order).2 items (insertOrder db order).1
              (ValidateStockAvailability db w items order.UserID).faults.tail.tail).faults with
          | true => exact ⟨_, rfl⟩
          | false => simp [hf3] at h

/-- C4. `SalesOrderModel.Create` is all-or-nothing: whenever it returns an
error - a shortfall found by the validator, a shortfall found by the allocator
on any line, or a failure of any driver call - every table of the committed
store, in particular the batches with their quantities, the sales orders, the
order items and the stock movements, is what it was before the call. -/
theorem Create_all_or_nothing (db : Store) (w : List Bool) (order : SalesOrder)
    (items : List OrderItem) (h : (SalesOrderModel.Create db w order items).err ≠ none) :
    (SalesOrderModel.Create db w order items).db.product_batches = db.product_batches ∧
    (SalesOrderModel.Create db w order items).db.sales_orders = db.sales_orders ∧
    (SalesOrderModel.Create db w order items).db.order_items = db.order_items ∧
    (SalesOrderModel.Create db w order items).db.stock_movements = db.stock_movements ∧
    (SalesOrderModel.Create db w order items).db.products = db.products ∧
    (SalesOrderModel.Create db w order items).db.purchase_orders = db.purchase_orders ∧
    (SalesOrderModel.Create db w order items).db.purchase_order_items =
      db.purchase_order_items := by
  obtain ⟨tx, e⟩ := Create_failed db w order items h
  rw [e]
  exact ⟨rfl, rfl, rfl, rfl, rfl, rfl, rfl⟩

/-- Instance of C4: an order of 5 and then 11 units of product 1 in
`fefoStore` (15 units) passes the validator, consumes 5 units for the first
line and is short on the second; nothing of it is committed. -/
theorem Create_all_or_nothing_witness :
    (SalesOrderModel.Create fefoStore [] pendingOrder [line 1 5, line 1 11]).err =
      some .ErrInsufficientStock ∧
    ((SalesOrderModel.Create fefoStore [] pendingOrder [line 1 5, line 1 11]).db.product_batches =
        fefoStore.product_batches ∧
      (SalesOrderModel.Create fefoStore [] pendingOrder [line 1 5, line 1 11]).db.sales_orders =
        fefoStore.sales_orders ∧
      (SalesOrderModel.Create fefoStore [] pendingOrder [line 1 5, line 1 11]).db.order_items =
        fefoStore.order_items ∧
      (SalesOrderModel.Create fefoStore [] pendingOrder [line 1 5, line 1 11]).db.stock_movements =
        fefoStore.stock_movements ∧
      (SalesOrderModel.Create fefoStore [] pendingOrder [line 1 5, line 1 11]).db.products =
        fefoStore.products ∧
      (SalesOrderModel.Create fefoStore [] pendingOrder [line 1 5, line 1 11]).db.purchase_orders =
        fefoStore.purchase_orders ∧
      (SalesOrderModel.Create fefoStore [] pendingOrder
          [line 1 5, line 1 11]).db.purchase_order_items = fefoStore.purchase_order_items) :=
  ⟨by decide,
    Create_all_or_nothing fefoStore [] pendingOrder [line 1 5, line 1 11] (by decide)⟩

/-- C5, as the code has it. When `SalesOrderModel.Create` succeeds on the items
`i_1 .. i_n`, the stock movements of the store are the former ones followed by
exactly `n` new ones, the `j`-th with product id `i_j.ProductID`, as quantity
change the negation of `i_j.Quantity` in Go's `int`, reason `SALES_ORDER`, as
reference the decimal rendering of the id of the new order (the one row added
to `sales_orders`) and the tenant of the order. That negation is
`-i_j.Quantity` for every quantity but `-2^63`: when no item has the quantity
`-2^63`, the `j`-th movement has the quantity change `-i_j.Quantity`. In
`salesStore` (B1 with 3 units expiring on 2024-01-10, B2 with 10 units and no
expiry) one line of 5 leaves B1 at 0, B2 at 8 and writes the single movement
of -5 with reason `SALES_ORDER`. -/
theorem Create_movements :
    (∀ (db : Store) (w : List Bool) (order : SalesOrder) (items : List OrderItem),
      (SalesOrderModel.Create db w order items).err = none →
      (SalesOrderModel.Create db w order items).db.stock_movements =
          db.stock_movements ++ items.map (fun it =>
            { product_id := it.ProductID, quantity_change := negInt it.Quantity,
              reason := "SALES_ORDER",
              reference_id := toString (SalesOrderModel.Create db w order items).order.ID,
              user_id := order.UserID }) ∧
        ((∀ it ∈ items, it.Quantity ≠ -9223372036854775808) →
          (SalesOrderModel.Create db w order items).db.stock_movements =
            db.stock_movements ++ items.map (fun it =>
              { product_id := it.ProductID, quantity_change := -it.Quantity,
                reason := "SALES_ORDER",
                reference_id := toString (SalesOrderModel.Create db w order items).order.ID,
                user_id := order.UserID })) ∧
        (SalesOrderModel.Create db w order items).db.sales_orders =
          db.sales_orders ++ [(SalesOrderModel.Create db w order items).order] ∧
        (SalesOrderModel.Create db w order items).order.UserID = order.UserID) ∧
    ((SalesOrderModel.Create salesStore [] pendingOrder [line 1 5]).err = none ∧
      quantityOf (SalesOrderModel.Create salesStore [] pendingOrder [line 1 5]).db 1 = some 0 ∧
      quantityOf (SalesOrderModel.Create salesStore [] pendingOrder [line 1 5]).db 2 = some 8 ∧
      (SalesOrderModel.Create salesStore [] pendingOrder [line 1 5]).db.stock_movements =
        [{ product_id := 1, quantity_change := -5, reason := "SALES_ORDER",
           reference_id := "1", user_id := 7 }]) := by
  refine ⟨fun db w order items h => ?_, by decide, by decide, by decide, by decide⟩
  obtain ⟨h1, h2, h3⟩ := Create_ok db w order items h
  refine ⟨h1, fun hne => ?_, h2, h3⟩
  rw [h1]
  congr 1
  apply List.map_congr_left
  intro it hit
  simp only [salesMovement, negInt_of_ne (hne it hit)]

/-- Instance of C5: the two-line order of 5 and 10 units in `fefoStore`. -/
theorem Create_movements_witness :
    (SalesOrderModel.Create fefoStore [] pendingOrder [line 1 5, line 1 10]).db.stock_movements =
      [{ product_id := 1, quantity_change := -5, reason := "SALES_ORDER",
         reference_id := "1", user_id := 7 },
       { product_id := 1, quantity_change := -10, reason := "SALES_ORDER",
         reference_id := "1", user_id := 7 }] :=
  (Create_movements.1 fefoStore [] pendingOrder [line 1 5, line 1 10] (by decide)).2.1
    (by decide)

/-- Counterexample to C5. An order of tenant 7 with the single line of `-2^63`
units of product 1, the least `int`, passes the validator and the allocator
in `salesStore` and is committed; its movement has the quantity change
`-2^63`, which is not the opposite `2^63` of the quantity of the line. -/
theorem Create_movement_of_least_int :
    (SalesOrderModel.Create salesStore [] pendingOrder
      [line 1 (-9223372036854775808)]).err = none ∧
    (SalesOrderModel.Create salesStore [] pendingOrder
      [line 1 (-9223372036854775808)]).db.stock_movements =
      [{ product_id := 1, quantity_change := -9223372036854775808, reason := "SALES_ORDER",
         reference_id := "1", user_id := 7 }] ∧
    (SalesOrderModel.Create salesStore [] pendingOrder
      [line 1 (-9223372036854775808)]).db.stock_movements ≠
      [line 1 (-9223372036854775808)].map (fun it =>
        { product_id := it.ProductID, quantity_change := -it.Quantity, reason := "SALES_ORDER",
          reference_id := toString (SalesOrderModel.Create salesStore [] pendingOrder
            [line 1 (-9223372036854775808)]).order.ID,
          user_id := 7 }) :=
  ⟨by decide, by decide, by decide⟩

/-! ### The two shortage signals -/

theorem consumeLoop_error : ∀ (bs : List batch) (rem : Int) (tx : Store) (w : List Bool)
    (e : Error), (consumeLoop bs rem tx w).out = .error e → e = .Driver
  | [], _, _, _, e, h => by simp [consumeLoop] at h
  | b :: bs, rem, tx, w, e, h => by
    by_cases hrem : rem ≤ 0
    · rw [consumeLoop_nonpos _ _ _ _ hrem] at h; cases h
    · cases hf : failsNow w with
      | true =>
        by_cases hge : b.quantity ≥ rem <;>
          simp [consumeLoop, hrem, hge, hf] at h <;> exact h.symm
      | false =>
        by_cases hge : b.quantity ≥ rem
        · simp [consumeLoop, hrem, hge, hf] at h
        · have e1 : consumeLoop (b :: bs) rem tx w =
              consumeLoop bs (rem - b.quantity) (updateBatch tx 0 b.id) w.tail := by
            simp [consumeLoop, hrem, hge, hf]
          rw [e1] at h
          exact consumeLoop_error bs _ _ _ e h

theorem ConsumeStockFEFO_error (tx : Store) (w : List Bool) (p t q : Int) (e : Error)
    (h : (ConsumeStockFEFO tx w p t q).err = some e) :
    e = .ErrInsufficientStock ∨ e = .Driver ∨ e = .ScanNull := by
  unfold ConsumeStockFEFO at h
  cases hf : failsNow w with
  | true => simp [hf] at h; exact Or.inr (Or.inl h.symm)
  | false =>
    simp only [hf, Bool.false_eq_true, if_false] at h
    cases hs : scanRows (qBatches tx p t) with
    | none => simp [hs] at h; exact Or.inr (Or.inr h.symm)
    | some bs =>
      simp only [hs] at h
      cases ho : (consumeLoop bs q tx w.tail).out with
      | error e1 =>
        simp [ho] at h
        subst h
        exact Or.inr (Or.inl (consumeLoop_error _ _ _ _ _ ho))
      | ok r =>
        simp only [ho] at h
        by_cases hr : r > 0
        · simp [hr] at h; exact Or.inl h.symm
        · simp [hr] at h

theorem createItems_error : ∀ (order : SalesOrder) (items : List OrderItem) (tx : Store)
    (w : List Bool) (e : Error), (createItems order items tx w).err = some e →
    e = .ErrInsufficientStock ∨ e = .Driver ∨ e = .ScanNull
  | order, [], tx, w, e, h => by simp [createItems] at h
  | order, item :: rest, tx, w, e, h => by
    simp only [createItems] at h
    cases hc : (ConsumeStockFEFO tx w item.ProductID order.UserID item.Quantity).err with
    | some e1 =>
      simp [hc] at h
      subst h
      exact ConsumeStockFEFO_error _ _ _ _ _ _ hc
    | none =>
      simp only [hc] at h
      cases hf1 : failsNow (ConsumeStockFEFO tx w item.ProductID order.UserID item.Quantity).faults with
      | true => simp [hf1] at h; exact Or.inr (Or.inl h.symm)
      | false =>
        simp only [hf1, Bool.false_eq_true, if_false] at h
        cases hf2 : failsNow
            (ConsumeStockFEFO tx w item.ProductID order.UserID item.Quantity).faults.tail with
        | true => simp [hf2] at h; exact Or.inr (Or.inl h.symm)
        | false =>
          simp only [hf2, Bool.false_eq_true, if_false] at h
          exact createItems_error order rest _ _ e h

theorem ValidateStockAvailability_error (db : Store) : ∀ (w : List Bool)
    (items : List OrderItem) (userID : Int) (e : Error),
    (ValidateStockAvailability db w items userID).err = some e →
    e = .Driver ∨ ∃ s, e = .Shortfall s
  | w, [], _, e, h => by simp [ValidateStockAvailability] at h
  | w, item :: rest, userID, e, h => by
    simp only [ValidateStockAvailability] at h
    cases hf : failsNow w with
    | true => simp [hf] at h; exact Or.inl h.symm
    | false =>
      simp only [hf, Bool.false_eq_true, if_false] at h
      cases hq : qTotalStock db item.ProductID userID with
      | none => simp [hq] at h; exact Or.inr ⟨_, h.symm⟩
      | some r =>
        obtain ⟨availableStock, productName⟩ := r
        simp only [hq] at h
        by_cases hlt : availableStock < item.Quantity
        · simp [hlt] at h; exact Or.inr ⟨_, h.symm⟩
        · simp only [hlt, if_false] at h
          exact ValidateStockAvailability_error db _ rest userID e h

theorem Create_error_kinds (db : Store) (w : List Bool) (order : SalesOrder)
    (items : List OrderItem) :
    (∀ e, (ValidateStockAvailability db w items order.UserID).err = some e →
      (SalesOrderModel.Create db w order items).err = some e ∧
        (e = .Driver ∨ ∃ s, e = .Shortfall s)) ∧
    ((ValidateStockAvailability db w items order.UserID).err = none →
      (SalesOrderModel.Create db w order items).err = none ∨
      (SalesOrderModel.Create db w order items).err = some .ErrInsufficientStock ∨
      (SalesOrderModel.Create db w order items).err = some .Driver ∨
      (SalesOrderModel.Create db w order items).err = some .ScanNull) := by
  constructor
  · intro e he
    exact ⟨by simp [SalesOrderModel.Create, he], ValidateStockAvailability_error db _ _ _ e he⟩
  · intro hv
    simp only [SalesOrderModel.Create, hv]
    cases hf1 : failsNow (ValidateStockAvailability db w items order.UserID).faults with
    | true => simp
    | false =>
      simp only [Bool.false_eq_true, if_false]
      cases hf2 : failsNow (ValidateStockAvailability db w items order.UserID).faults.tail with
      | true => simp
      | false =>
        simp only [Bool.false_eq_true, if_false]
        cases hr : (createItems (insertOrder db order).2 items (insertOrder db order).1
            (ValidateStockAvailability db w items order.UserID).faults.tail.tail).err with
        | some e =>
          rcases createItems_error _ _ _ _ e hr with h | h | h <;> simp [h]
        | none =>
          simp only []
          cases hf3 : failsNow (createItems (insertOrder db order).2 items (insertOrder db order).1
              (ValidateStockAvailability db w items order.UserID).faults.tail.tail).faults with
          | true => simp
          | false => simp

/-- C7, as the code has it. A stock shortage makes `SalesOrderModel.Create`
fail with one of two signals. An error of the validator is returned as it is,
and is either a driver error or an `InsufficientStockError` with product id,
product name, requested and available quantity. Once the validator has passed,
`Create` never returns an `InsufficientStockError`: a shortage met by the FEFO
allocator inside the transaction is returned as the sentinel
`ErrInsufficientStock`, which carries no data. -/
theorem Create_shortage_signal (db : Store) (w : List Bool) (order : SalesOrder)
    (items : List OrderItem) :
    (∀ e, (ValidateStockAvailability db w items order.UserID).err = some e →
      (SalesOrderModel.Create db w order items).err = some e ∧
        (e = .Driver ∨ ∃ s, e = .Shortfall s)) ∧
    ((ValidateStockAvailability db w items order.UserID).err = none →
      (SalesOrderModel.Create db w order items).err = none ∨
      (SalesOrderModel.Create db w order items).err = some .ErrInsufficientStock ∨
      (SalesOrderModel.Create db w order items).err = some .Driver ∨
      (SalesOrderModel.Create db w order items).err = some .ScanNull) :=
  Create_error_kinds db w order items

/-- Instance of C7 as amended: a line of 16 units of product 1 in `fefoStore`
(15 units) is refused by the validator with the detailed report. -/
theorem Create_shortage_signal_witness :
    (SalesOrderModel.Create fefoStore [] pendingOrder [line 1 16]).err =
        some (.Shortfall { ProductID := 1, ProductName := "Leche", Requested := 16,
                           Available := 15 }) ∧
      (Error.Shortfall { ProductID := 1, ProductName := "Leche", Requested := 16,
                         Available := 15 } = .Driver ∨
        ∃ s, Error.Shortfall { ProductID := 1, ProductName := "Leche", Requested := 16,
                               Available := 15 } = .Shortfall s) :=
  (Create_shortage_signal fefoStore [] pendingOrder [line 1 16]).1 _ (by decide)

/-- Counterexample to C7: two lines of 8 units of product 1 in `fefoStore`
(15 units) each fit the stock, so the validator passes; the allocator is
short on the second line and `Create` returns the bare sentinel, not an
`InsufficientStockError`. -/
theorem Create_allocator_shortage_is_sentinel :
    (ValidateStockAvailability fefoStore [] [line 1 8, line 1 8] 7).err = none ∧
    (SalesOrderModel.Create fefoStore [] pendingOrder [line 1 8, line 1 8]).err =
      some .ErrInsufficientStock ∧
    ¬ ∃ s, (SalesOrderModel.Create fefoStore [] pendingOrder [line 1 8, line 1 8]).err =
      some (.Shortfall s) := by
  refine ⟨by decide, by decide, ?_⟩
  rintro ⟨s, hs⟩
  have h : (SalesOrderModel.Create fefoStore [] pendingOrder [line 1 8, line 1 8]).err =
      some .ErrInsufficientStock := by decide
  rw [h] at hs
  cases hs

/-! ### The stock validator -/

theorem qTotalStock_some {db : Store} {p u a : Int} {n : String}
    (h : qTotalStock db p u = some (a, n)) :
    a = availableStock db p u ∧ stockRows db p u ≠ [] := by
  unfold qTotalStock at h
  cases hp : db.products.find? (fun pr => decide (pr.ID = p)) with
  | none => simp [hp] at h
  | some pr =>
    simp only [hp] at h
    cases hr : stockRows db p u with
    | nil => simp [hr] at h
    | cons b bs =>
      simp [hr] at h
      exact ⟨by rw [← h.1], by simp⟩

theorem qTotalStock_none {db : Store} {p u : Int}
    (hfk : ∀ b ∈ db.product_batches, ∃ pr ∈ db.products, pr.ID = b.ProductID)
    (h : qTotalStock db p u = none) : stockRows db p u = [] := by
  unfold qTotalStock at h
  cases hr : stockRows db p u with
  | nil => rfl
  | cons b bs =>
    exfalso
    have hb : b ∈ stockRows db p u := by rw [hr]; exact List.mem_cons_self _ _
    have hb2 := List.mem_filter.1 hb
    obtain ⟨pr, hpr, hid⟩ := hfk b hb2.1
    have hbp : b.ProductID = p := by
      have := hb2.2
      simp at this
      exact this.1
    cases hp : db.products.find? (fun pr => decide (pr.ID = p)) with
    | none =>
      have := List.find?_eq_none.1 hp pr hpr
      simp [hid, hbp] at this
    | some pr1 => simp [hp, hr] at h

theorem availableStock_of_empty {db : Store} {p u : Int} (h : stockRows db p u = []) :
    availableStock db p u = 0 := by
  simp [availableStock, h]

theorem ValidateStockAvailability_short (db : Store) (u : Int)
    (hfk : ∀ b ∈ db.product_batches, ∃ pr ∈ db.products, pr.ID = b.ProductID) :
    ∀ (items : List OrderItem), (∀ it ∈ items, 0 < it.Quantity) →
    (¬ ∀ it ∈ items, it.Quantity ≤ availableStock db it.ProductID u) →
    ∃ pre it post name, items = pre ++ it :: post ∧
      (∀ x ∈ pre, x.Quantity ≤ availableStock db x.ProductID u) ∧
      availableStock db it.ProductID u < it.Quantity ∧
      (ValidateStockAvailability db [] items u).err =
        some (.Shortfall { ProductID := it.ProductID, ProductName := name,
                           Requested := it.Quantity,
                           Available := availableStock db it.ProductID u })
  | [], _, hn => by simp at hn
  | it :: rest, hpos, hn => by
    by_cases hfit : it.Quantity ≤ availableStock db it.ProductID u
    · have hn1 : ¬ ∀ x ∈ rest, x.Quantity ≤ availableStock db x.ProductID u := by
        intro hall
        apply hn
        intro x hx
        rcases List.mem_cons.1 hx with h | h
        · subst h; exact hfit
        · exact hall x h
      obtain ⟨pre, it1, post, name, hdec, hpre, hshort, herr⟩ :=
        ValidateStockAvailability_short db u hfk rest
          (fun x hx => hpos x (List.mem_cons_of_mem _ hx)) hn1
      refine ⟨it :: pre, it1, post, name, by rw [hdec]; rfl, ?_, hshort, ?_⟩
      · intro x hx
        rcases List.mem_cons.1 hx with h | h
        · subst h; exact hfit
        · exact hpre x h
      · have hq := hpos it (List.mem_cons_self _ _)
        cases hts : qTotalStock db it.ProductID u with
        | none =>
          have := availableStock_of_empty (qTotalStock_none hfk hts)
          omega
        | some r =>
          obtain ⟨a, n⟩ := r
          have ha := (qTotalStock_some hts).1
          have hlt : ¬ a < it.Quantity := by omega
          simp only [ValidateStockAvailability, failsNow, hts, hlt, List.tail_nil,
            Bool.false_eq_true, if_false]
          exact herr
    · have hshort : availableStock db it.ProductID u < it.Quantity := not_le.1 hfit
      cases hts : qTotalStock db it.ProductID u with
      | none =>
        have h0 := availableStock_of_empty (qTotalStock_none hfk hts)
        refine ⟨[], it, rest,
          (match qProductName db it.ProductID u with
            | some name => name
            | none => "Product #" ++ toString it.ProductID),
          rfl, by simp, hshort, ?_⟩
        simp only [ValidateStockAvailability, failsNow, hts, List.tail_nil,
          Bool.false_eq_true, if_false, h0]
      | some r =>
        obtain ⟨a, n⟩ := r
        have ha := (qTotalStock_some hts).1
        have hlt : a < it.Quantity := by omega
        refine ⟨[], it, rest, n, rfl, by simp, hshort, ?_⟩
        subst ha
        simp only [ValidateStockAvailability, failsNow, hts, hlt, List.tail_nil,
          Bool.false_eq_true, if_false, if_true]

theorem ValidateStockAvailability_pass (db : Store) (u : Int)
    (hfk : ∀ b ∈ db.product_batches, ∃ pr ∈ db.products, pr.ID = b.ProductID) :
    ∀ (items : List OrderItem), (∀ it ∈ items, 0 < it.Quantity) →
    (∀ it ∈ items, it.Quantity ≤ availableStock db it.ProductID u) →
    (ValidateStockAvailability db [] items u).err = none
  | [], _, _ => rfl
  | it :: rest, hpos, hall => by
    have hq := hpos it (List.mem_cons_self _ _)
    have hfit := hall it (List.mem_cons_self _ _)
    have ih := ValidateStockAvailability_pass db u hfk rest
      (fun x hx => hpos x (List.mem_cons_of_mem _ hx))
      (fun x hx => hall x (List.mem_cons_of_mem _ hx))
    cases hts : qTotalStock db it.ProductID u with
    | none =>
      have := availableStock_of_empty (qTotalStock_none hfk hts)
      omega
    | some r =>
      obtain ⟨a, n⟩ := r
      have ha := (qTotalStock_some hts).1
      have hlt : ¬ a < it.Quantity := by omega
      simp only [ValidateStockAvailability, failsNow, hts, hlt, List.tail_nil,
        Bool.false_eq_true, if_false]
      exact ih

/-- C6. For every store (with each batch referring to a product row), every
tenant and every item list with positive quantities, when no driver call
fails: `ValidateStockAvailability` returns nil if every item asks for at most
the sum of the quantities of the batches of its product for the tenant with
`quantity > 0`; otherwise it returns an `InsufficientStockError` for the first
item of the list that asks for more, with that item's product id, its quantity
as `Requested` and that sum as `Available`. -/
theorem ValidateStockAvailability_spec (db : Store) (items : List OrderItem) (userID : Int)
    (hfk : ∀ b ∈ db.product_batches, ∃ pr ∈ db.products, pr.ID = b.ProductID)
    (hpos : ∀ it ∈ items, 0 < it.Quantity) :
    ((∀ it ∈ items, it.Quantity ≤ availableStock db it.ProductID userID) →
      (ValidateStockAvailability db [] items userID).err = none) ∧
    ((¬ ∀ it ∈ items, it.Quantity ≤ availableStock db it.ProductID userID) →
      ∃ pre it post name, items = pre ++ it :: post ∧
        (∀ x ∈ pre, x.Quantity ≤ availableStock db x.ProductID userID) ∧
        availableStock db it.ProductID userID < it.Quantity ∧
        (ValidateStockAvailability db [] items userID).err =
          some (.Shortfall { ProductID := it.ProductID, ProductName := name,
                             Requested := it.Quantity,
                             Available := availableStock db it.ProductID userID })) :=
  ⟨ValidateStockAvailability_pass db userID hfk items hpos,
    ValidateStockAvailability_short db userID hfk items hpos⟩

/-- Instance of C6 in `salesStore` (13 units of product 1, no batch of
product 2): lines of 5 and 13 units of product 1 pass; with a line of 4 units
of product 2 after a line of 5 units of product 1 the report is for product 2
with nothing available. -/
theorem ValidateStockAvailability_spec_witness :
    (ValidateStockAvailability salesStore [] [line 1 5, line 1 13] 7).err = none ∧
    (ValidateStockAvailability salesStore [] [line 1 5, line 2 4, line 1 14] 7).err =
      some (.Shortfall { ProductID := 2, ProductName := "Product #2", Requested := 4,
                         Available := 0 }) :=
  ⟨(ValidateStockAvailability_spec salesStore [line 1 5, line 1 13] 7 (by decide)
      (by decide)).1 (by decide),
    by decide⟩

/-! ### Purchase-order completion -/

theorem completeItems_ok (now orderID userID : Int) : ∀ (items : List item) (tx : Store)
    (w : List Bool), (completeItems now orderID userID items tx w).err = none →
    (∃ created, (completeItems now orderID userID items tx w).tx.product_batches =
        tx.product_batches ++ created ∧
      List.Forall₂ (fun (it : item) (b : ProductBatch) =>
        b.ProductID = it.productID ∧ b.UserID = userID ∧ b.Quantity = it.qty ∧
        b.LoteNumber = some (it.loteNumber.getD "") ∧ b.ExpiryDate = it.expiryDate ∧
        b.CreatedAt = now) items created) ∧
    (completeItems now orderID userID items tx w).tx.stock_movements =
      tx.stock_movements ++ items.map fun it =>
        { product_id := it.productID, quantity_change := it.qty, reason := "PURCHASE_ORDER",
          reference_id := toString orderID, user_id := userID }
  | [], tx, w, _ => by
    simp [completeItems]
  | it :: rest, tx, w, h => by
    simp only [completeItems] at h ⊢
    cases hf1 : failsNow w with
    | true => simp [hf1] at h
    | false =>
      simp only [hf1, Bool.false_eq_true, if_false] at h ⊢
      cases hf2 : failsNow w.tail with
      | true => simp [hf2] at h
      | false =>
        simp only [hf2, Bool.false_eq_true, if_false] at h ⊢
        cases hf3 : failsNow w.tail.tail with
        | true => simp [hf3] at h
        | false =>
          simp only [hf3, Bool.false_eq_true, if_false] at h ⊢
          obtain ⟨⟨created, hc, hrel⟩, hm⟩ := completeItems_ok now orderID userID rest _ _ h
          have hb : ∃ b : ProductBatch, b = ⟨tx.product_batches_id_seq + 1, it.productID, userID,
              some (it.loteNumber.getD ""), it.qty, it.expiryDate, now⟩ := ⟨_, rfl⟩
          obtain ⟨b, hb⟩ := hb
          refine ⟨⟨b :: created, ?_,
            List.Forall₂.cons (by subst hb; exact ⟨rfl, rfl, rfl, rfl, rfl, rfl⟩) hrel⟩, ?_⟩
          · rw [hc]
            subst hb
            cases hl : it.loteNumber <;>
              simp [insertMovement, resetNotified, insertBatch]
          · rw [hm]
            simp [insertMovement, resetNotified, insertBatch]

theorem completeItems_frame (now orderID userID : Int) : ∀ (items : List item) (tx : Store)
    (w : List Bool),
    (completeItems now orderID userID items tx w).tx.purchase_orders = tx.purchase_orders ∧
    (completeItems now orderID userID items tx w).tx.purchase_order_items =
      tx.purchase_order_items
  | [], tx, w => by simp [completeItems]
  | it :: rest, tx, w => by
    simp only [completeItems]
    cases hf1 : failsNow w with
    | true => simp
    | false =>
      simp only [Bool.false_eq_true, if_false]
      cases hf2 : failsNow w.tail with
      | true => simp [insertBatch]
      | false =>
        simp only [Bool.false_eq_true, if_false]
        cases hf3 : failsNow w.tail.tail with
        | true => simp [insertBatch, resetNotified]
        | false =>
          simp only [Bool.false_eq_true, if_false]
          have ih := completeItems_frame now orderID userID rest
            (insertMovement (resetNotified (insertBatch tx now it.productID userID it.qty
              (match it.loteNumber with
                | some l => l
                | none => "") it.expiryDate) it.productID)
              { product_id := it.productID, quantity_change := it.qty,
                reason := "PURCHASE_ORDER", reference_id := toString orderID,
                user_id := userID }) w.tail.tail.tail
          rw [ih.1, ih.2]
          simp [insertMovement, resetNotified, insertBatch]

theorem completeItems_nofault (now orderID userID : Int) : ∀ (items : List item) (tx : Store),
    (completeItems now orderID userID items tx []).err = none ∧
    (completeItems now orderID userID items tx []).faults = []
  | [], tx => by simp [completeItems]
  | it :: rest, tx => by
    simp only [completeItems, failsNow, List.tail_nil, Bool.false_eq_true, if_false]
    exact completeItems_nofault now orderID userID rest _

theorem UpdateStatus_completing (db : Store) (w : List Bool) (now orderID userID : Int)
    (po : PurchaseOrder)
    (hfind : db.purchase_orders.find?
      (fun o => decide (o.ID = orderID ∧ o.UserID = userID)) = some po)
    (hst : po.Status ≠ "completed")
    (hok : (PurchaseOrderModel.UpdateStatus db w now orderID userID "completed").err = none) :
    ∃ w1, (completeItems now orderID userID (qItems db orderID) db w1).err = none ∧
      (PurchaseOrderModel.UpdateStatus db w now orderID userID "completed").db =
        updStatus (completeItems now orderID userID (qItems db orderID) db w1).tx
          "completed" orderID := by
  unfold PurchaseOrderModel.UpdateStatus at hok ⊢
  cases hf1 : failsNow w with
  | true => simp [hf1] at hok
  | false =>
    simp only [hf1, Bool.false_eq_true, if_false] at hok ⊢
    cases hf2 : failsNow w.tail with
    | true => simp [hf2] at hok
    | false =>
      simp only [hf2, Bool.false_eq_true, if_false, hfind, hst, ne_eq, not_false_eq_true,
        and_self, if_true] at hok ⊢
      cases hf3 : failsNow w.tail.tail with
      | true => simp [hf3] at hok
      | false =>
        simp only [hf3, Bool.false_eq_true, if_false] at hok ⊢
        refine ⟨w.tail.tail.tail, ?_⟩
        cases hc : (completeItems now orderID userID (qItems db orderID) db
            w.tail.tail.tail).err with
        | some e => simp [hc] at hok
        | none =>
          simp only [hc] at hok ⊢
          cases hf4 : failsNow (completeItems now orderID userID (qItems db orderID) db
              w.tail.tail.tail).faults with
          | true => simp [hf4] at hok
          | false =>
            simp only [hf4, Bool.false_eq_true, if_false] at hok ⊢
            cases hf5 : failsNow (completeItems now orderID userID (qItems db orderID) db
                w.tail.tail.tail).faults.tail with
            | true => simp [hf5] at hok
            | false => simp [hf5]

theorem UpdateStatus_nofault (db : Store) (now orderID userID : Int) (newStatus : String) :
    PurchaseOrderModel.UpdateStatus db [] now orderID userID newStatus =
      match db.purchase_orders.find? fun o => decide (o.ID = orderID ∧ o.UserID = userID) with
      | none => ⟨some .ErrNotFound, db⟩
      | some o =>
        ⟨none, updStatus
          (if newStatus = "completed" ∧ o.Status ≠ "completed" then
            (completeItems now orderID userID (qItems db orderID) db []).tx
          else db) newStatus orderID⟩ := by
  unfold PurchaseOrderModel.UpdateStatus
  simp only [failsNow, List.tail_nil, Bool.false_eq_true, if_false]
  cases hfind : db.purchase_orders.find?
      (fun o => decide (o.ID = orderID ∧ o.UserID = userID)) with
  | none => rfl
  | some o =>
    simp only []
    by_cases hc : newStatus = "completed" ∧ o.Status ≠ "completed"
    · simp only [hc, ne_eq, not_false_eq_true, and_self, if_true,
        (completeItems_nofault now orderID userID (qItems db orderID) db).1,
        (completeItems_nofault now orderID userID (qItems db orderID) db).2, failsNow,
        List.tail_nil, Bool.false_eq_true, if_false]
    · simp only [hc, if_false, failsNow, List.tail_nil, Bool.false_eq_true]

theorem find_updStatus (s : String) (id u : Int) : ∀ (l : List PurchaseOrder),
    (l.map fun o => if o.ID = id then { o with Status := s } else o).find?
        (fun o => decide (o.ID = id ∧ o.UserID = u)) =
      (l.find? fun o => decide (o.ID = id ∧ o.UserID = u)).map fun o => { o with Status := s }
  | [] => rfl
  | a :: l => by
    rw [List.map_cons, List.find?_cons, List.find?_cons]
    by_cases ha : a.ID = id
    · by_cases hu : a.UserID = u
      · simp [ha, hu]
      · simp only [ha, hu, if_true, and_false, decide_False]
        exact find_updStatus s id u l
    · simp only [ha, if_false, false_and, decide_False]
      exact find_updStatus s id u l

theorem updStatus_idem (tx : Store) (s : String) (id : Int) :
    updStatus (updStatus tx s id) s id = updStatus tx s id := by
  unfold updStatus
  simp only [List.map_map]
  congr 1
  apply List.map_congr_left
  intro o _
  by_cases h : o.ID = id <;> simp [Function.comp, h]

/-- C8, as the code has it. A successful `UpdateStatus(order, tenant,
"completed")` on an existing order of the tenant whose status is not
`completed` leaves every former batch as it was and appends exactly one batch
per item of the order, in the order of the items, owned by the tenant, with
the product id, the quantity and the expiry date of the item (none when the
item has none) and with the lot number of the item, or the empty string - a
present value, not an absent one - when the item has no lot number. -/
theorem UpdateStatus_completed_batches (db : Store) (w : List Bool) (now orderID userID : Int)
    (po : PurchaseOrder)
    (hfind : db.purchase_orders.find?
      (fun o => decide (o.ID = orderID ∧ o.UserID = userID)) = some po)
    (hst : po.Status ≠ "completed")
    (hok : (PurchaseOrderModel.UpdateStatus db w now orderID userID "completed").err = none) :
    ∃ created,
      (PurchaseOrderModel.UpdateStatus db w now orderID userID "completed").db.product_batches =
        db.product_batches ++ created ∧
      List.Forall₂ (fun (it : item) (b : ProductBatch) =>
        b.ProductID = it.productID ∧ b.UserID = userID ∧ b.Quantity = it.qty ∧
        b.LoteNumber = some (it.loteNumber.getD "") ∧ b.ExpiryDate = it.expiryDate ∧
        b.CreatedAt = now) (qItems db orderID) created := by
  obtain ⟨w1, hc, hdb⟩ := UpdateStatus_completing db w now orderID userID po hfind hst hok
  obtain ⟨⟨created, hcr, hrel⟩, _⟩ := completeItems_ok now orderID userID _ _ _ hc
  exact ⟨created, by rw [hdb]; exact hcr, hrel⟩

/-- Instance of C8 as amended, and the scenario of the specification: the
pending order 1 of `purchaseStore` has the single item of 20 units of product 1
in lot `L1`; completing it appends the one batch of 20 units of product 1 in
lot `L1`. -/
theorem UpdateStatus_completed_batches_witness :
    (∃ created,
      (PurchaseOrderModel.UpdateStatus purchaseStore [] 1000 1 7 "completed").db.product_batches =
        purchaseStore.product_batches ++ created ∧
      List.Forall₂ (fun (it : item) (b : ProductBatch) =>
        b.ProductID = it.productID ∧ b.UserID = 7 ∧ b.Quantity = it.qty ∧
        b.LoteNumber = some (it.loteNumber.getD "") ∧ b.ExpiryDate = it.expiryDate ∧
        b.CreatedAt = 1000) (qItems purchaseStore 1) created) ∧
    (PurchaseOrderModel.UpdateStatus purchaseStore [] 1000 1 7 "completed").db.product_batches =
      purchaseStore.product_batches ++
        [{ ID := 2, ProductID := 1, UserID := 7, LoteNumber := some "L1", Quantity := 20,
           ExpiryDate := none, CreatedAt := 1000 }] :=
  ⟨UpdateStatus_completed_batches purchaseStore [] 1000 1 7 ⟨1, none, some 90, "pending", 7⟩
      (by decide) (by decide) (by decide),
    by decide⟩

/-- Counterexample to C8: the only item of the pending order 2 of
`purchaseStore` has no lot number; completing the order appends a batch whose
lot number is the empty string, and no batch without lot number exists
afterwards. -/
theorem UpdateStatus_lotless_item_gets_empty_lot :
    qItems purchaseStore 2 =
      [{ productID := 1, qty := 5, loteNumber := none, expiryDate := none }] ∧
    (PurchaseOrderModel.UpdateStatus purchaseStore [] 1000 2 7 "completed").err = none ∧
    (PurchaseOrderModel.UpdateStatus purchaseStore [] 1000 2 7 "completed").db.product_batches =
      purchaseStore.product_batches ++
        [{ ID := 2, ProductID := 1, UserID := 7, LoteNumber := some "", Quantity := 5,
           ExpiryDate := none, CreatedAt := 1000 }] ∧
    ¬ ∃ b ∈ (PurchaseOrderModel.UpdateStatus purchaseStore [] 1000 2 7
        "completed").db.product_batches, b.LoteNumber = none := by
  decide

/-- C9. A successful `UpdateStatus(order, tenant, "completed")` on an order
whose status is not `completed` appends exactly one stock movement per item of
the order, with the product id of the item, its quantity as a positive change,
reason `PURCHASE_ORDER`, the decimal rendering of the order id as reference and
the tenant of the caller; no other movement is added. -/
theorem UpdateStatus_completed_movements (db : Store) (w : List Bool)
    (now orderID userID : Int) (po : PurchaseOrder)
    (hfind : db.purchase_orders.find?
      (fun o => decide (o.ID = orderID ∧ o.UserID = userID)) = some po)
    (hst : po.Status ≠ "completed")
    (hok : (PurchaseOrderModel.UpdateStatus db w now orderID userID "completed").err = none) :
    (PurchaseOrderModel.UpdateStatus db w now orderID userID "completed").db.stock_movements =
      db.stock_movements ++ (qItems db orderID).map fun it =>
        { product_id := it.productID, quantity_change := it.qty, reason := "PURCHASE_ORDER",
          reference_id := toString orderID, user_id := userID } := by
  obtain ⟨w1, hc, hdb⟩ := UpdateStatus_completing db w now orderID userID po hfind hst hok
  obtain ⟨_, hm⟩ := completeItems_ok now orderID userID _ _ _ hc
  rw [hdb]
  exact hm

/-- Instance of C9: completing the pending order 1 of `purchaseStore` writes
the single movement of +20 units of product 1. -/
theorem UpdateStatus_completed_movements_witness :
    (PurchaseOrderModel.UpdateStatus purchaseStore [] 1000 1 7 "completed").db.stock_movements =
      purchaseStore.stock_movements ++ (qItems purchaseStore 1).map (fun it =>
        { product_id := it.productID, quantity_change := it.qty, reason := "PURCHASE_ORDER",
          reference_id := toString (1 : Int), user_id := 7 }) ∧
    (PurchaseOrderModel.UpdateStatus purchaseStore [] 1000 1 7 "completed").db.stock_movements =
      [{ product_id := 1, quantity_change := 20, reason := "PURCHASE_ORDER",
         reference_id := "1", user_id := 7 }] :=
  ⟨UpdateStatus_completed_movements purchaseStore [] 1000 1 7 ⟨1, none, some 90, "pending", 7⟩
      (by decide) (by decide) (by decide),
    by decide⟩

theorem UpdateStatus_nofault_found (db : Store) (now orderID userID : Int) (po : PurchaseOrder)
    (hfind : db.purchase_orders.find?
      (fun o => decide (o.ID = orderID ∧ o.UserID = userID)) = some po) :
    ∃ tx1, tx1.purchase_orders = db.purchase_orders ∧ (po.Status = "completed" → tx1 = db) ∧
      PurchaseOrderModel.UpdateStatus db [] now orderID userID "completed" =
        ⟨none, updStatus tx1 "completed" orderID⟩ := by
  by_cases hst : po.Status = "completed"
  · refine ⟨db, rfl, fun _ => rfl, ?_⟩
    rw [UpdateStatus_nofault, hfind]
    simp [hst]
  · refine ⟨(completeItems now orderID userID (qItems db orderID) db []).tx,
      (completeItems_frame now orderID userID _ _ _).1, fun h => absurd h hst, ?_⟩
    rw [UpdateStatus_nofault, hfind]
    simp [hst]

theorem UpdateStatus_twice (db : Store) (now1 now2 orderID userID : Int) :
    (PurchaseOrderModel.UpdateStatus
        (PurchaseOrderModel.UpdateStatus db [] now1 orderID userID "completed").db []
        now2 orderID userID "completed").db =
      (PurchaseOrderModel.UpdateStatus db [] now1 orderID userID "completed").db := by
  cases hfind : db.purchase_orders.find?
      (fun o => decide (o.ID = orderID ∧ o.UserID = userID)) with
  | none =>
    have h1 : PurchaseOrderModel.UpdateStatus db [] now1 orderID userID "completed" =
        ⟨some .ErrNotFound, db⟩ := by rw [UpdateStatus_nofault, hfind]
    have h2 : PurchaseOrderModel.UpdateStatus db [] now2 orderID userID "completed" =
        ⟨some .ErrNotFound, db⟩ := by rw [UpdateStatus_nofault, hfind]
    rw [h1]
    show (PurchaseOrderModel.UpdateStatus db [] now2 orderID userID "completed").db = db
    rw [h2]
  | some o =>
    obtain ⟨tx1, hpo, _, h1⟩ := UpdateStatus_nofault_found db now1 orderID userID o hfind
    rw [h1]
    show (PurchaseOrderModel.UpdateStatus (updStatus tx1 "completed" orderID) [] now2 orderID
      userID "completed").db = updStatus tx1 "completed" orderID
    have hf : (updStatus tx1 "completed" orderID).purchase_orders.find?
          (fun o => decide (o.ID = orderID ∧ o.UserID = userID)) =
        some { o with Status := "completed" } := by
      simp only [updStatus, hpo]
      rw [find_updStatus, hfind]
      rfl
    obtain ⟨tx2, _, htx2, h2⟩ := UpdateStatus_nofault_found
      (updStatus tx1 "completed" orderID) now2 orderID userID _ hf
    rw [h2, htx2 rfl]
    exact updStatus_idem _ _ _

/-- C10. Re-triggering completion is a no-op. When the purchase order `o` of
tenant `t` already has status `completed` (and no driver call fails),
`UpdateStatus(o, t, "completed")` succeeds and leaves the batches, the stock
movements, the products with their flags and the status of the order as they
were. Hence, from any store, applying the completion twice in a row yields the
same store as applying it once. -/
theorem UpdateStatus_completed_again :
    (∀ (db : Store) (now orderID userID : Int) (po : PurchaseOrder),
      db.purchase_orders.find?
        (fun o => decide (o.ID = orderID ∧ o.UserID = userID)) = some po →
      po.Status = "completed" →
      (PurchaseOrderModel.UpdateStatus db [] now orderID userID "completed").err = none ∧
      (PurchaseOrderModel.UpdateStatus db [] now orderID userID "completed").db.product_batches =
        db.product_batches ∧
      (PurchaseOrderModel.UpdateStatus db [] now orderID userID "completed").db.stock_movements =
        db.stock_movements ∧
      (PurchaseOrderModel.UpdateStatus db [] now orderID userID "completed").db.products =
        db.products ∧
      (PurchaseOrderModel.UpdateStatus db [] now orderID userID
          "completed").db.purchase_orders.find?
        (fun o => decide (o.ID = orderID ∧ o.UserID = userID)) = some po) ∧
    (∀ (db : Store) (now1 now2 orderID userID : Int),
      (PurchaseOrderModel.UpdateStatus
          (PurchaseOrderModel.UpdateStatus db [] now1 orderID userID "completed").db []
          now2 orderID userID "completed").db =
        (PurchaseOrderModel.UpdateStatus db [] now1 orderID userID "completed").db) := by
  refine ⟨?_, UpdateStatus_twice⟩
  intro db now orderID userID po hfind hst
  obtain ⟨tx1, _, htx, h1⟩ := UpdateStatus_nofault_found db now orderID userID po hfind
  rw [h1, htx hst]
  refine ⟨rfl, rfl, rfl, rfl, ?_⟩
  show (updStatus db "completed" orderID).purchase_orders.find?
    (fun o => decide (o.ID = orderID ∧ o.UserID = userID)) = some po
  simp only [updStatus]
  rw [find_updStatus, hfind]
  cases po
  simp only at hst
  simp [hst]

/-- Instance of C10: order 3 of `purchaseStore` is already completed, and
completing it again changes nothing in the store. -/
theorem UpdateStatus_completed_again_witness :
    (PurchaseOrderModel.UpdateStatus purchaseStore [] 1000 3 7 "completed").err = none ∧
    (PurchaseOrderModel.UpdateStatus purchaseStore [] 1000 3 7 "completed").db.product_batches =
      purchaseStore.product_batches ∧
    (PurchaseOrderModel.UpdateStatus purchaseStore [] 1000 3 7 "completed").db.stock_movements =
      purchaseStore.stock_movements ∧
    (PurchaseOrderModel.UpdateStatus purchaseStore [] 1000 3 7 "completed").db.products =
      purchaseStore.products ∧
    (PurchaseOrderModel.UpdateStatus purchaseStore [] 1000 3 7
        "completed").db.purchase_orders.find?
      (fun o => decide (o.ID = 3 ∧ o.UserID = 7)) = some ⟨3, none, some 92, "completed", 7⟩ :=
  UpdateStatus_completed_again.1 purchaseStore 1000 3 7 ⟨3, none, some 92, "completed", 7⟩
    (by decide) (by decide)

/-! ### Shape of a status update -/

theorem Rollback_self (db : Store) : Rollback db db = db := rfl

theorem completeItems_seq (now orderID userID : Int) : ∀ (items : List item) (tx : Store)
    (w : List Bool),
    tx.product_batches_id_seq ≤
      (completeItems now orderID userID items tx w).tx.product_batches_id_seq
  | [], tx, w => by simp [completeItems]
  | it :: rest, tx, w => by
    simp only [completeItems]
    cases hf1 : failsNow w with
    | true => simp
    | false =>
      simp only [Bool.false_eq_true, if_false]
      cases hf2 : failsNow w.tail with
      | true => simp [insertBatch]
      | false =>
        simp only [Bool.false_eq_true, if_false]
        cases hf3 : failsNow w.tail.tail with
        | true => simp [insertBatch, resetNotified]
        | false =>
          simp only [Bool.false_eq_true, if_false]
          have ih := completeItems_seq now orderID userID rest
            (insertMovement (resetNotified (insertBatch tx now it.productID userID it.qty
              (match it.loteNumber with
                | some l => l
                | none => "") it.expiryDate) it.productID)
              { product_id := it.productID, quantity_change := it.qty,
                reason := "PURCHASE_ORDER", reference_id := toString orderID,
                user_id := userID }) w.tail.tail.tail
          have h0 : tx.product_batches_id_seq ≤
              (insertMovement (resetNotified (insertBatch tx now it.productID userID it.qty
                (match it.loteNumber with
                  | some l => l
                  | none => "") it.expiryDate) it.productID)
                { product_id := it.productID, quantity_change := it.qty,
                  reason := "PURCHASE_ORDER", reference_id := toString orderID,
                  user_id := userID }).product_batches_id_seq := by
            simp [insertMovement, resetNotified, insertBatch]
          exact le_trans h0 ih

theorem UpdateStatus_shape (db : Store) (w : List Bool) (now orderID userID : Int)
    (s : String) :
    ((PurchaseOrderModel.UpdateStatus db w now orderID userID s).err ≠ none ∧
      ∃ tx, (PurchaseOrderModel.UpdateStatus db w now orderID userID s).db = Rollback db tx ∧
        db.product_batches_id_seq ≤ tx.product_batches_id_seq) ∨
    ((PurchaseOrderModel.UpdateStatus db w now orderID userID s).err = none ∧
      ∃ po, db.purchase_orders.find?
          (fun o => decide (o.ID = orderID ∧ o.UserID = userID)) = some po ∧
        ((s = "completed" ∧ po.Status ≠ "completed" ∧
          ∃ w1, (completeItems now orderID userID (qItems db orderID) db w1).err = none ∧
            (PurchaseOrderModel.UpdateStatus db w now orderID userID s).db =
              updStatus (completeItems now orderID userID (qItems db orderID) db w1).tx
                s orderID) ∨
        (¬ (s = "completed" ∧ po.Status ≠ "completed") ∧
          (PurchaseOrderModel.UpdateStatus db w now orderID userID s).db =
            updStatus db s orderID))) := by
  unfold PurchaseOrderModel.UpdateStatus
  cases hf1 : failsNow w with
  | true => exact Or.inl ⟨by simp, db, by simp [Rollback_self], le_refl _⟩
  | false =>
    simp only [Bool.false_eq_true, if_false]
    cases hf2 : failsNow w.tail with
    | true => exact Or.inl ⟨by simp, db, by simp, le_refl _⟩
    | false =>
      simp only [Bool.false_eq_true, if_false]
      cases hfind : db.purchase_orders.find?
          (fun o => decide (o.ID = orderID ∧ o.UserID = userID)) with
      | none => exact Or.inl ⟨by simp, db, by simp, le_refl _⟩
      | some po =>
        simp only []
        by_cases hc : s = "completed" ∧ po.Status ≠ "completed"
        · simp only [hc, ne_eq, not_false_eq_true, and_self, if_true]
          cases hf3 : failsNow w.tail.tail with
          | true => exact Or.inl ⟨by simp, db, by simp, le_refl _⟩
          | false =>
            simp only [Bool.false_eq_true, if_false]
            have hseq := completeItems_seq now orderID userID (qItems db orderID) db
              w.tail.tail.tail
            cases hci : (completeItems now orderID userID (qItems db orderID) db
                w.tail.tail.tail).err with
            | some e => exact Or.inl ⟨by simp, _, rfl, hseq⟩
            | none =>
              simp only []
              cases hf4 : failsNow (completeItems now orderID userID (qItems db orderID) db
                  w.tail.tail.tail).faults with
              | true => exact Or.inl ⟨by simp, _, by simp, hseq⟩
              | false =>
                simp only [Bool.false_eq_true, if_false]
                cases hf5 : failsNow (completeItems now orderID userID (qItems db orderID) db
                    w.tail.tail.tail).faults.tail with
                | true => exact Or.inl ⟨by simp, _, by simp; rfl, by simpa [updStatus] using hseq⟩
                | false =>
                  exact Or.inr ⟨by simp, po, rfl,
                    Or.inl ⟨by simp [hc.1], hc.2, w.tail.tail.tail, hci, by simp⟩⟩
        · simp only [hc, if_false]
          cases hf4 : failsNow w.tail.tail with
          | true => exact Or.inl ⟨by simp, db, by simp, le_refl _⟩
          | false =>
            simp only [Bool.false_eq_true, if_false]
            cases hf5 : failsNow w.tail.tail.tail with
            | true => exact Or.inl ⟨by simp, _, by simp; rfl, le_refl _⟩
            | false => exact Or.inr ⟨by simp, po, rfl, Or.inr ⟨hc, by simp⟩⟩

theorem UpdateStatus_of_not_found (db : Store) (w : List Bool) (now orderID userID : Int)
    (s : String)
    (hfind : db.purchase_orders.find?
      (fun o => decide (o.ID = orderID ∧ o.UserID = userID)) = none) :
    (PurchaseOrderModel.UpdateStatus db w now orderID userID s).db = db ∧
    ((PurchaseOrderModel.UpdateStatus db w now orderID userID s).err = some .ErrNotFound ∨
      (PurchaseOrderModel.UpdateStatus db w now orderID userID s).err = some .Driver) := by
  unfold PurchaseOrderModel.UpdateStatus
  cases hf1 : failsNow w with
  | true => simp
  | false =>
    simp only [Bool.false_eq_true, if_false]
    cases hf2 : failsNow w.tail with
    | true => simp [Rollback_self]
    | false =>
      simp only [Bool.false_eq_true, if_false, hfind]
      exact ⟨rfl, Or.inl trivial⟩

/-- C15. When no purchase order with the given id belongs to the tenant (the
id does not exist, or it is the id of an order of another tenant),
`UpdateStatus` returns `ErrNotFound` for every target status and leaves the
store as it was: no status, batch, movement or product flag changes. The
store is also unchanged when a driver call of the attempt fails. -/
theorem UpdateStatus_not_found (db : Store) (now orderID userID : Int) (s : String)
    (hnone : ∀ po ∈ db.purchase_orders, ¬ (po.ID = orderID ∧ po.UserID = userID)) :
    (PurchaseOrderModel.UpdateStatus db [] now orderID userID s).err = some .ErrNotFound ∧
    (PurchaseOrderModel.UpdateStatus db [] now orderID userID s).db = db ∧
    ∀ w, (PurchaseOrderModel.UpdateStatus db w now orderID userID s).db = db := by
  have hfind : db.purchase_orders.find?
      (fun o => decide (o.ID = orderID ∧ o.UserID = userID)) = none := by
    rw [List.find?_eq_none]
    intro x hx
    simpa using hnone x hx
  refine ⟨?_, (UpdateStatus_of_not_found db [] now orderID userID s hfind).1,
    fun w => (UpdateStatus_of_not_found db w now orderID userID s hfind).1⟩
  rw [UpdateStatus_nofault, hfind]

/-- Instance of C15: order 1 of `purchaseStore` belongs to tenant 7, so
tenant 8 cannot complete it. -/
theorem UpdateStatus_not_found_witness :
    (PurchaseOrderModel.UpdateStatus purchaseStore [] 1000 1 8 "completed").err =
      some .ErrNotFound ∧
    (PurchaseOrderModel.UpdateStatus purchaseStore [] 1000 1 8 "completed").db =
      purchaseStore ∧
    ∀ w, (PurchaseOrderModel.UpdateStatus purchaseStore w 1000 1 8 "completed").db =
      purchaseStore :=
  UpdateStatus_not_found purchaseStore 1000 1 8 "completed" (by decide)

theorem UpdateStatus_found_after (db : Store) (w : List Bool) (now orderID userID : Int)
    (s : String) (po : PurchaseOrder)
    (hfind : db.purchase_orders.find?
      (fun o => decide (o.ID = orderID ∧ o.UserID = userID)) = some po)
    (hok : (PurchaseOrderModel.UpdateStatus db w now orderID userID s).err = none) :
    (PurchaseOrderModel.UpdateStatus db w now orderID userID s).db.purchase_orders.find?
        (fun o => decide (o.ID = orderID ∧ o.UserID = userID)) =
      some { po with Status := s } ∧
    (s ≠ "completed" →
      (PurchaseOrderModel.UpdateStatus db w now orderID userID s).db =
        updStatus db s orderID) := by
  rcases UpdateStatus_shape db w now orderID userID s with ⟨hne, _⟩ | ⟨_, po1, hf1, hcase⟩
  · exact absurd hok hne
  · rw [hfind] at hf1
    injection hf1 with hf1
    subst hf1
    rcases hcase with ⟨hs, _, w1, _, hdb⟩ | ⟨_, hdb⟩
    · refine ⟨?_, fun h => absurd hs h⟩
      rw [hdb]
      simp only [updStatus, (completeItems_frame now orderID userID _ _ _).1]
      rw [find_updStatus, hfind]
      rfl
    · refine ⟨?_, fun _ => hdb⟩
      rw [hdb]
      simp only [updStatus]
      rw [find_updStatus, hfind]
      rfl

theorem updStatus_of_nodup (db : Store) (s : String) (orderID userID : Int)
    (po : PurchaseOrder)
    (hfind : db.purchase_orders.find?
      (fun o => decide (o.ID = orderID ∧ o.UserID = userID)) = some po)
    (hpk : (db.purchase_orders.map fun o => o.ID).Nodup) :
    updStatus db s orderID =
      { db with purchase_orders := db.purchase_orders.map fun o =>
          if o = po then { po with Status := s } else o } := by
  have hmem := List.mem_of_find?_eq_some hfind
  have hp := List.find?_some hfind
  simp only [decide_eq_true_eq] at hp
  unfold updStatus
  congr 1
  apply List.map_congr_left
  intro x hx
  by_cases hxp : x = po
  · subst hxp; simp [hp.1]
  · have : ¬ x.ID = orderID := by
      intro h
      exact hxp (List.inj_on_of_nodup_map hpk hx hmem (h.trans hp.1.symm))
    simp [hxp, this]

/-- C16. For an existing purchase order of the tenant and any target status
`s`, a successful `UpdateStatus` leaves the order with status `s`; and when
`s` is not `completed`, the store after the call is the store before it with
that one status field changed - every other purchase order, every batch,
stock movement, product and sequence is as it was. -/
theorem UpdateStatus_sets_status (db : Store) (w : List Bool) (now orderID userID : Int)
    (s : String) (po : PurchaseOrder)
    (hfind : db.purchase_orders.find?
      (fun o => decide (o.ID = orderID ∧ o.UserID = userID)) = some po)
    (hpk : (db.purchase_orders.map fun o => o.ID).Nodup)
    (hok : (PurchaseOrderModel.UpdateStatus db w now orderID userID s).err = none) :
    (PurchaseOrderModel.UpdateStatus db w now orderID userID s).db.purchase_orders.find?
        (fun o => decide (o.ID = orderID ∧ o.UserID = userID)) =
      some { po with Status := s } ∧
    (s ≠ "completed" →
      (PurchaseOrderModel.UpdateStatus db w now orderID userID s).db =
        { db with purchase_orders := db.purchase_orders.map fun o =>
            if o = po then { po with Status := s } else o }) := by
  obtain ⟨h1, h2⟩ := UpdateStatus_found_after db w now orderID userID s po hfind hok
  refine ⟨h1, fun hs => ?_⟩
  rw [h2 hs]
  exact updStatus_of_nodup db s orderID userID po hfind hpk

/-- Instance of C16: order 2 of `purchaseStore` is moved to `cancelled`. -/
theorem UpdateStatus_sets_status_witness :
    (PurchaseOrderModel.UpdateStatus purchaseStore [] 1000 2 7
        "cancelled").db.purchase_orders.find?
        (fun o => decide (o.ID = 2 ∧ o.UserID = 7)) =
      some ⟨2, none, some 91, "cancelled", 7⟩ ∧
    ("cancelled" ≠ "completed" →
      (PurchaseOrderModel.UpdateStatus purchaseStore [] 1000 2 7 "cancelled").db =
        { purchaseStore with purchase_orders := purchaseStore.purchase_orders.map fun o =>
            if o = ⟨2, none, some 91, "pending", 7⟩ then ⟨2, none, some 91, "cancelled", 7⟩
            else o }) :=
  UpdateStatus_sets_status purchaseStore [] 1000 2 7 "cancelled" ⟨2, none, some 91, "pending", 7⟩
    (by decide) (by decide) (by decide)

/-! ### Re-validation -/

theorem ValidateStockAvailability_nofault_faults (db : Store) : ∀ (items : List OrderItem)
    (u : Int), (ValidateStockAvailability db [] items u).faults = []
  | [], _ => rfl
  | it :: rest, u => by
    simp only [ValidateStockAvailability, failsNow, List.tail_nil, Bool.false_eq_true, if_false]
    cases hq : qTotalStock db it.ProductID u with
    | none => rfl
    | some r =>
      obtain ⟨a, n⟩ := r
      simp only []
      by_cases hlt : a < it.Quantity
      · simp [hlt]
      · simp only [hlt, if_false]
        exact ValidateStockAvailability_nofault_faults db rest u

theorem qTotalStock_congr {db db2 : Store} (hp : db2.products = db.products)
    (hb : db2.product_batches = db.product_batches) (p u : Int) :
    qTotalStock db2 p u = qTotalStock db p u := by
  simp only [qTotalStock, availableStock, stockRows, hp, hb]

theorem ValidateStockAvailability_congr {db db2 : Store} (hp : db2.products = db.products)
    (hb : db2.product_batches = db.product_batches) : ∀ (w : List Bool)
    (items : List OrderItem) (u : Int),
    ValidateStockAvailability db2 w items u = ValidateStockAvailability db w items u
  | w, [], _ => rfl
  | w, it :: rest, u => by
    simp only [ValidateStockAvailability, qTotalStock_congr hp hb, qProductName, hp]
    cases hf : failsNow w with
    | true => rfl
    | false =>
      simp only [Bool.false_eq_true, if_false]
      cases hq : qTotalStock db it.ProductID u with
      | none => rfl
      | some r =>
        obtain ⟨a, n⟩ := r
        simp only []
        by_cases hlt : a < it.Quantity
        · simp [hlt]
        · simp only [hlt, if_false]
          exact ValidateStockAvailability_congr hp hb w.tail rest u

theorem Create_validation_failed (db : Store) (w : List Bool) (order : SalesOrder)
    (items : List OrderItem) (e : Error)
    (h : (ValidateStockAvailability db w items order.UserID).err = some e) :
    (SalesOrderModel.Create db w order items).db = db := by
  simp [SalesOrderModel.Create, h]

/-- C20. Re-validation is idempotent. `ValidateStockAvailability` only reads:
its result is a function of the products and the batches of the store, and a
sales-order creation that stops at the validation leaves the committed store
as it was. Called a second time on the same items and tenant, with no
mutation in between (and no failing driver call), it returns the result of
the first call: nil both times, or the same shortage report. -/
theorem ValidateStockAvailability_idempotent (db : Store) (items : List OrderItem)
    (userID : Int) :
    (ValidateStockAvailability db (ValidateStockAvailability db [] items userID).faults
        items userID).err = (ValidateStockAvailability db [] items userID).err ∧
    (∀ (db2 : Store) (w : List Bool), db2.products = db.products →
      db2.product_batches = db.product_batches →
      ValidateStockAvailability db2 w items userID =
        ValidateStockAvailability db w items userID) ∧
    (∀ (w : List Bool) (order : SalesOrder) (e : Error),
      (ValidateStockAvailability db w items order.UserID).err = some e →
      (SalesOrderModel.Create db w order items).db = db) := by
  refine ⟨?_, fun db2 w hp hb => ValidateStockAvailability_congr hp hb w items userID,
    fun w order e h => Create_validation_failed db w order items e h⟩
  rw [ValidateStockAvailability_nofault_faults]

/-- Instance of C20: a line of 16 units of product 1 in `fefoStore` is
reported short by 1 unit, twice in a row, and the store is not touched. -/
theorem ValidateStockAvailability_idempotent_witness :
    (ValidateStockAvailability fefoStore [] [line 1 16] 7).err =
      some (.Shortfall { ProductID := 1, ProductName := "Leche", Requested := 16,
                         Available := 15 }) ∧
    (ValidateStockAvailability fefoStore
        (ValidateStockAvailability fefoStore [] [line 1 16] 7).faults [line 1 16] 7).err =
      (ValidateStockAvailability fefoStore [] [line 1 16] 7).err ∧
    (SalesOrderModel.Create fefoStore [] pendingOrder [line 1 16]).db = fefoStore :=
  ⟨by decide, (ValidateStockAvailability_idempotent fefoStore [line 1 16] 7).1,
    (ValidateStockAvailability_idempotent fefoStore [line 1 16] 7).2.2 [] pendingOrder
      (.Shortfall { ProductID := 1, ProductName := "Leche", Requested := 16,
                    Available := 15 }) (by decide)⟩

/-! ### Isolation of the allocator -/

theorem consumeLoop_map : ∀ (bs : List batch) (rem : Int) (tx : Store) (w : List Bool),
    ∃ g : ProductBatch → ProductBatch,
      (consumeLoop bs rem tx w).tx.product_batches = tx.product_batches.map g ∧
      ∀ a, g a = a ∨
        (a.ID ∈ bs.map (fun b => b.id) ∧ ∃ n, 0 ≤ n ∧ g a = { a with Quantity := n })
  | [], _, tx, _ => ⟨id, by simp [consumeLoop], fun a => Or.inl rfl⟩
  | b :: bs, rem, tx, w => by
    by_cases hrem : rem ≤ 0
    · exact ⟨id, by rw [consumeLoop_nonpos _ _ _ _ hrem]; simp, fun a => Or.inl rfl⟩
    · cases hf : failsNow w with
      | true =>
        refine ⟨id, ?_, fun a => Or.inl rfl⟩
        by_cases hge : b.quantity ≥ rem <;> simp [consumeLoop, hrem, hge, hf]
      | false =>
        by_cases hge : b.quantity ≥ rem
        · have e : consumeLoop (b :: bs) rem tx w =
              ⟨.ok 0, updateBatch tx (b.quantity - rem) b.id, w.tail⟩ := by
            simp [consumeLoop, hrem, hge, hf]
          refine ⟨fun a => if a.ID = b.id then { a with Quantity := b.quantity - rem } else a,
            by rw [e]; rfl, fun a => ?_⟩
          by_cases ha : a.ID = b.id
          · exact Or.inr ⟨by simp [ha], b.quantity - rem, by omega, by simp [ha]⟩
          · exact Or.inl (by simp [ha])
        · have e : consumeLoop (b :: bs) rem tx w =
              consumeLoop bs (rem - b.quantity) (updateBatch tx 0 b.id) w.tail := by
            simp [consumeLoop, hrem, hge, hf]
          obtain ⟨g, hg, hprop⟩ :=
            consumeLoop_map bs (rem - b.quantity) (updateBatch tx 0 b.id) w.tail
          refine ⟨fun a => g (if a.ID = b.id then { a with Quantity := 0 } else a), ?_,
            fun a => ?_⟩
          · rw [e, hg]
            simp [updateBatch, List.map_map, Function.comp]
          · beta_reduce
            by_cases ha : a.ID = b.id
            · rw [if_pos ha]
              have hmem : a.ID ∈ (b :: bs).map (fun b => b.id) := by simp [ha]
              rcases hprop { a with Quantity := 0 } with h | ⟨_, n, hn, h⟩
              · exact Or.inr ⟨hmem, 0, le_refl _, h⟩
              · exact Or.inr ⟨hmem, n, hn, h⟩
            · rw [if_neg ha]
              rcases hprop a with h | ⟨hm, n, hn, h⟩
              · exact Or.inl h
              · exact Or.inr ⟨List.mem_cons_of_mem _ hm, n, hn, h⟩

theorem ConsumeStockFEFO_tx_cases (tx : Store) (w : List Bool) (p t q : Int) :
    (ConsumeStockFEFO tx w p t q).tx = tx ∨
    ∃ bs, scanRows (qBatches tx p t) = some bs ∧
      (ConsumeStockFEFO tx w p t q).tx = (consumeLoop bs q tx w.tail).tx := by
  unfold ConsumeStockFEFO
  cases hf : failsNow w with
  | true => exact Or.inl rfl
  | false =>
    simp only [Bool.false_eq_true, if_false]
    cases hs : scanRows (qBatches tx p t) with
    | none => exact Or.inl rfl
    | some bs =>
      refine Or.inr ⟨bs, rfl, ?_⟩
      simp only []
      cases (consumeLoop bs q tx w.tail).out with
      | error e => rfl
      | ok r => by_cases hr : r > 0 <;> simp [hr]

theorem ConsumeStockFEFO_map (tx : Store) (w : List Bool) (p t q : Int) :
    ∃ g : ProductBatch → ProductBatch,
      (ConsumeStockFEFO tx w p t q).tx =
        { tx with product_batches := tx.product_batches.map g } ∧
      ∀ a, g a = a ∨
        (a.ID ∈ (qBatches tx p t).map (fun b => b.ID) ∧
          ∃ n, 0 ≤ n ∧ g a = { a with Quantity := n }) := by
  obtain ⟨l, hl⟩ := ConsumeStockFEFO_frame tx w p t q
  rcases ConsumeStockFEFO_tx_cases tx w p t q with h | ⟨bs, hs, h⟩
  · refine ⟨id, ?_, fun a => Or.inl rfl⟩
    rw [h]
    simp
  · obtain ⟨hbs, _⟩ := scanRows_some _ _ hs
    obtain ⟨g, hg, hprop⟩ := consumeLoop_map bs q tx w.tail
    have hids : bs.map (fun b => b.id) = (qBatches tx p t).map fun b => b.ID := by
      rw [hbs, List.map_map]; rfl
    rw [hids] at hprop
    refine ⟨g, ?_, hprop⟩
    rw [← h] at hg
    rw [hl] at hg ⊢
    simp only at hg
    rw [hg]

theorem batchesOf_updateBatch (tx : Store) (n id p t : Int) :
    batchesOf (updateBatch tx n id) p t =
      (batchesOf tx p t).map fun b => if b.ID = id then { b with Quantity := n } else b := by
  unfold batchesOf updateBatch
  simp only [List.filter_map]
  congr 1
  apply List.filter_congr
  intro x _
  by_cases h : x.ID = id <;> simp [Function.comp, h]

theorem consumeLoop_agree (p t : Int) : ∀ (bs : List batch) (rem : Int) (tx1 tx2 : Store)
    (w : List Bool), batchesOf tx1 p t = batchesOf tx2 p t →
    (consumeLoop bs rem tx1 w).out = (consumeLoop bs rem tx2 w).out ∧
    (consumeLoop bs rem tx1 w).faults = (consumeLoop bs rem tx2 w).faults ∧
    batchesOf (consumeLoop bs rem tx1 w).tx p t = batchesOf (consumeLoop bs rem tx2 w).tx p t
  | [], _, _, _, _, h => ⟨rfl, rfl, h⟩
  | b :: bs, rem, tx1, tx2, w, h => by
    by_cases hrem : rem ≤ 0
    · rw [consumeLoop_nonpos _ _ _ _ hrem, consumeLoop_nonpos _ _ _ _ hrem]
      exact ⟨rfl, rfl, h⟩
    · cases hf : failsNow w with
      | true =>
        by_cases hge : b.quantity ≥ rem <;> simp [consumeLoop, hrem, hge, hf, h]
      | false =>
        by_cases hge : b.quantity ≥ rem
        · have e : ∀ tx, consumeLoop (b :: bs) rem tx w =
              ⟨.ok 0, updateBatch tx (b.quantity - rem) b.id, w.tail⟩ := by
            intro tx; simp [consumeLoop, hrem, hge, hf]
          rw [e tx1, e tx2]
          exact ⟨rfl, rfl, by rw [batchesOf_updateBatch, batchesOf_updateBatch, h]⟩
        · have e : ∀ tx, consumeLoop (b :: bs) rem tx w =
              consumeLoop bs (rem - b.quantity) (updateBatch tx 0 b.id) w.tail := by
            intro tx; simp [consumeLoop, hrem, hge, hf]
          rw [e tx1, e tx2]
          exact consumeLoop_agree p t bs _ _ _ _
            (by rw [batchesOf_updateBatch, batchesOf_updateBatch, h])

theorem stockRows_eq_filter_batchesOf (tx : Store) (p t : Int) :
    stockRows tx p t = (batchesOf tx p t).filter fun b => decide (b.Quantity > 0) := by
  unfold stockRows batchesOf
  rw [List.filter_filter]
  apply List.filter_congr
  intro x _
  by_cases h1 : x.ProductID = p <;> by_cases h2 : x.UserID = t <;>
    by_cases h3 : x.Quantity > 0 <;> simp [h1, h2, h3]

theorem ConsumeStockFEFO_agree (tx1 tx2 : Store) (w : List Bool) (p t q : Int)
    (h : batchesOf tx1 p t = batchesOf tx2 p t) :
    (ConsumeStockFEFO tx1 w p t q).err = (ConsumeStockFEFO tx2 w p t q).err ∧
    batchesOf (ConsumeStockFEFO tx1 w p t q).tx p t =
      batchesOf (ConsumeStockFEFO tx2 w p t q).tx p t := by
  have hq : qBatches tx1 p t = qBatches tx2 p t := by
    unfold qBatches
    rw [stockRows_eq_filter_batchesOf, stockRows_eq_filter_batchesOf, h]
  unfold ConsumeStockFEFO
  rw [hq]
  cases hf : failsNow w with
  | true => exact ⟨rfl, h⟩
  | false =>
    simp only [Bool.false_eq_true, if_false]
    cases hs : scanRows (qBatches tx2 p t) with
    | none => exact ⟨rfl, h⟩
    | some bs =>
      simp only []
      obtain ⟨h1, h2, h3⟩ := consumeLoop_agree p t bs q tx1 tx2 w.tail h
      rw [h1, h2]
      cases (consumeLoop bs q tx2 w.tail).out with
      | error e => exact ⟨rfl, h3⟩
      | ok r => by_cases hr : r > 0 <;> simp [hr, h3]

theorem ConsumeStockFEFO_writes (tx : Store) (w : List Bool) (p t q : Int)
    (hid : (tx.product_batches.map fun b => b.ID).Nodup) :
    ∃ g : ProductBatch → ProductBatch,
      (ConsumeStockFEFO tx w p t q).tx =
        { tx with product_batches := tx.product_batches.map g } ∧
      ∀ a ∈ tx.product_batches,
        (∃ n, 0 ≤ n ∧ (g a = a ∨ g a = { a with Quantity := n })) ∧
        (¬ (a.ProductID = p ∧ a.UserID = t) → g a = a) := by
  obtain ⟨g, hg, hprop⟩ := ConsumeStockFEFO_map tx w p t q
  refine ⟨g, hg, fun a ha => ⟨?_, fun hne => ?_⟩⟩
  · rcases hprop a with h | ⟨_, n, hn, h⟩
    · exact ⟨0, le_refl _, Or.inl h⟩
    · exact ⟨n, hn, Or.inr h⟩
  · rcases hprop a with h | ⟨hm, _⟩
    · exact h
    · exfalso
      obtain ⟨b, hb, hba⟩ := List.mem_map.1 hm
      have hb2 := mem_qBatches.1 hb
      have : b = a := List.inj_on_of_nodup_map hid hb2.1 ha hba
      subst this
      exact hne ⟨hb2.2.1, hb2.2.2.1⟩

/-- C18. Tenant isolation of consumption. `ConsumeStockFEFO(p, t, q)` writes
nothing but quantities of batches of product `p` and tenant `t`: the store
after the call is the store before it with the batches mapped by a function
that changes at most the quantity of a row and leaves every batch of another
product or tenant as it is. And for any two stores that agree on the batches
of `(p, t)`, the call returns the same error or success and leaves the same
batches of `(p, t)`. -/
theorem ConsumeStockFEFO_tenant_isolated (tx : Store) (w : List Bool) (p t q : Int)
    (hid : (tx.product_batches.map fun b => b.ID).Nodup) :
    (∃ g : ProductBatch → ProductBatch,
      (ConsumeStockFEFO tx w p t q).tx =
        { tx with product_batches := tx.product_batches.map g } ∧
      ∀ a ∈ tx.product_batches,
        (∃ n, 0 ≤ n ∧ (g a = a ∨ g a = { a with Quantity := n })) ∧
        (¬ (a.ProductID = p ∧ a.UserID = t) → g a = a)) ∧
    (∀ tx2 : Store, batchesOf tx2 p t = batchesOf tx p t →
      (ConsumeStockFEFO tx2 w p t q).err = (ConsumeStockFEFO tx w p t q).err ∧
      batchesOf (ConsumeStockFEFO tx2 w p t q).tx p t =
        batchesOf (ConsumeStockFEFO tx w p t q).tx p t) :=
  ⟨ConsumeStockFEFO_writes tx w p t q hid,
    fun tx2 h => ConsumeStockFEFO_agree tx2 tx w p t q h⟩

/-- Instance of C18: consuming 7 units of product 1 for tenant 7 in
`twoTenantStore` empties batch 1, leaves 3 units in batch 3 and touches
neither the batch of tenant 8 nor the batch of product 2; in
`twoTenantStoreVariant`, which has the same batches of product 1 for tenant 7,
the call has the same result on them. -/
theorem ConsumeStockFEFO_tenant_isolated_witness :
    (ConsumeStockFEFO twoTenantStore [] 1 7 7).tx.product_batches.map
        (fun b => (b.ID, b.Quantity)) = [(1, 0), (2, 9), (3, 3), (4, 4)] ∧
    ((ConsumeStockFEFO twoTenantStoreVariant [] 1 7 7).err =
        (ConsumeStockFEFO twoTenantStore [] 1 7 7).err ∧
      batchesOf (ConsumeStockFEFO twoTenantStoreVariant [] 1 7 7).tx 1 7 =
        batchesOf (ConsumeStockFEFO twoTenantStore [] 1 7 7).tx 1 7) :=
  ⟨by decide,
    (ConsumeStockFEFO_tenant_isolated twoTenantStore [] 1 7 7 (by decide)).2
      twoTenantStoreVariant (by decide)⟩

/-! ### The derived quantity of a product -/

theorem sum_product_eq_available (p t : Int) : ∀ (l : List ProductBatch),
    (∀ b ∈ l, b.ProductID = p → b.UserID = t ∧ 0 ≤ b.Quantity) →
    ((l.filter fun b => decide (b.ProductID = p)).map fun b => b.Quantity).sum =
      ((l.filter fun b =>
        decide (b.ProductID = p ∧ b.UserID = t ∧ b.Quantity > 0)).map fun b => b.Quantity).sum
  | [], _ => rfl
  | b :: l, h => by
    have ih := sum_product_eq_available p t l fun x hx => h x (List.mem_cons_of_mem _ hx)
    by_cases hp : b.ProductID = p
    · obtain ⟨ht, hq⟩ := h b (List.mem_cons_self _ _) hp
      by_cases hpos : b.Quantity > 0
      · simp [List.filter_cons, hp, ht, hpos, ih]
      · have h0 : b.Quantity = 0 := by omega
        simp [List.filter_cons, hp, ht, hpos, ih, h0]
    · simp [List.filter_cons, hp, ih]

theorem GetByID_found (db : Store) (p t : Int) (row : Product)
    (hfind : db.products.find? (fun x => decide (x.ID = p ∧ x.UserID = t)) = some row) :
    ProductModel.GetByID db [] p t =
      .ok { row := row
            CalculatedQuantity :=
              ((db.product_batches.filter fun b => decide (b.ProductID = p)).map
                fun b => b.Quantity).sum } := by
  have hrow := List.find?_some hfind
  simp only [decide_eq_true_eq] at hrow
  simp only [ProductModel.GetByID, failsNow, Bool.false_eq_true, if_false, hfind, hrow.1]

theorem ValidateStockAvailability_single_short (db : Store) (p t : Int) (row : Product)
    (hfind : db.products.find? (fun x => decide (x.ID = p ∧ x.UserID = t)) = some row)
    (it : OrderItem) (hp : it.ProductID = p) (hshort : availableStock db p t < it.Quantity) :
    ∃ name, (ValidateStockAvailability db [] [it] t).err =
      some (.Shortfall { ProductID := p, ProductName := name, Requested := it.Quantity,
                         Available := availableStock db p t }) := by
  subst hp
  cases hts : qTotalStock db it.ProductID t with
  | none =>
    have hempty : stockRows db it.ProductID t = [] := by
      unfold qTotalStock at hts
      cases hpr : db.products.find? (fun pr => decide (pr.ID = it.ProductID)) with
      | none =>
        have hmem := List.mem_of_find?_eq_some hfind
        have hrow := List.find?_some hfind
        simp only [decide_eq_true_eq] at hrow
        have := List.find?_eq_none.1 hpr row hmem
        simp [hrow.1] at this
      | some pr =>
        simp only [hpr] at hts
        cases hr : stockRows db it.ProductID t with
        | nil => rfl
        | cons b bs => simp [hr] at hts
    refine ⟨(match qProductName db it.ProductID t with
        | some name => name
        | none => "Product #" ++ toString it.ProductID), ?_⟩
    simp only [ValidateStockAvailability, failsNow, hts, List.tail_nil, Bool.false_eq_true,
      if_false, availableStock_of_empty hempty]
  | some r =>
    obtain ⟨a, n⟩ := r
    have ha := (qTotalStock_some hts).1
    subst ha
    refine ⟨n, ?_⟩
    simp only [ValidateStockAvailability, failsNow, hts, hshort, List.tail_nil,
      Bool.false_eq_true, if_false, if_true]

/-- C17, as the code has it. For a product `p` that belongs to tenant `t`,
`ProductModel.GetByID(p, t)` returns as `CalculatedQuantity` the sum of the
quantities of all batches with `product_id = p`, whatever their tenant and
sign. When every batch of `p` belongs to `t` and has a quantity that is not
negative, this is the sum over the batches of `p` and `t` with `quantity > 0`,
which is the quantity `ValidateStockAvailability` reports as available for
`(p, t)`. -/
theorem GetByID_calculated_quantity (db : Store) (p t : Int) (row : Product)
    (hfind : db.products.find? (fun x => decide (x.ID = p ∧ x.UserID = t)) = some row) :
    ProductModel.GetByID db [] p t =
      .ok { row := row
            CalculatedQuantity :=
              ((db.product_batches.filter fun b => decide (b.ProductID = p)).map
                fun b => b.Quantity).sum } ∧
    ((∀ b ∈ db.product_batches, b.ProductID = p → b.UserID = t ∧ 0 ≤ b.Quantity) →
      ProductModel.GetByID db [] p t =
        .ok { row := row, CalculatedQuantity := availableStock db p t }) ∧
    (∀ it : OrderItem, it.ProductID = p → availableStock db p t < it.Quantity →
      ∃ name, (ValidateStockAvailability db [] [it] t).err =
        some (.Shortfall { ProductID := p, ProductName := name, Requested := it.Quantity,
                           Available := availableStock db p t })) := by
  refine ⟨GetByID_found db p t row hfind, fun h => ?_,
    fun it hp hs => ValidateStockAvailability_single_short db p t row hfind it hp hs⟩
  rw [GetByID_found db p t row hfind, sum_product_eq_available p t _ h]
  rfl

/-- Instance of C17 as amended: product 1 of tenant 7 in `fefoStore` has
three batches of 5 units, all of tenant 7. -/
theorem GetByID_calculated_quantity_witness :
    ProductModel.GetByID fefoStore [] 1 7 =
      .ok { row := ⟨1, "Leche", "LEC-1", 0, false, 7⟩, CalculatedQuantity := 15 } ∧
    availableStock fefoStore 1 7 = 15 :=
  ⟨((GetByID_calculated_quantity fefoStore 1 7 ⟨1, "Leche", "LEC-1", 0, false, 7⟩
      (by decide)).2.1 (by decide)).trans (by rfl),
    by decide⟩

/-- Counterexample to C17. Tenant 7 completes its purchase order 1 in
`crossTenantStore`, whose item is for product 1 of tenant 8. In the store
reached, `GetByID(1, 8)` reports 20 units for the product of tenant 8, while
`ValidateStockAvailability` reports 0 units available for it. -/
theorem GetByID_counts_batches_of_other_tenants :
    ProductModel.GetByID
        (PurchaseOrderModel.UpdateStatus crossTenantStore [] 1000 1 7 "completed").db [] 1 8 =
      .ok { row := ⟨1, "Harina", "HAR-1", 10, false, 8⟩, CalculatedQuantity := 20 } ∧
    availableStock
      (PurchaseOrderModel.UpdateStatus crossTenantStore [] 1000 1 7 "completed").db 1 8 = 0 ∧
    (ValidateStockAvailability
        (PurchaseOrderModel.UpdateStatus crossTenantStore [] 1000 1 7 "completed").db []
        [line 1 1] 8).err =
      some (.Shortfall { ProductID := 1, ProductName := "Harina", Requested := 1,
                         Available := 0 }) := by
  refine ⟨by rfl, by decide, by decide⟩

/-- C19, at the failing input. Product 1 belongs to tenant 8 and is flagged
as notified; tenant 7 completes its purchase order 1, whose item carries
product 1; the call succeeds and the flag of the product of tenant 8 is
reset. -/
theorem UpdateStatus_resets_flag_of_other_tenant :
    crossTenantStore.products = [⟨1, "Harina", "HAR-1", 10, true, 8⟩] ∧
    (PurchaseOrderModel.UpdateStatus crossTenantStore [] 1000 1 7 "completed").err = none ∧
    (PurchaseOrderModel.UpdateStatus crossTenantStore [] 1000 1 7 "completed").db.products =
      [⟨1, "Harina", "HAR-1", 10, false, 8⟩] := by
  decide

/-! ### Sequences of status changes of one purchase order -/

theorem filter_purchase_movements (orderID userID : Int) (items : List item) :
    ((items.map fun it =>
        ({ product_id := it.productID, quantity_change := it.qty, reason := "PURCHASE_ORDER",
           reference_id := toString orderID, user_id := userID } : StockMovement)).filter
      fun m => decide (m.reason = "PURCHASE_ORDER" ∧ m.reference_id = toString orderID)).length =
      items.length := by
  induction items with
  | nil => rfl
  | cons it rest ih => simpa [List.filter_cons] using ih

theorem UpdateStatus_step (db : Store) (orderID userID : Int) (c : StatusCall) :
    (PurchaseOrderModel.UpdateStatus db c.faults c.now orderID userID
        c.newStatus).db.purchase_order_items = db.purchase_order_items ∧
    (PurchaseOrderModel.UpdateStatus db c.faults c.now orderID userID
        c.newStatus).db.product_batches.length =
      db.product_batches.length +
        (if commitsCompletion orderID userID db c then 1 else 0) * (qItems db orderID).length ∧
    (purchaseMovementsOf orderID
        (PurchaseOrderModel.UpdateStatus db c.faults c.now orderID userID c.newStatus).db).length =
      (purchaseMovementsOf orderID db).length +
        (if commitsCompletion orderID userID db c then 1 else 0) * (qItems db orderID).length := by
  rcases UpdateStatus_shape db c.faults c.now orderID userID c.newStatus with
    ⟨hne, tx, hdb, _⟩ | ⟨hok, po, hfind, hcase⟩
  · have hc : commitsCompletion orderID userID db c = false := by
      unfold commitsCompletion
      simp [hne]
    rw [hdb, hc]
    simp [Rollback, purchaseMovementsOf]
  · rcases hcase with ⟨hs, hst, w1, hci, hdb⟩ | ⟨hn, hdb⟩
    · have hc : commitsCompletion orderID userID db c = true := by
        simp only [commitsCompletion, hfind, hok]
        simp [hs, hst]
      obtain ⟨⟨created, hcr, hrel⟩, hm⟩ := completeItems_ok c.now orderID userID _ _ _ hci
      rw [hdb, hc]
      refine ⟨?_, ?_, ?_⟩
      · exact (completeItems_frame c.now orderID userID _ _ _).2
      · show (completeItems c.now orderID userID (qItems db orderID) db w1).tx.product_batches.length = _
        rw [hcr, List.length_append, ← hrel.length_eq]
        simp
      · show ((completeItems c.now orderID userID (qItems db orderID) db
            w1).tx.stock_movements.filter _).length = _
        rw [hm, List.filter_append, List.length_append, filter_purchase_movements]
        simp [purchaseMovementsOf]
    · have hc : commitsCompletion orderID userID db c = false := by
        simp only [commitsCompletion, hfind]
        by_cases hs : c.newStatus = "completed"
        · have hst : po.Status = "completed" := by
            by_contra h
            exact hn ⟨hs, h⟩
          simp [hst]
        · simp [hs]
      rw [hdb, hc]
      simp [updStatus, purchaseMovementsOf]

theorem qItems_congr {db db2 : Store} (h : db2.purchase_order_items = db.purchase_order_items)
    (orderID : Int) : qItems db2 orderID = qItems db orderID := by
  unfold qItems
  rw [h]

theorem runStatusCalls_counts (orderID userID : Int) : ∀ (calls : List StatusCall) (db : Store),
    (runStatusCalls orderID userID db calls).purchase_order_items = db.purchase_order_items ∧
    (runStatusCalls orderID userID db calls).product_batches.length =
      db.product_batches.length +
        completions orderID userID db calls * (qItems db orderID).length ∧
    (purchaseMovementsOf orderID (runStatusCalls orderID userID db calls)).length =
      (purchaseMovementsOf orderID db).length +
        completions orderID userID db calls * (qItems db orderID).length
  | [], db => by simp [runStatusCalls, completions]
  | c :: cs, db => by
    obtain ⟨h1, h2, h3⟩ := UpdateStatus_step db orderID userID c
    obtain ⟨i1, i2, i3⟩ := runStatusCalls_counts orderID userID cs
      (PurchaseOrderModel.UpdateStatus db c.faults c.now orderID userID c.newStatus).db
    simp only [runStatusCalls, completions]
    rw [i1, i2, i3, h1, h2, h3, qItems_congr h1]
    refine ⟨rfl, ?_, ?_⟩ <;> ring

theorem UpdateStatus_keeps_found (db : Store) (w : List Bool) (now orderID userID : Int)
    (s : String) (po : PurchaseOrder)
    (hfind : db.purchase_orders.find?
      (fun o => decide (o.ID = orderID ∧ o.UserID = userID)) = some po) :
    (PurchaseOrderModel.UpdateStatus db w now orderID userID s).db.purchase_orders.find?
        (fun o => decide (o.ID = orderID ∧ o.UserID = userID)) = some po ∨
    ((PurchaseOrderModel.UpdateStatus db w now orderID userID s).err = none ∧
      (PurchaseOrderModel.UpdateStatus db w now orderID userID s).db.purchase_orders.find?
          (fun o => decide (o.ID = orderID ∧ o.UserID = userID)) =
        some { po with Status := s }) := by
  by_cases hok : (PurchaseOrderModel.UpdateStatus db w now orderID userID s).err = none
  · exact Or.inr ⟨hok, (UpdateStatus_found_after db w now orderID userID s po hfind hok).1⟩
  · rcases UpdateStatus_shape db w now orderID userID s with ⟨_, tx, hdb, _⟩ | ⟨h, _⟩
    · left
      rw [hdb]
      exact hfind
    · exact absurd h hok

theorem completions_of_completed (orderID userID : Int) : ∀ (calls : List StatusCall)
    (db : Store) (po : PurchaseOrder),
    db.purchase_orders.find?
      (fun o => decide (o.ID = orderID ∧ o.UserID = userID)) = some po →
    po.Status = "completed" → (∀ c ∈ calls, c.newStatus = "completed") →
    completions orderID userID db calls = 0
  | [], _, _, _, _, _ => rfl
  | c :: cs, db, po, hfind, hst, hall => by
    have hc : commitsCompletion orderID userID db c = false := by
      simp only [commitsCompletion, hfind]
      simp [hst]
    have hs := hall c (List.mem_cons_self _ _)
    have hrest : ∀ x ∈ cs, x.newStatus = "completed" :=
      fun x hx => hall x (List.mem_cons_of_mem _ hx)
    simp only [completions, hc, Bool.false_eq_true, if_false, zero_add]
    rcases UpdateStatus_keeps_found db c.faults c.now orderID userID c.newStatus po hfind with
      h | ⟨_, h⟩
    · exact completions_of_completed orderID userID cs _ po h hst hrest
    · exact completions_of_completed orderID userID cs _ _ h hs hrest

theorem completions_le_one (orderID userID : Int) : ∀ (calls : List StatusCall) (db : Store),
    (∀ c ∈ calls, c.newStatus = "completed") → completions orderID userID db calls ≤ 1
  | [], _, _ => by simp [completions]
  | c :: cs, db, hall => by
    have hs := hall c (List.mem_cons_self _ _)
    have hrest : ∀ x ∈ cs, x.newStatus = "completed" :=
      fun x hx => hall x (List.mem_cons_of_mem _ hx)
    simp only [completions]
    cases hc : commitsCompletion orderID userID db c with
    | false =>
      simp only [Bool.false_eq_true, if_false, zero_add]
      exact completions_le_one orderID userID cs _ hrest
    | true =>
      simp only [if_true]
      have hc2 := hc
      simp only [commitsCompletion, Bool.and_eq_true, decide_eq_true_eq] at hc2
      obtain ⟨_, hok⟩ := hc2
      rcases UpdateStatus_shape db c.faults c.now orderID userID c.newStatus with
        ⟨hne, _⟩ | ⟨_, po, hfind, _⟩
      · exact absurd hok hne
      · have h := (UpdateStatus_found_after db c.faults c.now orderID userID c.newStatus po
          hfind hok).1
        rw [completions_of_completed orderID userID cs _ _ h hs hrest]

/-- C11, as the code has it. Over every finite sequence of `UpdateStatus`
calls on one purchase order, whatever their target statuses and failures, the
number of batches and the number of `PURCHASE_ORDER` movements created for the
order are the number of items of the order times the number of calls that
commit a change from a status other than `completed` to `completed`. When
every call of the sequence targets `completed` there is at most one such call,
so at most one batch and one movement per item are created. -/
theorem runStatusCalls_manufacture (orderID userID : Int) (db : Store)
    (calls : List StatusCall) :
    (runStatusCalls orderID userID db calls).product_batches.length =
      db.product_batches.length +
        completions orderID userID db calls * (qItems db orderID).length ∧
    (purchaseMovementsOf orderID (runStatusCalls orderID userID db calls)).length =
      (purchaseMovementsOf orderID db).length +
        completions orderID userID db calls * (qItems db orderID).length ∧
    ((∀ c ∈ calls, c.newStatus = "completed") → completions orderID userID db calls ≤ 1) :=
  ⟨(runStatusCalls_counts orderID userID calls db).2.1,
    (runStatusCalls_counts orderID userID calls db).2.2,
    completions_le_one orderID userID calls db⟩

/-- Instance of C11 as amended: three completions in a row of order 1 of
`purchaseStore`, the second of which fails at its commit, create the batch of
its single item once. -/
theorem runStatusCalls_manufacture_witness :
    completions 1 7 purchaseStore
        [⟨[], 1000, "completed"⟩, ⟨[false, false, true], 1001, "completed"⟩,
         ⟨[], 1002, "completed"⟩] ≤ 1 ∧
    (runStatusCalls 1 7 purchaseStore
        [⟨[], 1000, "completed"⟩, ⟨[false, false, true], 1001, "completed"⟩,
         ⟨[], 1002, "completed"⟩]).product_batches.length =
      purchaseStore.product_batches.length + 1 :=
  ⟨(runStatusCalls_manufacture 1 7 purchaseStore
      [⟨[], 1000, "completed"⟩, ⟨[false, false, true], 1001, "completed"⟩,
       ⟨[], 1002, "completed"⟩]).2.2 (by decide),
    by decide⟩

/-- Counterexample to C11: order 1 of `purchaseStore` has one item; the calls
`completed`, `pending`, `completed` create two batches and two
`PURCHASE_ORDER` movements for it. -/
theorem runStatusCalls_recompletion_duplicates :
    (qItems purchaseStore 1).length = 1 ∧
    (runStatusCalls 1 7 purchaseStore
        [⟨[], 1000, "completed"⟩, ⟨[], 1001, "pending"⟩,
         ⟨[], 1002, "completed"⟩]).product_batches.length =
      purchaseStore.product_batches.length + 2 ∧
    (purchaseMovementsOf 1 purchaseStore).length = 0 ∧
    (purchaseMovementsOf 1 (runStatusCalls 1 7 purchaseStore
        [⟨[], 1000, "completed"⟩, ⟨[], 1001, "pending"⟩,
         ⟨[], 1002, "completed"⟩])).length = 2 := by
  decide

/-! ### Sums of batch quantities under the writes of the engine -/

theorem map_setQuantity_ids (n id : Int) (l : List ProductBatch) :
    (l.map fun b => if b.ID = id then { b with Quantity := n } else b).map (fun b => b.ID) =
      l.map fun b => b.ID := by
  rw [List.map_map]
  apply List.map_congr_left
  intro b _
  by_cases h : b.ID = id <;> simp [Function.comp, h]

theorem map_setQuantity_of_not_mem (n id : Int) : ∀ (l : List ProductBatch),
    id ∉ l.map (fun b => b.ID) →
    (l.map fun b => if b.ID = id then { b with Quantity := n } else b) = l
  | [], _ => rfl
  | a :: l, h => by
    simp only [List.map_cons, List.mem_cons, not_or] at h
    have ha : ¬ a.ID = id := fun e => h.1 e.symm
    rw [List.map_cons, if_neg ha, map_setQuantity_of_not_mem n id l h.2]

theorem sum_setQuantity (key : Int → Int → Bool) (n id : Int) : ∀ (l : List ProductBatch),
    (l.map fun b => b.ID).Nodup → ∀ row ∈ l, row.ID = id →
    (((l.map fun b => if b.ID = id then { b with Quantity := n } else b).filter
        fun b => key b.ProductID b.UserID).map fun b => b.Quantity).sum =
      ((l.filter fun b => key b.ProductID b.UserID).map fun b => b.Quantity).sum +
        (if key row.ProductID row.UserID = true then n - row.Quantity else 0)
  | [], _, row, hrow, _ => by cases hrow
  | a :: l, hnd, row, hrow, hid => by
    rw [List.map_cons, List.nodup_cons] at hnd
    rcases List.mem_cons.1 hrow with h | h
    · subst h
      have hnot : id ∉ l.map (fun b => b.ID) := hid ▸ hnd.1
      rw [List.map_cons, if_pos hid, map_setQuantity_of_not_mem n id l hnot]
      cases hk : key row.ProductID row.UserID with
      | true => simp [List.filter_cons, hk]; ring
      | false => simp [List.filter_cons, hk]
    · have ha : ¬ a.ID = id := by
        intro e
        exact hnd.1 (e ▸ hid ▸ List.mem_map_of_mem (fun b => b.ID) h)
      have ih := sum_setQuantity key n id l hnd.2 row h hid
      rw [List.map_cons, if_neg ha]
      cases hk : key a.ProductID a.UserID with
      | true =>
        simp only [List.filter_cons, hk, if_true, List.map_cons, List.sum_cons]
        rw [ih]; ring
      | false =>
        simp only [List.filter_cons, hk, Bool.false_eq_true, if_false]
        exact ih

theorem batchSum_updateBatch (key : Int → Int → Bool) (tx : Store) (n id : Int)
    (hid : (tx.product_batches.map fun b => b.ID).Nodup)
    (row : ProductBatch) (hrow : row ∈ tx.product_batches) (hrid : row.ID = id) :
    batchSum key (updateBatch tx n id) =
      batchSum key tx + (if key row.ProductID row.UserID = true then n - row.Quantity else 0) :=
  sum_setQuantity key n id tx.product_batches hid row hrow hrid

theorem updateBatch_ids (tx : Store) (n id : Int) :
    ((updateBatch tx n id).product_batches.map fun b => b.ID) =
      tx.product_batches.map fun b => b.ID :=
  map_setQuantity_ids n id tx.product_batches

theorem mem_updateBatch_of_ne (tx : Store) (n id : Int) (r : ProductBatch)
    (hr : r ∈ tx.product_batches) (hne : ¬ r.ID = id) :
    r ∈ (updateBatch tx n id).product_batches := by
  unfold updateBatch
  exact List.mem_map.2 ⟨r, hr, by simp [hne]⟩

theorem consumeLoop_sum (key : Int → Int → Bool) (p t : Int) : ∀ (bs : List batch) (rem : Int)
    (tx : Store), 0 < rem → rem ≤ (bs.map fun b => b.quantity).sum →
    (tx.product_batches.map fun b => b.ID).Nodup → (bs.map fun b => b.id).Nodup →
    (∀ x ∈ bs, ∃ row ∈ tx.product_batches,
      row.ID = x.id ∧ row.Quantity = x.quantity ∧ row.ProductID = p ∧ row.UserID = t) →
    batchSum key (consumeLoop bs rem tx []).tx =
      batchSum key tx - (if key p t = true then rem else 0)
  | [], rem, tx, hrem, hsum, _, _, _ => by
    simp at hsum; omega
  | b :: bs, rem, tx, hrem, hsum, hid, hnd, hrows => by
    rw [List.map_cons, List.nodup_cons] at hnd
    simp only [List.map_cons, List.sum_cons] at hsum
    obtain ⟨row, hrow, hrid, hrq, hrp, hrt⟩ := hrows b (List.mem_cons_self _ _)
    by_cases hge : b.quantity ≥ rem
    · have e : consumeLoop (b :: bs) rem tx [] =
          ⟨.ok 0, updateBatch tx (b.quantity - rem) b.id, []⟩ := by
        simp [consumeLoop, failsNow, not_le.2 hrem, hge]
      rw [e]
      show batchSum key (updateBatch tx (b.quantity - rem) b.id) = _
      rw [batchSum_updateBatch key tx _ _ hid row hrow hrid, hrp, hrt, hrq]
      split <;> ring
    · have e : consumeLoop (b :: bs) rem tx [] =
          consumeLoop bs (rem - b.quantity) (updateBatch tx 0 b.id) [] := by
        simp [consumeLoop, failsNow, not_le.2 hrem, hge]
      have hid1 : ((updateBatch tx 0 b.id).product_batches.map fun b => b.ID).Nodup := by
        rw [updateBatch_ids]; exact hid
      have hrows1 : ∀ x ∈ bs, ∃ row ∈ (updateBatch tx 0 b.id).product_batches,
          row.ID = x.id ∧ row.Quantity = x.quantity ∧ row.ProductID = p ∧ row.UserID = t := by
        intro x hx
        obtain ⟨r, hr, h1, h2, h3, h4⟩ := hrows x (List.mem_cons_of_mem _ hx)
        have hne : ¬ r.ID = b.id := by
          intro e1
          exact hnd.1 (by rw [← e1, h1]; exact List.mem_map_of_mem (fun b => b.id) hx)
        exact ⟨r, mem_updateBatch_of_ne tx 0 b.id r hr hne, h1, h2, h3, h4⟩
      rw [e, consumeLoop_sum key p t bs (rem - b.quantity) (updateBatch tx 0 b.id) (by omega)
        (by omega) hid1 hnd.2 hrows1,
        batchSum_updateBatch key tx _ _ hid row hrow hrid, hrp, hrt, hrq]
      split <;> ring

theorem ConsumeStockFEFO_sum (key : Int → Int → Bool) (tx : Store) (w : List Bool)
    (p t q : Int) (hid : (tx.product_batches.map fun b => b.ID).Nodup) (hq : 0 < q)
    (hok : (ConsumeStockFEFO tx w p t q).err = none) :
    batchSum key (ConsumeStockFEFO tx w p t q).tx =
      batchSum key tx - (if key p t = true then q else 0) := by
  obtain ⟨hlot, herr0, htx0⟩ := ConsumeStockFEFO_ok_irrel tx w p t q hok
  rw [← htx0]
  have hsum : q ≤ (((qBatches tx p t).map toBatch).map fun b => b.quantity).sum := by
    by_contra hs
    rw [qBatches_toBatch_sum] at hs
    have := ((ConsumeStockFEFO_nofault_err tx p t q hq hlot).1).2 (not_le.1 hs)
    rw [herr0] at this
    cases this
  have ho := consumeLoop_enough_out _ q tx hq hsum
  have e : (ConsumeStockFEFO tx [] p t q).tx =
      (consumeLoop ((qBatches tx p t).map toBatch) q tx []).tx := by
    rw [ConsumeStockFEFO_nofault tx p t q hlot, ho]
    simp
  rw [e]
  apply consumeLoop_sum key p t _ q tx hq hsum hid
  · rw [List.map_map]
    exact qBatches_nodup hid p t
  · intro x hx
    obtain ⟨r, hr, rfl⟩ := List.mem_map.1 hx
    have hr2 := mem_qBatches.1 hr
    exact ⟨r, hr2.1, rfl, rfl, hr2.2.1, hr2.2.2.1⟩

/-! ### Invariants of the sales path -/

theorem ConsumeStockFEFO_keeps (tx : Store) (w : List Bool) (p t q : Int) :
    (batchKeysValid tx → batchKeysValid (ConsumeStockFEFO tx w p t q).tx) ∧
    ((∀ b ∈ tx.product_batches, 0 ≤ b.Quantity) →
      ∀ b ∈ (ConsumeStockFEFO tx w p t q).tx.product_batches, 0 ≤ b.Quantity) := by
  obtain ⟨g, hg, hprop⟩ := ConsumeStockFEFO_map tx w p t q
  have hgid : ∀ a, (g a).ID = a.ID := by
    intro a
    rcases hprop a with h | ⟨_, n, _, h⟩ <;> rw [h]
  rw [hg]
  constructor
  · rintro ⟨hnd, hle⟩
    have hids : (tx.product_batches.map g).map (fun b => b.ID) =
        tx.product_batches.map fun b => b.ID := by
      rw [List.map_map]
      exact List.map_congr_left fun a _ => hgid a
    refine ⟨by show ((tx.product_batches.map g).map fun b => b.ID).Nodup; rw [hids]; exact hnd,
      ?_⟩
    intro b hb
    obtain ⟨a, ha, rfl⟩ := List.mem_map.1 hb
    rw [hgid a]
    exact hle a ha
  · intro hnn b hb
    obtain ⟨a, ha, rfl⟩ := List.mem_map.1 hb
    rcases hprop a with h | ⟨_, n, hn, h⟩
    · rw [h]; exact hnn a ha
    · rw [h]; exact hn

theorem createItems_keeps : ∀ (order : SalesOrder) (items : List OrderItem) (tx : Store)
    (w : List Bool),
    (batchKeysValid tx → batchKeysValid (createItems order items tx w).tx) ∧
    ((∀ b ∈ tx.product_batches, 0 ≤ b.Quantity) →
      ∀ b ∈ (createItems order items tx w).tx.product_batches, 0 ≤ b.Quantity) ∧
    (createItems order items tx w).tx.purchase_order_items = tx.purchase_order_items ∧
    (createItems order items tx w).tx.product_batches_id_seq = tx.product_batches_id_seq
  | order, [], tx, w => by simp [createItems]
  | order, item :: rest, tx, w => by
    obtain ⟨l, hl⟩ := ConsumeStockFEFO_frame tx w item.ProductID order.UserID item.Quantity
    obtain ⟨hk, hn⟩ := ConsumeStockFEFO_keeps tx w item.ProductID order.UserID item.Quantity
    have hpoi : (ConsumeStockFEFO tx w item.ProductID order.UserID
        item.Quantity).tx.purchase_order_items = tx.purchase_order_items := by rw [hl]
    have hseq : (ConsumeStockFEFO tx w item.ProductID order.UserID
        item.Quantity).tx.product_batches_id_seq = tx.product_batches_id_seq := by rw [hl]
    simp only [createItems]
    cases hc : (ConsumeStockFEFO tx w item.ProductID order.UserID item.Quantity).err with
    | some e => exact ⟨hk, hn, hpoi, hseq⟩
    | none =>
      simp only []
      cases hf1 : failsNow (ConsumeStockFEFO tx w item.ProductID order.UserID
          item.Quantity).faults with
      | true => exact ⟨hk, hn, hpoi, hseq⟩
      | false =>
        simp only [Bool.false_eq_true, if_false]
        cases hf2 : failsNow (ConsumeStockFEFO tx w item.ProductID order.UserID
            item.Quantity).faults.tail with
        | true => exact ⟨hk, hn, hpoi, hseq⟩
        | false =>
          simp only [Bool.false_eq_true, if_false]
          obtain ⟨i1, i2, i3, i4⟩ := createItems_keeps order rest
            (insertMovement (insertItem (ConsumeStockFEFO tx w item.ProductID order.UserID
              item.Quantity).tx { item with OrderID := order.ID }).1
              { product_id := item.ProductID, quantity_change := negInt item.Quantity,
                reason := "SALES_ORDER", reference_id := toString order.ID,
                user_id := order.UserID })
            (ConsumeStockFEFO tx w item.ProductID order.UserID item.Quantity).faults.tail.tail
          exact ⟨fun h => i1 (hk h), fun h => i2 (hn h), i3.trans hpoi, i4.trans hseq⟩

theorem movementSum_insertMovement (key : Int → Int → Bool) (tx : Store) (m : StockMovement) :
    movementSum key (insertMovement tx m) =
      movementSum key tx + (if key m.product_id m.user_id = true then m.quantity_change else 0) := by
  unfold movementSum insertMovement
  cases hk : key m.product_id m.user_id <;>
    simp [List.filter_append, List.filter_cons, hk]

theorem sums_after_line (key : Int → Int → Bool) (tx : Store) (item1 : OrderItem)
    (orderID userID : Int) :
    batchSum key (insertMovement (insertItem tx item1).1
        { product_id := (insertItem tx item1).2.ProductID,
          quantity_change := negInt (insertItem tx item1).2.Quantity,
          reason := "SALES_ORDER", reference_id := toString orderID,
          user_id := userID }) = batchSum key tx ∧
    movementSum key (insertMovement (insertItem tx item1).1
        { product_id := (insertItem tx item1).2.ProductID,
          quantity_change := negInt (insertItem tx item1).2.Quantity,
          reason := "SALES_ORDER", reference_id := toString orderID,
          user_id := userID }) =
      movementSum key tx +
        (if key item1.ProductID userID = true then negInt item1.Quantity else 0) :=
  ⟨rfl, movementSum_insertMovement key (insertItem tx item1).1 _⟩

theorem createItems_balance (key : Int → Int → Bool) : ∀ (order : SalesOrder)
    (items : List OrderItem) (tx : Store) (w : List Bool),
    batchKeysValid tx → (∀ it ∈ items, 0 < it.Quantity) →
    (createItems order items tx w).err = none →
    batchSum key (createItems order items tx w).tx -
        movementSum key (createItems order items tx w).tx =
      batchSum key tx - movementSum key tx
  | order, [], tx, w, _, _, _ => by simp [createItems]
  | order, item :: rest, tx, w, hkeys, hpos, h => by
    obtain ⟨l, hl⟩ := ConsumeStockFEFO_frame tx w item.ProductID order.UserID item.Quantity
    have hk := (ConsumeStockFEFO_keeps tx w item.ProductID order.UserID item.Quantity).1 hkeys
    have hq := hpos item (List.mem_cons_self _ _)
    simp only [createItems] at h ⊢
    cases hc : (ConsumeStockFEFO tx w item.ProductID order.UserID item.Quantity).err with
    | some e => simp [hc] at h
    | none =>
      have hsum := ConsumeStockFEFO_sum key tx w item.ProductID order.UserID item.Quantity
        hkeys.1 hq hc
      have hmov : movementSum key (ConsumeStockFEFO tx w item.ProductID order.UserID
          item.Quantity).tx = movementSum key tx := by
        rw [hl]; rfl
      simp only [hc] at h ⊢
      cases hf1 : failsNow (ConsumeStockFEFO tx w item.ProductID order.UserID
          item.Quantity).faults with
      | true => simp [hf1] at h
      | false =>
        simp only [hf1, Bool.false_eq_true, if_false] at h ⊢
        cases hf2 : failsNow (ConsumeStockFEFO tx w item.ProductID order.UserID
            item.Quantity).faults.tail with
        | true => simp [hf2] at h
        | false =>
          simp only [hf2, Bool.false_eq_true, if_false] at h ⊢
          have ih := createItems_balance key order rest _ _ (by exact hk)
            (fun x hx => hpos x (List.mem_cons_of_mem _ hx)) h
          obtain ⟨e1, e2⟩ := sums_after_line key (ConsumeStockFEFO tx w item.ProductID
            order.UserID item.Quantity).tx { item with OrderID := order.ID } order.ID
            order.UserID
          rw [ih, e1, e2, hsum, hmov, negInt_of_pos hq]
          split <;> ring

theorem Create_shape (db : Store) (w : List Bool) (order : SalesOrder)
    (items : List OrderItem) :
    (∃ tx, (SalesOrderModel.Create db w order items).db = Rollback db tx ∧
      tx.product_batches_id_seq = db.product_batches_id_seq) ∨
    (∃ w1, (createItems (insertOrder db order).2 items (insertOrder db order).1 w1).err = none ∧
      (SalesOrderModel.Create db w order items).db =
        (createItems (insertOrder db order).2 items (insertOrder db order).1 w1).tx) := by
  simp only [SalesOrderModel.Create]
  cases hv : (ValidateStockAvailability db w items order.UserID).err with
  | some e => exact Or.inl ⟨db, rfl, rfl⟩
  | none =>
    simp only []
    cases hf1 : failsNow (ValidateStockAvailability db w items order.UserID).faults with
    | true => exact Or.inl ⟨db, rfl, rfl⟩
    | false =>
      simp only [Bool.false_eq_true, if_false]
      cases hf2 : failsNow (ValidateStockAvailability db w items order.UserID).faults.tail with
      | true => exact Or.inl ⟨db, rfl, rfl⟩
      | false =>
        simp only [Bool.false_eq_true, if_false]
        have hseq := (createItems_keeps (insertOrder db order).2 items (insertOrder db order).1
          (ValidateStockAvailability db w items order.UserID).faults.tail.tail).2.2.2
        cases hr : (createItems (insertOrder db order).2 items (insertOrder db order).1
            (ValidateStockAvailability db w items order.UserID).faults.tail.tail).err with
        | some e => exact Or.inl ⟨_, rfl, hseq⟩
        | none =>
          simp only []
          cases hf3 : failsNow (createItems (insertOrder db order).2 items
              (insertOrder db order).1
              (ValidateStockAvailability db w items order.UserID).faults.tail.tail).faults with
          | true => exact Or.inl ⟨_, rfl, hseq⟩
          | false => exact Or.inr ⟨_, hr, rfl⟩

/-! ### Invariants of the purchase path -/

theorem batchKeysValid_insertBatch (tx : Store) (now p u qty : Int) (l : String)
    (e : Option Int) (h : batchKeysValid tx) :
    batchKeysValid (insertBatch tx now p u qty l e) := by
  obtain ⟨hnd, hle⟩ := h
  unfold batchKeysValid insertBatch
  simp only [List.map_append, List.map_cons, List.map_nil]
  constructor
  · rw [List.nodup_append]
    refine ⟨hnd, List.nodup_singleton _, ?_⟩
    intro x hx hx2
    obtain ⟨b, hb, rfl⟩ := List.mem_map.1 hx
    have := hle b hb
    simp only [List.mem_singleton] at hx2
    omega
  · intro b hb
    rcases List.mem_append.1 hb with hb | hb
    · have := hle b hb
      omega
    · simp only [List.mem_singleton] at hb
      subst hb
      exact le_refl _

theorem batchSum_insertBatch (key : Int → Int → Bool) (tx : Store) (now p u qty : Int)
    (l : String) (e : Option Int) :
    batchSum key (insertBatch tx now p u qty l e) =
      batchSum key tx + (if key p u = true then qty else 0) := by
  unfold batchSum insertBatch
  cases hk : key p u <;> simp [List.filter_append, List.filter_cons, hk]

theorem completeItems_keeps (now orderID userID : Int) : ∀ (items : List item) (tx : Store)
    (w : List Bool),
    (batchKeysValid tx → batchKeysValid (completeItems now orderID userID items tx w).tx) ∧
    ((∀ it ∈ items, 0 ≤ it.qty) → (∀ b ∈ tx.product_batches, 0 ≤ b.Quantity) →
      ∀ b ∈ (completeItems now orderID userID items tx w).tx.product_batches, 0 ≤ b.Quantity)
  | [], tx, w => by simp [completeItems]
  | it :: rest, tx, w => by
    have hk1 : batchKeysValid tx → batchKeysValid (insertBatch tx now it.productID userID it.qty
        (match it.loteNumber with
          | some l => l
          | none => "") it.expiryDate) := batchKeysValid_insertBatch tx _ _ _ _ _ _
    have hn1 : 0 ≤ it.qty → (∀ b ∈ tx.product_batches, 0 ≤ b.Quantity) →
        ∀ b ∈ (insertBatch tx now it.productID userID it.qty
          (match it.loteNumber with
            | some l => l
            | none => "") it.expiryDate).product_batches, 0 ≤ b.Quantity := by
      intro hq hnn b hb
      rcases List.mem_append.1 hb with hb | hb
      · exact hnn b hb
      · simp only [List.mem_singleton] at hb
        subst hb
        exact hq
    simp only [completeItems]
    cases hf1 : failsNow w with
    | true =>
      exact ⟨fun h => h, fun _ h => h⟩
    | false =>
      simp only [Bool.false_eq_true, if_false]
      cases hf2 : failsNow w.tail with
      | true =>
        exact ⟨hk1, fun hq h => hn1 (hq it (List.mem_cons_self _ _)) h⟩
      | false =>
        simp only [Bool.false_eq_true, if_false]
        cases hf3 : failsNow w.tail.tail with
        | true =>
          exact ⟨hk1, fun hq h => hn1 (hq it (List.mem_cons_self _ _)) h⟩
        | false =>
          simp only [Bool.false_eq_true, if_false]
          obtain ⟨i1, i2⟩ := completeItems_keeps now orderID userID rest
            (insertMovement (resetNotified (insertBatch tx now it.productID userID it.qty
              (match it.loteNumber with
                | some l => l
                | none => "") it.expiryDate) it.productID)
              { product_id := it.productID, quantity_change := it.qty,
                reason := "PURCHASE_ORDER", reference_id := toString orderID,
                user_id := userID }) w.tail.tail.tail
          exact ⟨fun h => i1 (hk1 h),
            fun hq h => i2 (fun x hx => hq x (List.mem_cons_of_mem _ hx))
              (hn1 (hq it (List.mem_cons_self _ _)) h)⟩

theorem completeItems_balance (key : Int → Int → Bool) (now orderID userID : Int) :
    ∀ (items : List item) (tx : Store) (w : List Bool),
    (completeItems now orderID userID items tx w).err = none →
    batchSum key (completeItems now orderID userID items tx w).tx -
        movementSum key (completeItems now orderID userID items tx w).tx =
      batchSum key tx - movementSum key tx
  | [], tx, w, _ => by simp [completeItems]
  | it :: rest, tx, w, h => by
    simp only [completeItems] at h ⊢
    cases hf1 : failsNow w with
    | true => simp [hf1] at h
    | false =>
      simp only [hf1, Bool.false_eq_true, if_false] at h ⊢
      cases hf2 : failsNow w.tail with
      | true => simp [hf2] at h
      | false =>
        simp only [hf2, Bool.false_eq_true, if_false] at h ⊢
        cases hf3 : failsNow w.tail.tail with
        | true => simp [hf3] at h
        | false =>
          simp only [hf3, Bool.false_eq_true, if_false] at h ⊢
          rw [completeItems_balance key now orderID userID rest _ _ h,
            movementSum_insertMovement]
          have hb : batchSum key (insertMovement (resetNotified (insertBatch tx now
              it.productID userID it.qty
              (match it.loteNumber with
                | some l => l
                | none => "") it.expiryDate) it.productID)
              { product_id := it.productID, quantity_change := it.qty,
                reason := "PURCHASE_ORDER", reference_id := toString orderID,
                user_id := userID }) =
              batchSum key (insertBatch tx now it.productID userID it.qty
                (match it.loteNumber with
                  | some l => l
                  | none => "") it.expiryDate) := rfl
          have hm : movementSum key (resetNotified (insertBatch tx now
              it.productID userID it.qty
              (match it.loteNumber with
                | some l => l
                | none => "") it.expiryDate) it.productID) = movementSum key tx := rfl
          rw [hb, hm, batchSum_insertBatch]
          split <;> ring

/-! ### Invariants of the runs of the engine -/

theorem Call_run_keys (db : Store) (c : Call) (h : batchKeysValid db) :
    batchKeysValid (Call.run db c) := by
  cases c with
  | create w order items =>
    rcases Create_shape db w order items with ⟨tx, hdb, hseq⟩ | ⟨w1, _, hdb⟩
    · show batchKeysValid (SalesOrderModel.Create db w order items).db
      rw [hdb]
      exact ⟨h.1, fun b hb => by
        show b.ID ≤ tx.product_batches_id_seq
        rw [hseq]; exact h.2 b hb⟩
    · show batchKeysValid (SalesOrderModel.Create db w order items).db
      rw [hdb]
      exact (createItems_keeps _ _ _ _).1 h
  | updateStatus w now orderID userID s =>
    show batchKeysValid (PurchaseOrderModel.UpdateStatus db w now orderID userID s).db
    rcases UpdateStatus_shape db w now orderID userID s with
      ⟨_, tx, hdb, hseq⟩ | ⟨_, po, _, hcase⟩
    · rw [hdb]
      exact ⟨h.1, fun b hb => le_trans (h.2 b hb) hseq⟩
    · rcases hcase with ⟨_, _, w1, _, hdb⟩ | ⟨_, hdb⟩
      · rw [hdb]
        exact (completeItems_keeps now orderID userID _ _ _).1 h
      · rw [hdb]
        exact h

theorem Call_run_balance (key : Int → Int → Bool) (db : Store) (c : Call)
    (h : batchKeysValid db) (hpos : c.positiveLines) :
    batchSum key (Call.run db c) - movementSum key (Call.run db c) =
      batchSum key db - movementSum key db := by
  cases c with
  | create w order items =>
    show batchSum key (SalesOrderModel.Create db w order items).db -
      movementSum key (SalesOrderModel.Create db w order items).db = _
    rcases Create_shape db w order items with ⟨tx, hdb, _⟩ | ⟨w1, hok, hdb⟩
    · rw [hdb]; rfl
    · rw [hdb]
      exact createItems_balance key _ items _ w1 h hpos hok
  | updateStatus w now orderID userID s =>
    show batchSum key (PurchaseOrderModel.UpdateStatus db w now orderID userID s).db -
      movementSum key (PurchaseOrderModel.UpdateStatus db w now orderID userID s).db = _
    rcases UpdateStatus_shape db w now orderID userID s with
      ⟨_, tx, hdb, _⟩ | ⟨_, po, _, hcase⟩
    · rw [hdb]; rfl
    · rcases hcase with ⟨_, _, w1, hok, hdb⟩ | ⟨_, hdb⟩
      · rw [hdb]
        exact completeItems_balance key now orderID userID _ _ _ hok
      · rw [hdb]; rfl

theorem qItems_nonneg (db : Store) (orderID : Int)
    (h : ∀ r ∈ db.purchase_order_items, r.PurchaseOrderID = orderID → 0 < r.Quantity) :
    ∀ it ∈ qItems db orderID, 0 ≤ it.qty := by
  intro it hit
  obtain ⟨r, hr, rfl⟩ := List.mem_map.1 hit
  obtain ⟨hr1, hr2⟩ := List.mem_filter.1 hr
  simp only [decide_eq_true_eq] at hr2
  exact le_of_lt (h r hr1 hr2)

theorem Call_run_nonneg (db : Store) (c : Call)
    (h : ∀ b ∈ db.product_batches, 0 ≤ b.Quantity) (hitems : c.positiveItems db) :
    (∀ b ∈ (Call.run db c).product_batches, 0 ≤ b.Quantity) ∧
    (Call.run db c).purchase_order_items = db.purchase_order_items := by
  cases c with
  | create w order items =>
    show (∀ b ∈ (SalesOrderModel.Create db w order items).db.product_batches, 0 ≤ b.Quantity) ∧
      (SalesOrderModel.Create db w order items).db.purchase_order_items = _
    rcases Create_shape db w order items with ⟨tx, hdb, _⟩ | ⟨w1, _, hdb⟩
    · rw [hdb]; exact ⟨h, rfl⟩
    · rw [hdb]
      exact ⟨(createItems_keeps _ _ _ _).2.1 h, (createItems_keeps _ _ _ _).2.2.1⟩
  | updateStatus w now orderID userID s =>
    show (∀ b ∈ (PurchaseOrderModel.UpdateStatus db w now orderID userID s).db.product_batches,
        0 ≤ b.Quantity) ∧
      (PurchaseOrderModel.UpdateStatus db w now orderID userID s).db.purchase_order_items = _
    rcases UpdateStatus_shape db w now orderID userID s with
      ⟨_, tx, hdb, _⟩ | ⟨_, po, _, hcase⟩
    · rw [hdb]; exact ⟨h, rfl⟩
    · rcases hcase with ⟨_, _, w1, _, hdb⟩ | ⟨_, hdb⟩
      · rw [hdb]
        exact ⟨(completeItems_keeps now orderID userID _ _ _).2 (qItems_nonneg db orderID hitems) h,
          (completeItems_frame now orderID userID _ _ _).2⟩
      · rw [hdb]; exact ⟨h, rfl⟩

theorem Call_positiveItems_congr {db db2 : Store}
    (h : db2.purchase_order_items = db.purchase_order_items) (c : Call)
    (hc : c.positiveItems db) : c.positiveItems db2 := by
  cases c with
  | create w order items => trivial
  | updateStatus w now orderID userID s =>
    show ∀ r ∈ db2.purchase_order_items, r.PurchaseOrderID = orderID → 0 < r.Quantity
    rw [h]; exact hc

theorem runCalls_nonneg_aux : ∀ (calls : List Call) (db : Store),
    (∀ b ∈ db.product_batches, 0 ≤ b.Quantity) → (∀ c ∈ calls, c.positiveItems db) →
    ∀ b ∈ (runCalls db calls).product_batches, 0 ≤ b.Quantity
  | [], _, h, _ => h
  | c :: cs, db, h, hitems => by
    obtain ⟨h1, h2⟩ := Call_run_nonneg db c h (hitems c (List.mem_cons_self _ _))
    exact runCalls_nonneg_aux cs (Call.run db c) h1
      (fun x hx => Call_positiveItems_congr h2 x (hitems x (List.mem_cons_of_mem _ hx)))

theorem runCalls_balance (key : Int → Int → Bool) : ∀ (calls : List Call) (db : Store),
    batchKeysValid db → (∀ c ∈ calls, c.positiveLines) →
    batchSum key (runCalls db calls) - movementSum key (runCalls db calls) =
      batchSum key db - movementSum key db
  | [], _, _, _ => rfl
  | c :: cs, db, h, hpos => by
    show batchSum key (runCalls (Call.run db c) cs) -
      movementSum key (runCalls (Call.run db c) cs) = _
    rw [runCalls_balance key cs (Call.run db c) (Call_run_keys db c h)
      (fun x hx => hpos x (List.mem_cons_of_mem _ hx)),
      Call_run_balance key db c h (hpos c (List.mem_cons_self _ _))]

theorem movementSum_split (key : Int → Int → Bool) (s : Store) :
    positiveMovementSum key s + negativeMovementSum key s = movementSum key s := by
  unfold positiveMovementSum negativeMovementSum movementSum
  induction s.stock_movements with
  | nil => rfl
  | cons m l ih =>
    cases hk : key m.product_id m.user_id with
    | false =>
      simp only [List.filter_cons, hk, Bool.false_and, Bool.false_eq_true, if_false]
      exact ih
    | true =>
      rcases lt_trichotomy m.quantity_change 0 with h | h | h
      · have h1 : ¬ 0 < m.quantity_change := by omega
        simp only [List.filter_cons, hk, Bool.true_and, h, h1, decide_True, decide_False,
          if_true, Bool.false_eq_true, if_false, List.map_cons, List.sum_cons]
        rw [← ih]; ring
      · have h1 : ¬ 0 < m.quantity_change := by omega
        have h2 : ¬ m.quantity_change < 0 := by omega
        simp only [List.filter_cons, hk, Bool.true_and, h1, h2, decide_False,
          if_true, Bool.false_eq_true, if_false, List.map_cons, List.sum_cons]
        rw [← ih, h]; ring
      · have h1 : ¬ m.quantity_change < 0 := by omega
        simp only [List.filter_cons, hk, Bool.true_and, h, h1, decide_True, decide_False,
          if_true, Bool.false_eq_true, if_false, List.map_cons, List.sum_cons]
        rw [← ih]; ring

theorem movementSum_of_empty (key : Int → Int → Bool) (s : Store)
    (h : s.stock_movements = []) : movementSum key s = 0 := by
  simp [movementSum, h]

/-- C14. Non-negativity is an invariant of the engine. Starting from a store
in which no batch quantity is negative, after any finite sequence of
`SalesOrderModel.Create` calls and of `PurchaseOrderModel.UpdateStatus` calls
on orders whose item quantities are positive, each call committing or failing
under any fault script, no batch quantity is negative - at the end of the
sequence and after each of its calls. -/
theorem runCalls_non_negative (db : Store) (calls : List Call)
    (h0 : ∀ b ∈ db.product_batches, 0 ≤ b.Quantity)
    (hitems : ∀ c ∈ calls, c.positiveItems db) :
    (∀ b ∈ (runCalls db calls).product_batches, 0 ≤ b.Quantity) ∧
    ∀ n, ∀ b ∈ (runCalls db (calls.take n)).product_batches, 0 ≤ b.Quantity :=
  ⟨runCalls_nonneg_aux calls db h0 hitems,
    fun n => runCalls_nonneg_aux (calls.take n) db h0
      (fun c hc => hitems c (List.mem_of_mem_take hc))⟩

/-- Instance of C14: the run `purchaseAndSell` on `purchaseStore` ends with
the batches at 0 and 1 units. -/
theorem runCalls_non_negative_witness :
    (runCalls purchaseStore purchaseAndSell).product_batches.map (fun b => b.Quantity) =
      [0, 1] ∧
    ∀ b ∈ (runCalls purchaseStore purchaseAndSell).product_batches, 0 ≤ b.Quantity :=
  ⟨by decide,
    (runCalls_non_negative purchaseStore purchaseAndSell (by decide)
      (by
        intro c hc
        simp only [purchaseAndSell, List.mem_cons, List.mem_singleton, List.mem_nil_iff,
          or_false] at hc
        rcases hc with rfl | rfl | rfl
        · show ∀ r ∈ purchaseStore.purchase_order_items, r.PurchaseOrderID = 1 → 0 < r.Quantity
          decide
        · trivial
        · trivial)).1⟩

/-- C12. Conservation. Start from a store with valid batch keys and an empty
ledger and apply any finite sequence of `SalesOrderModel.Create` calls with
positive line quantities and of `PurchaseOrderModel.UpdateStatus` calls, each
committing or failing under any fault script. Then for every product `p` and
tenant `t`, the sum of the quantities of the initial batches of `(p, t)`, plus
the sum of the positive quantity changes of the movements of `(p, t)`, plus
the sum of the negative ones, is the sum of the current quantities of the
batches of `(p, t)`. -/
theorem runCalls_conservation (db : Store) (calls : List Call) (p t : Int)
    (hkeys : batchKeysValid db) (hledger : db.stock_movements = [])
    (hlines : ∀ c ∈ calls, c.positiveLines) :
    batchSum (keyOf p t) db + positiveMovementSum (keyOf p t) (runCalls db calls) +
        negativeMovementSum (keyOf p t) (runCalls db calls) =
      batchSum (keyOf p t) (runCalls db calls) := by
  have hb := runCalls_balance (keyOf p t) calls db hkeys hlines
  have hs := movementSum_split (keyOf p t) (runCalls db calls)
  rw [movementSum_of_empty (keyOf p t) db hledger] at hb
  omega

/-- Instance of C12: in the run `purchaseAndSell` on `purchaseStore`, product 1
of tenant 7 starts with 2 units, receives 20, sells 21 and holds 1. -/
theorem runCalls_conservation_witness :
    batchSum (keyOf 1 7) purchaseStore = 2 ∧
    positiveMovementSum (keyOf 1 7) (runCalls purchaseStore purchaseAndSell) = 20 ∧
    negativeMovementSum (keyOf 1 7) (runCalls purchaseStore purchaseAndSell) = -21 ∧
    batchSum (keyOf 1 7) purchaseStore +
        positiveMovementSum (keyOf 1 7) (runCalls purchaseStore purchaseAndSell) +
        negativeMovementSum (keyOf 1 7) (runCalls purchaseStore purchaseAndSell) =
      batchSum (keyOf 1 7) (runCalls purchaseStore purchaseAndSell) :=
  ⟨by decide, by decide, by decide,
    runCalls_conservation purchaseStore purchaseAndSell 1 7 (by decide) (by decide)
      (by
        intro c hc
        simp only [purchaseAndSell, List.mem_cons, List.mem_singleton, List.mem_nil_iff,
          or_false] at hc
        rcases hc with rfl | rfl | rfl
        · trivial
        · show ∀ it ∈ [line 1 21], 0 < it.Quantity
          decide
        · show ∀ it ∈ [line 1 5], 0 < it.Quantity
          decide)⟩

/-- C13, as the code has it. In every store reached from a store with valid
batch keys and an empty ledger by sales-order creations with positive line
quantities and purchase-order status changes, for every product the signed
sum of all its stock movements is the sum of the quantities remaining in its
batches minus the sum of the quantities of the batches the store started
with. Equivalently, the quantities of all batches ever inserted minus the
quantities remaining are the quantities inserted by the calls minus the
signed sum of the movements. -/
theorem runCalls_ledger (db : Store) (calls : List Call) (p : Int)
    (hkeys : batchKeysValid db) (hledger : db.stock_movements = [])
    (hlines : ∀ c ∈ calls, c.positiveLines) :
    movementSum (keyOfProduct p) (runCalls db calls) =
      batchSum (keyOfProduct p) (runCalls db calls) - batchSum (keyOfProduct p) db ∧
    insertedEver (keyOfProduct p) db calls - batchSum (keyOfProduct p) (runCalls db calls) =
      insertedDuring (keyOfProduct p) db calls -
        movementSum (keyOfProduct p) (runCalls db calls) := by
  have hb := runCalls_balance (keyOfProduct p) calls db hkeys hlines
  rw [movementSum_of_empty (keyOfProduct p) db hledger] at hb
  unfold insertedEver
  constructor <;> omega

/-- Instance of C13 as amended: in the run `purchaseAndSell` on
`purchaseStore` the movements of product 1 sum to -1, and its batches went
from 2 units to 1. -/
theorem runCalls_ledger_witness :
    movementSum (keyOfProduct 1) (runCalls purchaseStore purchaseAndSell) = -1 ∧
    movementSum (keyOfProduct 1) (runCalls purchaseStore purchaseAndSell) =
      batchSum (keyOfProduct 1) (runCalls purchaseStore purchaseAndSell) -
        batchSum (keyOfProduct 1) purchaseStore :=
  ⟨by decide,
    (runCalls_ledger purchaseStore purchaseAndSell 1 (by decide) (by decide)
      (by
        intro c hc
        simp only [purchaseAndSell, List.mem_cons, List.mem_singleton, List.mem_nil_iff,
          or_false] at hc
        rcases hc with rfl | rfl | rfl
        · trivial
        · show ∀ it ∈ [line 1 21], 0 < it.Quantity
          decide
        · show ∀ it ∈ [line 1 5], 0 < it.Quantity
          decide)).1⟩

/-- Counterexample to C13. After the completion of purchase order 1 in
`purchaseStore` the movements of product 1 sum to +20, while the batches ever
inserted for it hold 22 units and 22 units remain. After the sale of 5 units
of product 1 in `fefoStore` the movements sum to -5, while 15 units were
inserted and 10 remain. -/
theorem ledger_is_not_inserted_minus_remaining :
    (purchaseStore.stock_movements = [] ∧
      movementSum (keyOfProduct 1)
        (runCalls purchaseStore [.updateStatus [] 1000 1 7 "completed"]) = 20 ∧
      insertedEver (keyOfProduct 1) purchaseStore [.updateStatus [] 1000 1 7 "completed"] -
        batchSum (keyOfProduct 1)
          (runCalls purchaseStore [.updateStatus [] 1000 1 7 "completed"]) = 0) ∧
    (fefoStore.stock_movements = [] ∧
      movementSum (keyOfProduct 1)
        (runCalls fefoStore [.create [] pendingOrder [line 1 5]]) = -5 ∧
      insertedEver (keyOfProduct 1) fefoStore [.create [] pendingOrder [line 1 5]] -
        batchSum (keyOfProduct 1)
          (runCalls fefoStore [.create [] pendingOrder [line 1 5]]) = 5) := by
  decide

/-! ### The default QR payload -/

/-- C30. For every pair of strings, `getQRData` returns `qrData` unchanged
when it is not empty and the verification URL followed by `ventaID`
otherwise; the two cases of the test `TestHelpers` evaluate as the test
expects. -/
theorem getQRData_spec (qrData ventaID : String) :
    (qrData ≠ "" → getQRData qrData ventaID = qrData) ∧
    (qrData = "" → getQRData qrData ventaID = "https://blend.com.ar/verify/" ++ ventaID) ∧
    getQRData "custom-data" "123" = "custom-data" ∧
    getQRData "" "VTA-123" = "https://blend.com.ar/verify/VTA-123" := by
  refine ⟨fun h => ?_, fun h => ?_, by decide, by decide⟩
  · simp [getQRData, h]
  · simp [getQRData, h]

/-- Instance of C30: a payload given by the caller, and the default one. -/
theorem getQRData_spec_witness :
    getQRData "00020101" "VTA-9" = "00020101" ∧
    getQRData "" "VTA-9" = "https://blend.com.ar/verify/" ++ "VTA-9" :=
  ⟨(getQRData_spec "00020101" "VTA-9").1 (by decide),
    (getQRData_spec "" "VTA-9").2.1 rfl⟩

/-! ### Pagination -/

theorem wrapInt_of_range {x : Int} (h1 : -9223372036854775808 ≤ x)
    (h2 : x < 9223372036854775808) : wrapInt x = x := by
  unfold wrapInt; omega

theorem NewFilters_Page (page pageSize : Int) :
    (NewFilters page pageSize).Page = if page < 1 then 1 else page := rfl

theorem NewFilters_PageSize (page pageSize : Int) :
    (NewFilters page pageSize).PageSize =
      if pageSize < 1 then 20 else if pageSize > 100 then 100 else pageSize := by
  unfold NewFilters
  by_cases h : pageSize < 1
  · simp [h]
  · simp [h]

theorem NewFilters_range (page pageSize : Int) :
    1 ≤ (NewFilters page pageSize).Page ∧ 1 ≤ (NewFilters page pageSize).PageSize ∧
      (NewFilters page pageSize).PageSize ≤ 100 := by
  rw [NewFilters_Page, NewFilters_PageSize]
  refine ⟨?_, ?_, ?_⟩ <;> split_ifs <;> omega

theorem Offset_exact (f : Filters) (hp : 1 ≤ f.Page) (hs : 1 ≤ f.PageSize)
    (h : (f.Page - 1) * f.PageSize < 9223372036854775808) :
    f.Offset = (f.Page - 1) * f.PageSize ∧ 0 ≤ f.Offset := by
  have h0 : 0 ≤ f.Page - 1 := by omega
  have hle : f.Page - 1 ≤ (f.Page - 1) * f.PageSize := le_mul_of_one_le_right h0 hs
  have hnn : 0 ≤ (f.Page - 1) * f.PageSize := mul_nonneg h0 (by omega)
  have e1 : wrapInt (f.Page - 1) = f.Page - 1 := wrapInt_of_range (by omega) (by omega)
  have e2 : f.Offset = (f.Page - 1) * f.PageSize := by
    unfold Filters.Offset
    rw [e1]
    exact wrapInt_of_range (by omega) h
  exact ⟨e2, by rw [e2]; exact hnn⟩

theorem CalculateMetadata_total (totalRecords page pageSize : Int) (hs : 1 ≤ pageSize) :
    ∃ m, CalculateMetadata totalRecords page pageSize = some m ∧ m.FirstPage = 1 := by
  unfold CalculateMetadata
  by_cases h0 : totalRecords = 0
  · simp [h0]
  · have : pageSize ≠ 0 := by omega
    simp [h0, this]

theorem CalculateMetadata_lastPage (totalRecords page pageSize : Int) (m : Metadata)
    (ht : 0 ≤ totalRecords) (hs : 1 ≤ pageSize)
    (h : totalRecords + pageSize - 1 < 9223372036854775808)
    (hm : CalculateMetadata totalRecords page pageSize = some m) :
    1 ≤ m.LastPage ∧ totalRecords ≤ m.LastPage * pageSize ∧
      ∀ n : Int, 1 ≤ n → totalRecords ≤ n * pageSize → m.LastPage ≤ n := by
  unfold CalculateMetadata at hm
  by_cases h0 : totalRecords = 0
  · simp [h0] at hm
    subst hm
    subst h0
    exact ⟨le_refl _, by simpa using (by omega : (0 : Int) ≤ pageSize), fun n hn _ => hn⟩
  · have hne : pageSize ≠ 0 := by omega
    have e1 : wrapInt (wrapInt (totalRecords + pageSize) - 1) = totalRecords + pageSize - 1 := by
      unfold wrapInt; omega
    have e2 : (totalRecords + pageSize - 1).tdiv pageSize = (totalRecords + pageSize - 1) / pageSize :=
      Int.tdiv_eq_ediv (by omega) (by omega)
    have hdm := Int.ediv_add_emod (totalRecords + pageSize - 1) pageSize
    have hr0 := Int.emod_nonneg (totalRecords + pageSize - 1) hne
    have hr1 := Int.emod_lt_of_pos (totalRecords + pageSize - 1) (by omega : 0 < pageSize)
    generalize hd : (totalRecords + pageSize - 1) / pageSize = d at *
    generalize (totalRecords + pageSize - 1) % pageSize = r at *
    have hd1 : 1 ≤ d := by
      by_contra hc
      have : pageSize * d ≤ pageSize * 0 := mul_le_mul_of_nonneg_left (by omega) (by omega)
      omega
    have hdle : d ≤ pageSize * d := le_mul_of_one_le_left (by omega) hs
    have e3 : wrapInt d = d := wrapInt_of_range (by omega) (by omega)
    simp only [h0, hne, if_false, e1, e2, e3] at hm
    have hm2 : m.LastPage = d := by
      have := congrArg (Option.map Metadata.LastPage) hm
      simp at this
      rw [← this]
      simp [show ¬ d < 1 by omega]
    rw [hm2]
    refine ⟨hd1, by rw [mul_comm]; omega, fun n hn hle => ?_⟩
    by_contra hc
    have : pageSize * n ≤ pageSize * (d - 1) := mul_le_mul_of_nonneg_left (by omega) (by omega)
    rw [mul_sub, mul_one] at this
    rw [mul_comm] at hle
    omega

/-- C29, as the code has it. For every pair `(page, pageSize)`,
`f = NewFilters(page, pageSize)` has `f.Page >= 1` and `1 <= f.PageSize <= 100`.
`f.Offset()` is computed in 64-bit `int` arithmetic: it equals
`(f.Page - 1) * f.PageSize` and is not negative whenever that product is below
`2^63`. For every `totalRecords >= 0`, `CalculateMetadata(totalRecords, f.Page,
f.PageSize)` returns (its divisor is not zero) with `FirstPage = 1`, and its
`LastPage` is the least `n >= 1` with `n * f.PageSize >= totalRecords`
whenever `totalRecords + f.PageSize - 1` is below `2^63`. -/
theorem NewFilters_CalculateMetadata_spec (page pageSize : Int) :
    1 ≤ (NewFilters page pageSize).Page ∧
    1 ≤ (NewFilters page pageSize).PageSize ∧ (NewFilters page pageSize).PageSize ≤ 100 ∧
    (((NewFilters page pageSize).Page - 1) * (NewFilters page pageSize).PageSize
        < 9223372036854775808 →
      (NewFilters page pageSize).Offset =
          ((NewFilters page pageSize).Page - 1) * (NewFilters page pageSize).PageSize ∧
        0 ≤ (NewFilters page pageSize).Offset) ∧
    ∀ totalRecords : Int, 0 ≤ totalRecords →
      ∃ m, CalculateMetadata totalRecords (NewFilters page pageSize).Page
            (NewFilters page pageSize).PageSize = some m ∧
        m.FirstPage = 1 ∧
        (totalRecords + (NewFilters page pageSize).PageSize - 1 < 9223372036854775808 →
          1 ≤ m.LastPage ∧ totalRecords ≤ m.LastPage * (NewFilters page pageSize).PageSize ∧
          ∀ n : Int, 1 ≤ n → totalRecords ≤ n * (NewFilters page pageSize).PageSize →
            m.LastPage ≤ n) := by
  obtain ⟨hp, hs, hs2⟩ := NewFilters_range page pageSize
  refine ⟨hp, hs, hs2, fun h => Offset_exact _ hp hs h, fun totalRecords ht => ?_⟩
  obtain ⟨m, hm, hfirst⟩ := CalculateMetadata_total totalRecords
    (NewFilters page pageSize).Page (NewFilters page pageSize).PageSize hs
  exact ⟨m, hm, hfirst, fun h => CalculateMetadata_lastPage _ _ _ m ht hs h hm⟩

/-- Instance of C29: page 3 with 25 rows per page and 101 records starts at
offset 50 and has 5 pages. -/
theorem NewFilters_CalculateMetadata_spec_witness :
    (NewFilters 3 25).Offset = 50 ∧
    ∃ m, CalculateMetadata 101 (NewFilters 3 25).Page (NewFilters 3 25).PageSize = some m ∧
      m.FirstPage = 1 ∧ 1 ≤ m.LastPage ∧ 101 ≤ m.LastPage * (NewFilters 3 25).PageSize ∧
      ∀ n : Int, 1 ≤ n → 101 ≤ n * (NewFilters 3 25).PageSize → m.LastPage ≤ n :=
  ⟨((NewFilters_CalculateMetadata_spec 3 25).2.2.2.1 (by decide)).1,
    match (NewFilters_CalculateMetadata_spec 3 25).2.2.2.2 101 (by decide) with
    | ⟨m, hm, hfirst, hlast⟩ => ⟨m, hm, hfirst, hlast (by decide)⟩⟩

/-- Counterexample to C29. The query `page=4611686018427387905&page_size=2`
gives filters whose offset, `2^62 * 2` in 64-bit arithmetic, is `-2^63`; and
for `2^63 - 1` records and the default page size 20 the sum
`totalRecords + pageSize - 1` wraps around, so that `LastPage` is 1 although
one page of 20 rows does not hold the records. -/
theorem Offset_wraps_around :
    (NewFilters 4611686018427387905 2).Offset = -9223372036854775808 ∧
    ¬ 0 ≤ (NewFilters 4611686018427387905 2).Offset ∧
    ∃ m, CalculateMetadata 9223372036854775807 (NewFilters 1 0).Page
          (NewFilters 1 0).PageSize = some m ∧
      m.LastPage = 1 ∧ ¬ 9223372036854775807 ≤ m.LastPage * (NewFilters 1 0).PageSize :=
  ⟨by decide, by decide, ⟨1, 20, 1, 1, 9223372036854775807⟩, by decide, rfl, by decide⟩

/-! ### The allocator on its own failure -/

theorem consumeLoop_depletes : ∀ (bs : List batch) (rem : Int) (tx : Store) (w : List Bool)
    (r : Int), (consumeLoop bs rem tx w).out = .ok r → 0 < r →
    (bs.map fun b => b.quantity).sum + r = rem ∧
    ∀ j, quantityOf (consumeLoop bs rem tx w).tx j =
      if j ∈ bs.map (fun b => b.id) then (quantityOf tx j).map (fun _ => 0)
      else quantityOf tx j
  | [], rem, tx, w, r, h, _ => by
    simp only [consumeLoop, Except.ok.injEq] at h
    simp [consumeLoop, h]
  | b :: bs, rem, tx, w, r, h, hr => by
    by_cases hrem : rem ≤ 0
    · rw [consumeLoop_nonpos _ _ _ _ hrem] at h
      simp only [Except.ok.injEq] at h
      omega
    · by_cases hge : b.quantity ≥ rem
      · cases hf : failsNow w <;> simp [consumeLoop, hrem, hge, hf] at h
        omega
      · cases hf : failsNow w with
        | true => simp [consumeLoop, hrem, hge, hf] at h
        | false =>
          have e : consumeLoop (b :: bs) rem tx w =
              consumeLoop bs (rem - b.quantity) (updateBatch tx 0 b.id) w.tail := by
            simp [consumeLoop, hrem, hge, hf]
          rw [e] at h ⊢
          obtain ⟨ih1, ih2⟩ := consumeLoop_depletes bs _ _ _ r h hr
          refine ⟨by simp only [List.map_cons, List.sum_cons]; omega, fun j => ?_⟩
          rw [ih2 j, quantityOf_updateBatch]
          by_cases hj : j = b.id
          · subst hj
            cases quantityOf tx b.id <;> simp
          · simp [hj]

theorem ConsumeStockFEFO_insufficient (tx : Store) (w : List Bool) (p t q : Int)
    (hid : (tx.product_batches.map fun b => b.ID).Nodup)
    (h : (ConsumeStockFEFO tx w p t q).err = some .ErrInsufficientStock) :
    availableStock tx p t < q ∧
      ∀ b ∈ qBatches tx p t, quantityOf (ConsumeStockFEFO tx w p t q).tx b.ID = some 0 := by
  unfold ConsumeStockFEFO at h ⊢
  cases hf : failsNow w with
  | true => simp [hf] at h
  | false =>
    simp only [hf, Bool.false_eq_true, if_false] at h ⊢
    cases hs : scanRows (qBatches tx p t) with
    | none => simp [hs] at h
    | some bs =>
      simp only [hs] at h ⊢
      obtain ⟨hbs, _⟩ := scanRows_some _ _ hs
      cases ho : (consumeLoop bs q tx w.tail).out with
      | error e =>
        have he := consumeLoop_error _ _ _ _ _ ho
        subst he
        simp [ho] at h
      | ok r =>
        simp only [ho] at h ⊢
        by_cases hr : r > 0
        · simp only [hr, if_true] at h ⊢
          obtain ⟨h1, h2⟩ := consumeLoop_depletes bs q tx w.tail r ho hr
          refine ⟨?_, fun b hb => ?_⟩
          · rw [← qBatches_toBatch_sum, ← hbs]; omega
          · rw [h2]
            have hmem : b.ID ∈ bs.map (fun x => x.id) := by
              rw [hbs, List.map_map]
              exact List.mem_map_of_mem (fun x => (toBatch x).id) hb
            rw [if_pos hmem, quantityOf_of_mem hid (mem_qBatches.1 hb).1]
            rfl
        · simp [hr] at h

/-- C28. `ConsumeStockFEFO` does not preserve the state on its own failure.
For every `q > 0` (and unique batch ids): whenever it returns
`ErrInsufficientStock`, the quantities of the candidates sum to less than `q`
and every candidate batch has quantity 0 in the store of the transaction, so
that this store differs from the one before the call as soon as there is a
candidate; without driver failure and with readable candidates it does return
`ErrInsufficientStock` whenever the candidates sum to less than `q`; and the
rollback of the caller puts every batch row back. -/
theorem ConsumeStockFEFO_failure_writes (tx : Store) (p t q : Int) (hq : 0 < q)
    (hid : (tx.product_batches.map fun b => b.ID).Nodup) :
    (∀ w, (ConsumeStockFEFO tx w p t q).err = some .ErrInsufficientStock →
      ((qBatches tx p t).map fun b => b.Quantity).sum < q ∧
      (∀ b ∈ qBatches tx p t, quantityOf (ConsumeStockFEFO tx w p t q).tx b.ID = some 0) ∧
      (qBatches tx p t ≠ [] → (ConsumeStockFEFO tx w p t q).tx ≠ tx) ∧
      (Rollback tx (ConsumeStockFEFO tx w p t q).tx).product_batches = tx.product_batches) ∧
    ((∀ b ∈ qBatches tx p t, b.LoteNumber ≠ none) →
      ((qBatches tx p t).map fun b => b.Quantity).sum < q →
      (ConsumeStockFEFO tx [] p t q).err = some .ErrInsufficientStock) := by
  refine ⟨fun w h => ?_, fun hlot hsum => ?_⟩
  · obtain ⟨h1, h2⟩ := ConsumeStockFEFO_insufficient tx w p t q hid h
    refine ⟨by rw [qBatches_sum]; exact h1, h2, fun hne htx => ?_, rfl⟩
    obtain ⟨b, hb⟩ := List.exists_mem_of_ne_nil _ hne
    have h0 := h2 b hb
    rw [htx, quantityOf_of_mem hid (mem_qBatches.1 hb).1] at h0
    have hpos := (mem_qBatches.1 hb).2.2.2
    simp only [Option.some.injEq] at h0
    omega
  · rw [qBatches_sum] at hsum
    exact (ConsumeStockFEFO_nofault_err tx p t q hq hlot).1.2 hsum

/-- Instance of C28: consuming 16 units of product 1 in `fefoStore`, which
holds 15, fails and leaves the three batches at 0 in the transaction. -/
theorem ConsumeStockFEFO_failure_writes_witness :
    (ConsumeStockFEFO fefoStore [] 1 7 16).err = some .ErrInsufficientStock ∧
    (∀ b ∈ qBatches fefoStore 1 7,
      quantityOf (ConsumeStockFEFO fefoStore [] 1 7 16).tx b.ID = some 0) ∧
    (ConsumeStockFEFO fefoStore [] 1 7 16).tx ≠ fefoStore ∧
    (Rollback fefoStore (ConsumeStockFEFO fefoStore [] 1 7 16).tx).product_batches =
      fefoStore.product_batches :=
  ⟨(ConsumeStockFEFO_failure_writes fefoStore 1 7 16 (by decide) (by decide)).2
      (by decide) (by decide),
    ((ConsumeStockFEFO_failure_writes fefoStore 1 7 16 (by decide) (by decide)).1 []
      (by decide)).2.1,
    ((ConsumeStockFEFO_failure_writes fefoStore 1 7 16 (by decide) (by decide)).1 []
      (by decide)).2.2.1 (by decide),
    ((ConsumeStockFEFO_failure_writes fefoStore 1 7 16 (by decide) (by decide)).1 []
      (by decide)).2.2.2⟩

/-! ### Batches without lot number -/

/-- C26, at the failing input. `salesStore` and `lotlessStore` differ only in
the lot numbers of their batches, which are NULL in the second. Consuming 5
units of product 1 for tenant 7 succeeds in the first (batch 1 ends at 0,
batch 2 at 8) and fails in the second, where the scan of `lote_number` into a
Go `string` is refused, before any batch is written. -/
theorem ConsumeStockFEFO_null_lot_fails :
    lotlessStore.product_batches =
      salesStore.product_batches.map (fun b => { b with LoteNumber := none }) ∧
    (ConsumeStockFEFO salesStore [] 1 7 5).err = none ∧
    (ConsumeStockFEFO salesStore [] 1 7 5).tx.product_batches.map
        (fun b => (b.ID, b.Quantity)) = [(1, 0), (2, 8)] ∧
    (ConsumeStockFEFO lotlessStore [] 1 7 5).err = some .ScanNull ∧
    (ConsumeStockFEFO lotlessStore [] 1 7 5).tx.product_batches.map
        (fun b => (b.ID, b.Quantity)) = [(1, 3), (2, 10)] :=
  ⟨by decide, by decide, by decide, by decide, by decide⟩

/-! ### Lines with a quantity that is not positive -/

theorem ConsumeStockFEFO_of_nonpos (tx : Store) (w : List Bool) (p t q : Int) (hq : q ≤ 0)
    (hf : failsNow w = false) (hlot : ∀ b ∈ qBatches tx p t, b.LoteNumber ≠ none) :
    (ConsumeStockFEFO tx w p t q).err = none ∧ (ConsumeStockFEFO tx w p t q).tx = tx ∧
      (ConsumeStockFEFO tx w p t q).faults = w.tail := by
  have hnot : ¬ q > 0 := by omega
  simp [ConsumeStockFEFO, hf, scanRows_of_lots _ hlot, consumeLoop_nonpos _ _ _ _ hq, hnot]

theorem availableStock_pos {db : Store} {p u : Int} (h : stockRows db p u ≠ []) :
    0 < availableStock db p u := by
  unfold availableStock
  have hpos : ∀ b ∈ stockRows db p u, 0 < b.Quantity := by
    intro b hb
    have := (List.mem_filter.1 hb).2
    simp at this
    exact this.2.2
  generalize stockRows db p u = l at h hpos
  induction l with
  | nil => exact absurd rfl h
  | cons b bs ih =>
    have hb := hpos b (List.mem_cons_self _ _)
    cases bs with
    | nil => simpa using hb
    | cons c cs =>
      have := ih (by simp) fun x hx => hpos x (List.mem_cons_of_mem _ hx)
      simp only [List.map_cons, List.sum_cons] at this ⊢
      omega

theorem ValidateStockAvailability_nonpos (db : Store) (u : Int)
    (hfk : ∀ b ∈ db.product_batches, ∃ pr ∈ db.products, pr.ID = b.ProductID) :
    ∀ (items : List OrderItem),
    (∀ it ∈ items, it.Quantity ≤ 0 ∧
      ∃ b ∈ db.product_batches, b.ProductID = it.ProductID ∧ b.UserID = u ∧ 0 < b.Quantity) →
    (ValidateStockAvailability db [] items u).err = none ∧
      (ValidateStockAvailability db [] items u).faults = []
  | [], _ => ⟨rfl, rfl⟩
  | it :: rest, h => by
    obtain ⟨hq, b, hb, hbp, hbu, hbq⟩ := h it (List.mem_cons_self _ _)
    have ih := ValidateStockAvailability_nonpos db u hfk rest
      fun x hx => h x (List.mem_cons_of_mem _ hx)
    obtain ⟨pr, hpr, hid⟩ := hfk b hb
    have hrows : stockRows db it.ProductID u ≠ [] := by
      have : b ∈ stockRows db it.ProductID u :=
        List.mem_filter.2 ⟨hb, by simp [hbp, hbu, hbq]⟩
      exact List.ne_nil_of_mem this
    have hav := availableStock_pos hrows
    cases hfind : db.products.find? (fun x => decide (x.ID = it.ProductID)) with
    | none =>
      have := List.find?_eq_none.1 hfind pr hpr
      simp [hid, hbp] at this
    | some p1 =>
      have hts : qTotalStock db it.ProductID u =
          some (availableStock db it.ProductID u, p1.Name) := by
        unfold qTotalStock
        rw [hfind]
        simp [hrows]
      have hlt : ¬ availableStock db it.ProductID u < it.Quantity := by omega
      simp only [ValidateStockAvailability, failsNow, hts, hlt, List.tail_nil,
        Bool.false_eq_true, if_false]
      exact ih

theorem createItems_nonpos (order : SalesOrder) : ∀ (items : List OrderItem) (tx : Store),
    (∀ it ∈ items, it.Quantity ≤ 0 ∧
      ∀ b ∈ qBatches tx it.ProductID order.UserID, b.LoteNumber ≠ none) →
    (createItems order items tx []).err = none ∧ (createItems order items tx []).faults = [] ∧
      (createItems order items tx []).tx.product_batches = tx.product_batches
  | [], tx, _ => ⟨rfl, rfl, rfl⟩
  | it :: rest, tx, h => by
    obtain ⟨hq, hlot⟩ := h it (List.mem_cons_self _ _)
    obtain ⟨hc1, hc2, hc3⟩ := ConsumeStockFEFO_of_nonpos tx [] it.ProductID order.UserID
      it.Quantity hq rfl hlot
    obtain ⟨i1, i2, i3⟩ := createItems_nonpos order rest
      (insertMovement (insertItem tx { it with OrderID := order.ID }).1
        { product_id := it.ProductID, quantity_change := negInt it.Quantity,
          reason := "SALES_ORDER", reference_id := toString order.ID, user_id := order.UserID })
      (fun x hx => h x (List.mem_cons_of_mem _ hx))
    simp only [createItems, hc1, hc2, hc3, List.tail_nil, failsNow, Bool.false_eq_true,
      if_false]
    exact ⟨i1, i2, i3⟩

theorem Create_of_nonpos_lines (db : Store) (order : SalesOrder) (items : List OrderItem)
    (hfk : ∀ b ∈ db.product_batches, ∃ pr ∈ db.products, pr.ID = b.ProductID)
    (h : ∀ it ∈ items, it.Quantity ≤ 0 ∧
      (∀ b ∈ qBatches db it.ProductID order.UserID, b.LoteNumber ≠ none) ∧
      ∃ b ∈ db.product_batches, b.ProductID = it.ProductID ∧ b.UserID = order.UserID ∧
        0 < b.Quantity) :
    (SalesOrderModel.Create db [] order items).err = none ∧
    (SalesOrderModel.Create db [] order items).db.product_batches = db.product_batches := by
  obtain ⟨hv1, hv2⟩ := ValidateStockAvailability_nonpos db order.UserID hfk items
    fun it hit => ⟨(h it hit).1, (h it hit).2.2⟩
  obtain ⟨i1, i2, i3⟩ := createItems_nonpos (insertOrder db order).2 items
    (insertOrder db order).1 fun it hit => ⟨(h it hit).1, (h it hit).2.1⟩
  simp only [SalesOrderModel.Create, hv1, hv2, List.tail_nil, failsNow, Bool.false_eq_true,
    if_false, i1, i2]
  exact ⟨trivial, i3⟩

/-- C27, as the code has it. With no failing driver call and candidate batches
that the driver can scan, `ConsumeStockFEFO(p, t, q)` returns nil for every
`q <= 0` and leaves the store of the transaction, so every batch quantity, as
it was. Consequently `SalesOrderModel.Create`, called directly on a store
whose batches refer to product rows with lines of quantities `q`,
`-2^63 < q <= 0`, each for a product that has at least one batch of the tenant
with quantity > 0, commits the order, changes no batch and appends for each
line one `SALES_ORDER` movement whose quantity change is `-q >= 0`. And in
every order that `SalesOrderModel.Create` commits, whatever its other lines
and the fault script, a line of such a quantity `q` has a movement with the
quantity change `-q >= 0`. -/
theorem ConsumeStockFEFO_nonpositive :
    (∀ (tx : Store) (p t q : Int), q ≤ 0 →
      (∀ b ∈ qBatches tx p t, b.LoteNumber ≠ none) →
      (ConsumeStockFEFO tx [] p t q).err = none ∧ (ConsumeStockFEFO tx [] p t q).tx = tx) ∧
    (∀ (db : Store) (order : SalesOrder) (items : List OrderItem),
      (∀ b ∈ db.product_batches, ∃ pr ∈ db.products, pr.ID = b.ProductID) →
      (∀ it ∈ items, (-9223372036854775808 < it.Quantity ∧ it.Quantity ≤ 0) ∧
        (∀ b ∈ qBatches db it.ProductID order.UserID, b.LoteNumber ≠ none) ∧
        ∃ b ∈ db.product_batches, b.ProductID = it.ProductID ∧ b.UserID = order.UserID ∧
          0 < b.Quantity) →
      (SalesOrderModel.Create db [] order items).err = none ∧
      (SalesOrderModel.Create db [] order items).db.product_batches = db.product_batches ∧
      (SalesOrderModel.Create db [] order items).db.sales_orders =
        db.sales_orders ++ [(SalesOrderModel.Create db [] order items).order] ∧
      (SalesOrderModel.Create db [] order items).db.stock_movements =
        db.stock_movements ++ items.map (fun it =>
          { product_id := it.ProductID, quantity_change := -it.Quantity,
            reason := "SALES_ORDER",
            reference_id := toString (SalesOrderModel.Create db [] order items).order.ID,
            user_id := order.UserID }) ∧
      ∀ it ∈ items, 0 ≤ -it.Quantity) ∧
    (∀ (db : Store) (w : List Bool) (order : SalesOrder) (items : List OrderItem),
      (SalesOrderModel.Create db w order items).err = none →
      ∀ it ∈ items, -9223372036854775808 < it.Quantity → it.Quantity ≤ 0 →
        ({ product_id := it.ProductID, quantity_change := -it.Quantity, reason := "SALES_ORDER",
           reference_id := toString (SalesOrderModel.Create db w order items).order.ID,
           user_id := order.UserID } : StockMovement) ∈
            (SalesOrderModel.Create db w order items).db.stock_movements ∧
          0 ≤ -it.Quantity) := by
  refine ⟨fun tx p t q hq hlot => ?_, fun db order items hfk h => ?_,
    fun db w order items hok it hit hmin hq => ?_⟩
  · obtain ⟨h1, h2, _⟩ := ConsumeStockFEFO_of_nonpos tx [] p t q hq rfl hlot
    exact ⟨h1, h2⟩
  · obtain ⟨h1, h2⟩ := Create_of_nonpos_lines db order items hfk
      fun it hit => ⟨(h it hit).1.2, (h it hit).2⟩
    obtain ⟨k1, k2, _⟩ := Create_ok db [] order items h1
    refine ⟨h1, h2, k2, ?_, fun it hit => by have := (h it hit).1.2; omega⟩
    rw [k1]
    congr 1
    apply List.map_congr_left
    intro it hit
    have hne : it.Quantity ≠ -9223372036854775808 := by have := (h it hit).1.1; omega
    simp only [salesMovement, negInt_of_ne hne]
  · obtain ⟨k1, _, _⟩ := Create_ok db w order items hok
    have hne : it.Quantity ≠ -9223372036854775808 := by omega
    refine ⟨?_, by omega⟩
    rw [k1]
    apply List.mem_append_right
    have := List.mem_map_of_mem
      (salesMovement (SalesOrderModel.Create db w order items).order.ID order.UserID) hit
    simpa only [salesMovement, negInt_of_ne hne] using this

/-- Instance of C27: in `salesStore`, consuming 0 units is a no-op, and an
order of tenant 7 with a line of -3 units and a line of 0 units of product 1
is committed with movements of +3 and 0 and untouched batches. -/
theorem ConsumeStockFEFO_nonpositive_witness :
    ((ConsumeStockFEFO salesStore [] 1 7 0).err = none ∧
      (ConsumeStockFEFO salesStore [] 1 7 0).tx = salesStore) ∧
    (SalesOrderModel.Create salesStore [] pendingOrder [line 1 (-3), line 1 0]).err = none ∧
    (SalesOrderModel.Create salesStore [] pendingOrder
      [line 1 (-3), line 1 0]).db.product_batches = salesStore.product_batches ∧
    (SalesOrderModel.Create salesStore [] pendingOrder
      [line 1 (-3), line 1 0]).db.stock_movements =
      [{ product_id := 1, quantity_change := 3, reason := "SALES_ORDER", reference_id := "1",
         user_id := 7 },
       { product_id := 1, quantity_change := 0, reason := "SALES_ORDER", reference_id := "1",
         user_id := 7 }] :=
  ⟨ConsumeStockFEFO_nonpositive.1 salesStore 1 7 0 (by decide) (by decide),
    (ConsumeStockFEFO_nonpositive.2.1 salesStore pendingOrder [line 1 (-3), line 1 0]
      (by decide) (by decide)).1,
    (ConsumeStockFEFO_nonpositive.2.1 salesStore pendingOrder [line 1 (-3), line 1 0]
      (by decide) (by decide)).2.1,
    (ConsumeStockFEFO_nonpositive.2.1 salesStore pendingOrder [line 1 (-3), line 1 0]
      (by decide) (by decide)).2.2.2.1⟩

/-- Counterexample to C27. In `fefoStore`, whose product 1 has three batches
of 5 units for tenant 7, the order with the single line of `q = -2^63` units
of product 1 passes the validator, the allocator returns nil without a write,
and the order is committed with untouched batches; the quantity change of its
movement is `-q` in Go's `int`, that is `-2^63`, which is negative. -/
theorem Create_least_int_line_is_negative :
    (ConsumeStockFEFO fefoStore [] 1 7 (-9223372036854775808)).err = none ∧
    (SalesOrderModel.Create fefoStore [] pendingOrder
      [line 1 (-9223372036854775808)]).err = none ∧
    (SalesOrderModel.Create fefoStore [] pendingOrder
      [line 1 (-9223372036854775808)]).db.product_batches = fefoStore.product_batches ∧
    (SalesOrderModel.Create fefoStore [] pendingOrder
      [line 1 (-9223372036854775808)]).db.stock_movements.map
        (fun m => (m.reason, m.quantity_change)) = [("SALES_ORDER", -9223372036854775808)] ∧
    ¬ ∀ m ∈ (SalesOrderModel.Create fefoStore [] pendingOrder
        [line 1 (-9223372036854775808)]).db.stock_movements, 0 ≤ m.quantity_change :=
  ⟨by decide, by decide, by decide, by decide, by decide⟩

/-! ### Role check on the sales-order routes -/

/-- C25, at the failing input. The three sales-order routes give
`RequireRole` the single role `vendedor`. A request whose role is `vendedor`
reaches the handler, whatever the handler; a request whose role is `admin` is
answered 403 by the middleware and reaches no handler: for the creation of an
order with one line of 2 units of product 1 in `salesStore`, the seller gets
201 and the administrator 403, with no call of `SalesOrderModel.Create` and
an unchanged store. -/
theorem RequireRole_rejects_admin :
    SetupRouter.salesOrders.map (fun route => (route.method, route.path, route.requiredRoles)) =
      [("POST", "/sales-orders", ["vendedor"]), ("GET", "/sales-orders", ["vendedor"]),
       ("GET", "/sales-orders/\x7bid:[0-9]+\x7d", ["vendedor"])] ∧
    (∀ (α : Type) (next : Handler α) (ctx : Context) (body : Option α) (id : Int) (db : Store)
        (w : List Bool),
      RequireRole ["vendedor"] next ⟨{ ctx with user_role := some "vendedor" }, body, id⟩ db w =
        next ⟨{ ctx with user_role := some "vendedor" }, body, id⟩ db w) ∧
    (∀ (α : Type) (next : Handler α) (ctx : Context) (body : Option α) (id : Int) (db : Store)
        (w : List Bool),
      (RequireRole ["vendedor"] next ⟨{ ctx with user_role := some "admin" }, body, id⟩
          db w).response =
          ⟨403, .object [("error", .str "Acceso denegado: requiere rol vendedor")]⟩ ∧
        (RequireRole ["vendedor"] next ⟨{ ctx with user_role := some "admin" }, body, id⟩
          db w).db = db ∧
        (RequireRole ["vendedor"] next ⟨{ ctx with user_role := some "admin" }, body, id⟩
          db w).createCalls = []) ∧
    (RequireRole ["vendedor"] (CreateSalesOrderV2 0) (orderRequest "vendedor" [⟨1, 2⟩])
        salesStore []).response.status = 201 ∧
    (RequireRole ["vendedor"] (CreateSalesOrderV2 0) (orderRequest "admin" [⟨1, 2⟩])
        salesStore []).response.status = 403 :=
  ⟨by decide, fun _ _ _ _ _ _ _ => rfl, fun _ _ _ _ _ _ _ => ⟨rfl, rfl, rfl⟩,
    by decide, by decide⟩

/-! ### Validation of the lines by the sales-order handlers -/

theorem CreateSalesOrder_items_none : ∀ (l : List OrderItemInput),
    (∃ it ∈ l, it.Quantity ≤ 0) → CreateSalesOrder.items l = none
  | [], h => by simp at h
  | it :: rest, h => by
    by_cases hq : it.Quantity ≤ 0
    · simp [CreateSalesOrder.items, hq]
    · have hrest : ∃ x ∈ rest, x.Quantity ≤ 0 := by
        obtain ⟨x, hx, hxq⟩ := h
        rcases List.mem_cons.1 hx with h1 | h1
        · subst h1; exact absurd hxq hq
        · exact ⟨x, h1, hxq⟩
      simp [CreateSalesOrder.items, hq, CreateSalesOrder_items_none rest hrest]

theorem CreateSalesOrder_items_some : ∀ (l : List OrderItemInput) (items : List OrderItem),
    CreateSalesOrder.items l = some items →
    items.length = l.length ∧ ∀ it ∈ items, 0 < it.Quantity
  | [], items, h => by
    simp [CreateSalesOrder.items] at h
    subst h
    simp
  | it :: rest, items, h => by
    by_cases hq : it.Quantity ≤ 0
    · simp [CreateSalesOrder.items, hq] at h
    · cases hr : CreateSalesOrder.items rest with
      | none => simp [CreateSalesOrder.items, hq, hr] at h
      | some items1 =>
        obtain ⟨h1, h2⟩ := CreateSalesOrder_items_some rest items1 hr
        simp [CreateSalesOrder.items, hq, hr] at h
        subst h
        refine ⟨by simp [h1], fun x hx => ?_⟩
        rcases List.mem_cons.1 hx with hx | hx
        · subst hx; simpa using hq
        · exact h2 x hx

theorem CreateSalesOrder_rejects (r : Request CreateOrderInput) (db : Store) (w : List Bool)
    (hbad : ∀ input, r.body = some input →
      input.Items = [] ∨ ∃ it ∈ input.Items, it.Quantity ≤ 0) :
    (r.ctx.organization_id ≠ none → (CreateSalesOrder r db w).response.status = 400) ∧
    (CreateSalesOrder r db w).createCalls = [] ∧ (CreateSalesOrder r db w).db = db := by
  unfold CreateSalesOrder OrganizationIDFromContext
  cases ho : r.ctx.organization_id with
  | none => simp [Reply.only]
  | some o =>
    cases hb : r.body with
    | none => simp [Reply.only, httpError]
    | some input =>
      rcases hbad input hb with h | h
      · simp [h, Reply.only, httpError]
      · by_cases hl : input.Items.length = 0
        · simp [hl, Reply.only, httpError]
        · simp [hl, CreateSalesOrder_items_none _ h, Reply.only, httpError]

theorem CreateSalesOrderV2_rejects (now : Int) (r : Request CreateOrderInput) (db : Store)
    (w : List Bool)
    (hbad : ∀ input, r.body = some input →
      input.Items = [] ∨ ∃ it ∈ input.Items, it.Quantity ≤ 0) :
    (r.ctx.organization_id ≠ none → (CreateSalesOrderV2 now r db w).response.status = 400) ∧
    (CreateSalesOrderV2 now r db w).createCalls = [] ∧
    (CreateSalesOrderV2 now r db w).db = db := by
  unfold CreateSalesOrderV2 OrganizationIDFromContext
  cases ho : r.ctx.organization_id with
  | none => simp [Reply.only]
  | some o =>
    cases hb : r.body with
    | none => simp [Reply.only, httpError]
    | some input =>
      rcases hbad input hb with h | h
      · simp [h, Reply.only, httpError]
      · by_cases hl : input.Items.length = 0
        · simp [hl, Reply.only, httpError]
        · simp [hl, CreateSalesOrder_items_none _ h, Reply.only, httpError]

theorem CreateSalesOrder_calls (r : Request CreateOrderInput) (db : Store) (w : List Bool) :
    ∀ call ∈ (CreateSalesOrder r db w).createCalls,
      call.2 ≠ [] ∧ ∀ it ∈ call.2, 0 < it.Quantity := by
  unfold CreateSalesOrder
  cases OrganizationIDFromContext r.ctx with
  | none => simp [Reply.only]
  | some o =>
    cases r.body with
    | none => simp [Reply.only]
    | some input =>
      by_cases hl : input.Items.length = 0
      · simp [hl, Reply.only]
      · cases hi : CreateSalesOrder.items input.Items with
        | none => simp [hl, hi, Reply.only]
        | some items =>
          obtain ⟨h1, h2⟩ := CreateSalesOrder_items_some _ _ hi
          have hne : items ≠ [] := by
            intro h0
            rw [h0] at h1
            exact hl h1.symm
          simp only [hl, if_false, hi]
          intro call hcall
          have hc : call = (CreateSalesOrder.order o input, items) := by
            cases hcr : (SalesOrderModel.Create db w (CreateSalesOrder.order o input) items).err with
            | none => simpa [hcr] using hcall
            | some e => cases e <;> simpa [hcr] using hcall
          subst hc
          exact ⟨hne, h2⟩

theorem CreateSalesOrderV2_calls (now : Int) (r : Request CreateOrderInput) (db : Store)
    (w : List Bool) :
    ∀ call ∈ (CreateSalesOrderV2 now r db w).createCalls,
      call.2 ≠ [] ∧ ∀ it ∈ call.2, 0 < it.Quantity := by
  unfold CreateSalesOrderV2
  cases OrganizationIDFromContext r.ctx with
  | none => simp [Reply.only]
  | some o =>
    cases r.body with
    | none => simp [Reply.only]
    | some input =>
      by_cases hl : input.Items.length = 0
      · simp [hl, Reply.only]
      · cases hi : CreateSalesOrder.items input.Items with
        | none => simp [hl, hi, Reply.only]
        | some items =>
          obtain ⟨h1, h2⟩ := CreateSalesOrder_items_some _ _ hi
          have hne : items ≠ [] := by
            intro h0
            rw [h0] at h1
            exact hl h1.symm
          simp only [hl, if_false, hi]
          intro call hcall
          have hc : call = (CreateSalesOrder.order o input, items) := by
            cases hcr : (SalesOrderModel.Create db w (CreateSalesOrder.order o input) items).err with
            | none => simpa [hcr] using hcall
            | some e => cases e <;> simpa [hcr] using hcall
          subst hc
          exact ⟨hne, h2⟩

/-- C23. For every request: when the decoded body has no item, or an item
whose quantity is not positive (or when the body does not decode at all), the
handlers `CreateSalesOrder` and `CreateSalesOrderV2` answer 400 Bad Request to
an authenticated request, make no call of `SalesOrderModel.Create` and leave
the store as it was. Conversely every call of `SalesOrderModel.Create` that
either handler makes carries a non-empty list of lines with positive
quantities, so no other order reaches the store through them. -/
theorem CreateSalesOrder_rejects_nonpositive (now : Int) (r : Request CreateOrderInput)
    (db : Store) (w : List Bool) :
    ((∀ input, r.body = some input →
        input.Items = [] ∨ ∃ it ∈ input.Items, it.Quantity ≤ 0) →
      (r.ctx.organization_id ≠ none →
        (CreateSalesOrder r db w).response.status = 400 ∧
        (CreateSalesOrderV2 now r db w).response.status = 400) ∧
      (CreateSalesOrder r db w).createCalls = [] ∧ (CreateSalesOrder r db w).db = db ∧
      (CreateSalesOrderV2 now r db w).createCalls = [] ∧
      (CreateSalesOrderV2 now r db w).db = db) ∧
    (∀ call ∈ (CreateSalesOrder r db w).createCalls,
      call.2 ≠ [] ∧ ∀ it ∈ call.2, 0 < it.Quantity) ∧
    (∀ call ∈ (CreateSalesOrderV2 now r db w).createCalls,
      call.2 ≠ [] ∧ ∀ it ∈ call.2, 0 < it.Quantity) := by
  refine ⟨fun hbad => ?_, CreateSalesOrder_calls r db w, CreateSalesOrderV2_calls now r db w⟩
  obtain ⟨h1, h2, h3⟩ := CreateSalesOrder_rejects r db w hbad
  obtain ⟨k1, k2, k3⟩ := CreateSalesOrderV2_rejects now r db w hbad
  exact ⟨fun ho => ⟨h1 ho, k1 ho⟩, h2, h3, k2, k3⟩

/-- Instance of C23: an order of tenant 7 with a line of 2 units and a line of
0 units of product 1 is answered 400 by both handlers, without any call of
`SalesOrderModel.Create`; with the line of 2 units alone, both handlers call
`SalesOrderModel.Create` once and answer 201. -/
theorem CreateSalesOrder_rejects_nonpositive_witness :
    ((CreateSalesOrder (orderRequest "vendedor" [⟨1, 2⟩, ⟨1, 0⟩]) salesStore []).response.status
        = 400 ∧
      (CreateSalesOrderV2 0 (orderRequest "vendedor" [⟨1, 2⟩, ⟨1, 0⟩])
        salesStore []).response.status = 400) ∧
    (CreateSalesOrder (orderRequest "vendedor" [⟨1, 2⟩, ⟨1, 0⟩]) salesStore []).createCalls = [] ∧
    (CreateSalesOrderV2 0 (orderRequest "vendedor" [⟨1, 2⟩, ⟨1, 0⟩])
      salesStore []).createCalls = [] ∧
    (CreateSalesOrder (orderRequest "vendedor" [⟨1, 2⟩]) salesStore []).createCalls.length = 1 ∧
    (CreateSalesOrder (orderRequest "vendedor" [⟨1, 2⟩]) salesStore []).response.status = 201 ∧
    (CreateSalesOrderV2 0 (orderRequest "vendedor" [⟨1, 2⟩]) salesStore []).response.status
      = 201 :=
  ⟨((CreateSalesOrder_rejects_nonpositive 0 (orderRequest "vendedor" [⟨1, 2⟩, ⟨1, 0⟩])
      salesStore []).1 (by
        intro input h
        cases h
        exact Or.inr ⟨⟨1, 0⟩, by simp, by decide⟩)).1 (by decide),
    ((CreateSalesOrder_rejects_nonpositive 0 (orderRequest "vendedor" [⟨1, 2⟩, ⟨1, 0⟩])
      salesStore []).1 (by
        intro input h
        cases h
        exact Or.inr ⟨⟨1, 0⟩, by simp, by decide⟩)).2.1,
    ((CreateSalesOrder_rejects_nonpositive 0 (orderRequest "vendedor" [⟨1, 2⟩, ⟨1, 0⟩])
      salesStore []).1 (by
        intro input h
        cases h
        exact Or.inr ⟨⟨1, 0⟩, by simp, by decide⟩)).2.2.2.1,
    by decide, by decide, by decide⟩

/-! ### Answers of the registered handler to a shortage -/

theorem CreateSalesOrderV2_on_sentinel (now : Int) (r : Request CreateOrderInput) (db : Store)
    (w : List Bool) :
    ∀ call ∈ (CreateSalesOrderV2 now r db w).createCalls,
      (SalesOrderModel.Create db w call.1 call.2).err = some .ErrInsufficientStock →
      (CreateSalesOrderV2 now r db w).response =
        ⟨409, .object [("error", .str "insufficient stock")]⟩ := by
  unfold CreateSalesOrderV2
  cases OrganizationIDFromContext r.ctx with
  | none => simp [Reply.only]
  | some o =>
    cases r.body with
    | none => simp [Reply.only]
    | some input =>
      by_cases hl : input.Items.length = 0
      · simp [hl, Reply.only]
      · cases hi : CreateSalesOrder.items input.Items with
        | none => simp [hl, hi, Reply.only]
        | some items =>
          simp only [hl, if_false, hi]
          intro call hcall herr
          have hc : call = (CreateSalesOrder.order o input, items) := by
            cases hcr : (SalesOrderModel.Create db w (CreateSalesOrder.order o input) items).err with
            | none => simpa [hcr] using hcall
            | some e => cases e <;> simpa [hcr] using hcall
          subst hc
          simp only [herr]

/-- C24, as the code has it. Whenever the call of `SalesOrderModel.Create`
made by `CreateSalesOrderV2`, the handler registered for POST /sales-orders,
returns the sentinel `ErrInsufficientStock`, the handler answers 409 Conflict
with the JSON object whose only member is `error` with the value
`insufficient stock`: the answer names no product id, product name, requested
or available quantity. -/
theorem CreateSalesOrderV2_sentinel_response (now : Int) (r : Request CreateOrderInput)
    (db : Store) (w : List Bool) (call : SalesOrder × List OrderItem)
    (hcall : call ∈ (CreateSalesOrderV2 now r db w).createCalls)
    (herr : (SalesOrderModel.Create db w call.1 call.2).err = some .ErrInsufficientStock) :
    (CreateSalesOrderV2 now r db w).response.status = 409 ∧
    (CreateSalesOrderV2 now r db w).response.body =
      .object [("error", .str "insufficient stock")] ∧
    (CreateSalesOrderV2 now r db w).response.member "product_id" = none ∧
    (CreateSalesOrderV2 now r db w).response.member "product_name" = none ∧
    (CreateSalesOrderV2 now r db w).response.member "requested" = none ∧
    (CreateSalesOrderV2 now r db w).response.member "available" = none := by
  rw [CreateSalesOrderV2_on_sentinel now r db w call hcall herr]
  exact ⟨rfl, rfl, by decide, by decide, by decide, by decide⟩

/-- Instance of C24: tenant 7 orders two lines of 8 units of product 1 in
`fefoStore`, which holds 15; each line passes the validator, the allocator
fails on the second, and `CreateSalesOrderV2` answers 409 with the bare error
string. -/
theorem CreateSalesOrderV2_sentinel_response_witness :
    (CreateSalesOrderV2 0 (orderRequest "vendedor" [⟨1, 8⟩, ⟨1, 8⟩]) fefoStore []).response.status
      = 409 ∧
    (CreateSalesOrderV2 0 (orderRequest "vendedor" [⟨1, 8⟩, ⟨1, 8⟩]) fefoStore []).response.body
      = .object [("error", .str "insufficient stock")] :=
  ⟨(CreateSalesOrderV2_sentinel_response 0 (orderRequest "vendedor" [⟨1, 8⟩, ⟨1, 8⟩]) fefoStore []
      (CreateSalesOrder.order 7 ⟨0, [⟨1, 8⟩, ⟨1, 8⟩]⟩, [line 1 8, line 1 8])
      (by decide) (by decide)).1,
    (CreateSalesOrderV2_sentinel_response 0 (orderRequest "vendedor" [⟨1, 8⟩, ⟨1, 8⟩]) fefoStore []
      (CreateSalesOrder.order 7 ⟨0, [⟨1, 8⟩, ⟨1, 8⟩]⟩, [line 1 8, line 1 8])
      (by decide) (by decide)).2.1⟩

/-- Counterexample to C24. The order of two lines of 8 units of product 1 in
`fefoStore` fails in `SalesOrderModel.Create` for lack of stock, with the
sentinel; the answer of `CreateSalesOrderV2` is a conflict, but it reports
neither product nor quantities. -/
theorem CreateSalesOrderV2_conflict_without_data :
    (SalesOrderModel.Create fefoStore [] (CreateSalesOrder.order 7 ⟨0, [⟨1, 8⟩, ⟨1, 8⟩]⟩)
      [line 1 8, line 1 8]).err = some .ErrInsufficientStock ∧
    (CreateSalesOrderV2 0 (orderRequest "vendedor" [⟨1, 8⟩, ⟨1, 8⟩]) fefoStore []).response =
      ⟨409, .object [("error", .str "insufficient stock")]⟩ ∧
    (CreateSalesOrderV2 0 (orderRequest "vendedor" [⟨1, 8⟩, ⟨1, 8⟩])
      fefoStore []).response.member "product_id" = none ∧
    (CreateSalesOrderV2 0 (orderRequest "vendedor" [⟨1, 8⟩, ⟨1, 8⟩])
      fefoStore []).response.member "available" = none :=
  ⟨by decide, by decide, by decide, by decide⟩

/-- The structured shortage report under both handlers. Tenant 7 orders 20
units of product 1 in `salesStore`, which holds 13: `SalesOrderModel.Create`
returns the report of the validator. `CreateSalesOrder` answers 409 with the
product and the quantities as members of the JSON object;
`CreateSalesOrderV2`, which has no branch for the report, answers 500 with the
message `could not create order`. -/
theorem CreateSalesOrderV2_drops_report :
    (SalesOrderModel.Create salesStore [] (CreateSalesOrder.order 7 ⟨0, [⟨1, 20⟩]⟩)
      [line 1 20]).err =
      some (.Shortfall { ProductID := 1, ProductName := "Yogur", Requested := 20,
                         Available := 13 }) ∧
    (CreateSalesOrder (orderRequest "vendedor" [⟨1, 20⟩]) salesStore []).response =
      ⟨409, .object [("error", .str "insufficient_stock"),
        ("message", .str
          "insufficient stock for product Yogur (ID: 1): requested 20, available 13"),
        ("product_id", .num 1), ("product_name", .str "Yogur"), ("requested", .num 20),
        ("available", .num 13)]⟩ ∧
    (CreateSalesOrderV2 0 (orderRequest "vendedor" [⟨1, 20⟩]) salesStore []).response =
      ⟨500, .text "could not create order"⟩ :=
  ⟨by decide, by decide, by decide⟩

/-! ### Quantities after a product update -/

end StockInOrder
